import Mathlib

/-!
# Data acquisition and analysis engine of the air-quality monitor

A shallow embedding of

* the statistics of `Measurement` (src/core/Measurement.cpp): completeness,
  extrema, mean, range filtering and the least-squares trend, together with the
  second implementation of the analysis, `MainWindow::analyzeFilteredData`
  (src/ui/mainwindow.cpp);
* the JSON constructors of `Measurement`, `Station`, `AirQualityIndex` and
  `Sensor`, and the distance `Station::distanceTo` (over the real numbers);
* the station operations of the two stores, `DatabaseManager` (SQLite) and
  `JsonBaseManager` (flat file), and the batch write
  `DatabaseManager::saveMeasurement`;
* the stations resource of `ApiHandler` (src/data/ApiHandler.cpp) as a state
  machine: `fetchStations`, the task it schedules, the queued call that ends
  it, and the slots `handleStationsReply` and `handleNetworkError`.

Modelling conventions.

* `double` is `Dbl`: NaN, the two infinities, and the finite values as rationals.
  Comparisons and the NaN / infinity rules follow IEEE-754, and the two zeros
  are one. The operations `Dbl.add`, `Dbl.mul`, ... on finite values are exact
  (no rounding, no overflow); the operations `Dbl.add64`, `Dbl.mul64`, ... round
  the exact result to binary64. `analyzeData` is the method in exact arithmetic,
  `analyzeData64` the method in binary64.
* `QDateTime` is `Option Int`: `none` is an invalid date-time, `some s` a valid one
  `s` seconds after the epoch (the program builds its timestamps at a resolution
  of one second, format `yyyy-MM-dd HH:mm:ss`).
* `QVector<DataPoint>` is `List DataPoint`; a range-for loop is a `List.foldl`
  over the loop state, or a recursion over the list.
* A JSON document is a `QJsonValue`; the conversions of Qt between strings,
  numbers and dates are the fields of `QtLib` and are taken as given.
* A member that a constructor leaves uninitialised holds a value that is an
  argument of the model of that constructor.
* An SQL table is the list of its rows and the JSON file its root object. A
  statement or a write that fails is not modelled, except the row writes of
  `saveMeasurement`, whose outcomes are an argument.
* The steps of the handler that run in different threads are separate
  functions on its state; a run is a composition of them.
-/

namespace Measurement

/-! ## double -/

/-- A value of type `double`. -/
inductive Dbl where
  | nan : Dbl
  | ninf : Dbl
  | fin (q : ℚ) : Dbl
  | pinf : Dbl
  deriving DecidableEq

namespace Dbl

/-- The test `std::isnan`. -/
def isnan : Dbl → Bool
  | nan => true
  | _ => false

/-- The comparison `a < b` of two doubles: false as soon as one side is NaN. -/
def lt : Dbl → Dbl → Bool
  | nan, _ => false
  | _, nan => false
  | ninf, ninf => false
  | ninf, _ => true
  | fin _, ninf => false
  | fin a, fin b => decide (a < b)
  | fin _, pinf => true
  | pinf, _ => false

/-- The comparison `a > b`. -/
def gt (a b : Dbl) : Bool := lt b a

/-- The comparison `a >= b`: false as soon as one side is NaN. -/
def ge : Dbl → Dbl → Bool
  | nan, _ => false
  | _, nan => false
  | a, b => !lt a b

/-- The comparison `a != b`: true as soon as one side is NaN. -/
def ne : Dbl → Dbl → Bool
  | nan, _ => true
  | _, nan => true
  | a, b => decide (a ≠ b)

/-- The negation `-a`. -/
def neg : Dbl → Dbl
  | nan => nan
  | ninf => pinf
  | fin q => fin (-q)
  | pinf => ninf

/-- The absolute value of a double, the overload `abs(double)` of `<cmath>`. -/
def abs : Dbl → Dbl
  | nan => nan
  | ninf => pinf
  | fin q => fin |q|
  | pinf => pinf

/-- The sum `a + b`. -/
def add : Dbl → Dbl → Dbl
  | nan, _ => nan
  | _, nan => nan
  | ninf, pinf => nan
  | pinf, ninf => nan
  | ninf, _ => ninf
  | _, ninf => ninf
  | pinf, _ => pinf
  | _, pinf => pinf
  | fin a, fin b => fin (a + b)

/-- The difference `a - b`. -/
def sub (a b : Dbl) : Dbl := add a (neg b)

/-- An infinity of the sign of `q`, NaN when `q` is zero: the value of `q * inf`. -/
def signedInf (q : ℚ) : Dbl :=
  if q = 0 then nan else if 0 < q then pinf else ninf

/-- The product `a * b`. -/
def mul : Dbl → Dbl → Dbl
  | nan, _ => nan
  | _, nan => nan
  | fin a, fin b => fin (a * b)
  | fin a, pinf => signedInf a
  | fin a, ninf => signedInf (-a)
  | pinf, fin b => signedInf b
  | ninf, fin b => signedInf (-b)
  | pinf, pinf => pinf
  | ninf, ninf => pinf
  | pinf, ninf => ninf
  | ninf, pinf => ninf

/-- The quotient `a / b`. Dividing by zero raises nothing: `0 / 0` is NaN and
`x / 0` an infinity of the sign of `x` (the zero of the model is `+0`). -/
def div : Dbl → Dbl → Dbl
  | nan, _ => nan
  | _, nan => nan
  | fin a, fin b => if b = 0 then signedInf a else fin (a / b)
  | fin _, pinf => fin 0
  | fin _, ninf => fin 0
  | pinf, fin b => if 0 ≤ b then pinf else ninf
  | ninf, fin b => if 0 ≤ b then ninf else pinf
  | pinf, pinf => nan
  | pinf, ninf => nan
  | ninf, pinf => nan
  | ninf, ninf => nan

/-- The conversion of an integer (`int`, `qint64`) to `double`. -/
def ofInt (n : Int) : Dbl := fin n

end Dbl

/-- The constant `std::numeric_limits<double>::max()`, as a rational. -/
def DBL_MAX : ℚ := 2 ^ 1024 - 2 ^ 971

/-- The value `std::numeric_limits<double>::max()`. -/
def dblMax : Dbl := Dbl.fin DBL_MAX

/-- The value `std::numeric_limits<double>::lowest()`. -/
def dblLowest : Dbl := Dbl.fin (-DBL_MAX)

/-! ## QDateTime -/

/-- A `QDateTime`: `none` is invalid (as the default-constructed one), `some s`
is valid, `s` seconds after the epoch. -/
abbrev QDateTime := Option Int

namespace QDateTime

/-- The method `QDateTime::isValid`. -/
def isValid (d : QDateTime) : Bool := d.isSome

/-- The comparison `a < b` of Qt (5.14 and later): an invalid date-time is less
than every valid one, and not less than an invalid one. -/
def lt : QDateTime → QDateTime → Bool
  | none, none => false
  | none, some _ => true
  | some _, none => false
  | some a, some b => decide (a < b)

/-- The comparison `a > b` of Qt. -/
def gt (a b : QDateTime) : Bool := lt b a

/-- The method `QDateTime::toSecsSinceEpoch`; `0` for an invalid date-time. -/
def toSecsSinceEpoch : QDateTime → Int
  | none => 0
  | some s => s

end QDateTime

/-! ## Measurement -/

/-- The struct `Measurement::DataPoint`. -/
structure DataPoint where
  timestamp : QDateTime
  value : Dbl
  isValid : Bool
  deriving DecidableEq

/-- The method `Measurement::validCount`: `std::count_if` over `isValid`. -/
def validCount (m_data : List DataPoint) : Int :=
  (m_data.countP (fun p => p.isValid) : Nat)

/-- The method `Measurement::dataCompleteness`. -/
def dataCompleteness (m_data : List DataPoint) : Dbl :=
  if m_data.isEmpty then Dbl.fin 0
  else Dbl.div (Dbl.mul (Dbl.ofInt (validCount m_data)) (Dbl.fin 100))
    (Dbl.ofInt (m_data.length : Nat))

/-- The body of the loop of `Measurement::maxValue`. -/
def maxStep (max : Dbl) (point : DataPoint) : Dbl :=
  if point.isValid && (!point.value.isnan && (max.isnan || Dbl.gt point.value max))
  then point.value else max

/-- The method `Measurement::maxValue`: the loop starts from NaN. -/
def maxValue (m_data : List DataPoint) : Dbl :=
  m_data.foldl maxStep Dbl.nan

/-- The method `Measurement::avgValue`: the loop state is `(sum, count)`. -/
def avgValue (m_data : List DataPoint) : Dbl :=
  let acc := m_data.foldl (fun (acc : Dbl × Int) point =>
    if point.isValid && !point.value.isnan then (Dbl.add acc.1 point.value, acc.2 + 1)
    else acc) (Dbl.fin 0, 0)
  if acc.2 > 0 then Dbl.div acc.1 (Dbl.ofInt acc.2) else Dbl.nan

/-- The body of the loop of `Measurement::filterByDateRange`. -/
def filterStep (lo hi : QDateTime) (result : List DataPoint) (point : DataPoint) :
    List DataPoint :=
  let matching := true
  let matching := if lo.isValid && QDateTime.lt point.timestamp lo then false else matching
  let matching := if hi.isValid && QDateTime.gt point.timestamp hi then false else matching
  if matching then result ++ [point] else result

/-- The method `Measurement::filterByDateRange(from, to)`; `lo` is `from`, `hi` is `to`. -/
def filterByDateRange (m_data : List DataPoint) (lo hi : QDateTime) : List DataPoint :=
  m_data.foldl (filterStep lo hi) []

/-- The text of `AnalysisResult::trend`. `unset` is the empty `QString` the struct
is created with; `zaMaloDanych` is `Za mało danych` (too little data);
`stabilne` is `<span style='color:black;'>Stabilne</span>`;
`wzrost a` is `<span style='color:green;'>Wzrost (a/h)</span>` and `spadek a` is
`<span style='color:red;'>Spadek (a/h)</span>`, with `a` printed to three decimals. -/
inductive TrendText where
  | unset : TrendText
  | zaMaloDanych : TrendText
  | stabilne : TrendText
  | wzrost (a : Dbl) : TrendText
  | spadek (a : Dbl) : TrendText
  deriving DecidableEq

/-- The struct `Measurement::AnalysisResult`. `trendValue` is `none` as long as
the field has not been assigned (the struct is created without initialiser). -/
structure AnalysisResult where
  minValue : Dbl
  maxValue : Dbl
  avgValue : Dbl
  minTime : QDateTime
  maxTime : QDateTime
  trend : TrendText
  trendValue : Option Dbl
  deriving DecidableEq

/-- The state of the first loop of `analyzeData`. -/
structure Extrema where
  minValue : Dbl
  minTime : QDateTime
  maxValue : Dbl
  maxTime : QDateTime
  sum : Dbl
  count : Int
  deriving DecidableEq

/-- The state before the first loop of `analyzeData`: the extrema start from the
sentinels `max()` and `lowest()`, the times from the invalid `QDateTime`. -/
def Extrema.init : Extrema :=
  { minValue := dblMax, minTime := none, maxValue := dblLowest, maxTime := none,
    sum := Dbl.fin 0, count := 0 }

/-- The body of the first loop of `analyzeData`. -/
def extremaStep (r : Extrema) (point : DataPoint) : Extrema :=
  if point.isValid && !point.value.isnan then
    let r := if Dbl.lt point.value r.minValue
      then { r with minValue := point.value, minTime := point.timestamp } else r
    let r := if Dbl.gt point.value r.maxValue
      then { r with maxValue := point.value, maxTime := point.timestamp } else r
    { r with sum := Dbl.add r.sum point.value, count := r.count + 1 }
  else r

/-- The state of the regression loop of `analyzeData`. -/
structure Sums where
  sumX : Dbl
  sumY : Dbl
  sumXY : Dbl
  sumX2 : Dbl
  n : Int
  deriving DecidableEq

/-- The state before the regression loop. -/
def Sums.init : Sums :=
  { sumX := Dbl.fin 0, sumY := Dbl.fin 0, sumXY := Dbl.fin 0, sumX2 := Dbl.fin 0, n := 0 }

/-- The body of the regression loop of `analyzeData`: it tests `p.isValid` only. -/
def sumsStep (s : Sums) (p : DataPoint) : Sums :=
  if p.isValid then
    let x := Dbl.div (Dbl.ofInt p.timestamp.toSecsSinceEpoch) (Dbl.fin 3600)
    let y := p.value
    { sumX := Dbl.add s.sumX x, sumY := Dbl.add s.sumY y,
      sumXY := Dbl.add s.sumXY (Dbl.mul x y), sumX2 := Dbl.add s.sumX2 (Dbl.mul x x),
      n := s.n + 1 }
  else s

/-- The slope `a` of `analyzeData`:
`(n * sumXY - sumX * sumY) / (n * sumX2 - sumX * sumX)`, with no test of the
denominator. -/
def slope (m_data : List DataPoint) : Dbl :=
  let s := m_data.foldl sumsStep Sums.init
  Dbl.div (Dbl.sub (Dbl.mul (Dbl.ofInt s.n) s.sumXY) (Dbl.mul s.sumX s.sumY))
    (Dbl.sub (Dbl.mul (Dbl.ofInt s.n) s.sumX2) (Dbl.mul s.sumX s.sumX))

/-- The classification of the trend in `analyzeData`; `abs` is the absolute
value of a double and `0.01` the rational `1/100`. -/
def classify (avgChangePerHour : Dbl) : TrendText :=
  if Dbl.lt (Dbl.abs avgChangePerHour) (Dbl.fin (1 / 100)) then TrendText.stabilne
  else if Dbl.ge avgChangePerHour (Dbl.fin (1 / 100)) then TrendText.wzrost avgChangePerHour
  else TrendText.spadek avgChangePerHour

/-- The method `Measurement::analyzeData`. -/
def analyzeData (m_data : List DataPoint) : AnalysisResult :=
  let r := m_data.foldl extremaStep Extrema.init
  let result : AnalysisResult :=
    if r.count > 0 then
      { minValue := r.minValue, maxValue := r.maxValue,
        avgValue := Dbl.div r.sum (Dbl.ofInt r.count),
        minTime := r.minTime, maxTime := r.maxTime,
        trend := TrendText.unset, trendValue := none }
    else
      { minValue := Dbl.nan, maxValue := Dbl.nan, avgValue := Dbl.nan,
        minTime := r.minTime, maxTime := r.maxTime,
        trend := TrendText.unset, trendValue := none }
  if r.count > 1 then
    let a := slope m_data
    { result with trend := classify a, trendValue := some a }
  else result

/-! ## binary64

The arithmetic of `double` with its rounding: each operation is the exact one
followed by the rounding to the nearest binary64 value, every operation of the
source being rounded on its own (no fused multiply-add). `analyzeData64` is
`analyzeData` with these operations. -/

/-- The integer nearest to `N / D`, the even one of the two when `N / D` lies
half-way between two integers (`0 < D`). -/
def Dbl.roundHalfEven (N D : Nat) : Nat :=
  let q := N / D
  let r := N % D
  if 2 * r < D then q else if D < 2 * r then q + 1 else if q % 2 = 0 then q else q + 1

/-- The number of halvings that bring `n` below 2, at most `fuel` of them. -/
def Dbl.log2Fuel : Nat → Nat → Nat
  | 0, _ => 0
  | fuel + 1, n => if n < 2 then 0 else Dbl.log2Fuel fuel (n / 2) + 1

/-- The binary logarithm of `n`, rounded down (`0 < n`). -/
def Dbl.log2 (n : Nat) : Nat := Dbl.log2Fuel n n

/-- The binary exponent of `n / d`: the integer `e` with
`2 ^ e ≤ n / d < 2 ^ (e + 1)` (`0 < n`, `0 < d`). -/
def Dbl.exponent (n d : Nat) : Int :=
  let e0 : Int := (Dbl.log2 n : Int) - (Dbl.log2 d : Int)
  if 0 ≤ e0 then (if d * 2 ^ e0.toNat ≤ n then e0 else e0 - 1)
  else (if d ≤ n * 2 ^ (-e0).toNat then e0 else e0 - 1)

/-- The binary64 value of a rational number, by the rounding of IEEE 754 that the
arithmetic of `double` uses (to nearest, ties to even): the multiple of the unit
in the last place `2 ^ k` nearest to `q`, where `k + 52` is the exponent of `q`,
at least `-1022`; an infinity when that multiple exceeds `DBL_MAX`. -/
def Dbl.round64 (q : ℚ) : Dbl :=
  if q = 0 then Dbl.fin 0
  else
    let n := q.num.natAbs
    let d := q.den
    let k := max (Dbl.exponent n d) (-1022) - 52
    let r : ℚ :=
      if 0 ≤ k then ((Dbl.roundHalfEven n (d * 2 ^ k.toNat) * 2 ^ k.toNat : Nat) : ℚ)
      else (Dbl.roundHalfEven (n * 2 ^ (-k).toNat) d : ℚ) / ((2 ^ (-k).toNat : Nat) : ℚ)
    if ((2 ^ 1024 : Nat) : ℚ) ≤ r then (if 0 < q then Dbl.pinf else Dbl.ninf)
    else Dbl.fin (if 0 < q then r else -r)

/-- The rounding of the exact result of an operation to binary64. -/
def Dbl.rnd : Dbl → Dbl
  | Dbl.fin q => Dbl.round64 q
  | a => a

/-- The sum `a + b` of binary64. -/
def Dbl.add64 (a b : Dbl) : Dbl := Dbl.rnd (Dbl.add a b)

/-- The difference `a - b` of binary64. -/
def Dbl.sub64 (a b : Dbl) : Dbl := Dbl.rnd (Dbl.sub a b)

/-- The product `a * b` of binary64. -/
def Dbl.mul64 (a b : Dbl) : Dbl := Dbl.rnd (Dbl.mul a b)

/-- The quotient `a / b` of binary64. -/
def Dbl.div64 (a b : Dbl) : Dbl := Dbl.rnd (Dbl.div a b)

/-- The conversion of an integer (`int`, `qint64`) to binary64. -/
def Dbl.ofInt64 (n : Int) : Dbl := Dbl.round64 n

/-- The body of the first loop of `analyzeData`, in binary64. -/
def extremaStep64 (r : Extrema) (point : DataPoint) : Extrema :=
  if point.isValid && !point.value.isnan then
    let r := if Dbl.lt point.value r.minValue
      then { r with minValue := point.value, minTime := point.timestamp } else r
    let r := if Dbl.gt point.value r.maxValue
      then { r with maxValue := point.value, maxTime := point.timestamp } else r
    { r with sum := Dbl.add64 r.sum point.value, count := r.count + 1 }
  else r

/-- The body of the regression loop of `analyzeData`, in binary64. -/
def sumsStep64 (s : Sums) (p : DataPoint) : Sums :=
  if p.isValid then
    let x := Dbl.div64 (Dbl.ofInt64 p.timestamp.toSecsSinceEpoch) (Dbl.fin 3600)
    let y := p.value
    { sumX := Dbl.add64 s.sumX x, sumY := Dbl.add64 s.sumY y,
      sumXY := Dbl.add64 s.sumXY (Dbl.mul64 x y), sumX2 := Dbl.add64 s.sumX2 (Dbl.mul64 x x),
      n := s.n + 1 }
  else s

/-- The slope `a` of `analyzeData`, in binary64. -/
def slope64 (m_data : List DataPoint) : Dbl :=
  let s := m_data.foldl sumsStep64 Sums.init
  Dbl.div64 (Dbl.sub64 (Dbl.mul64 (Dbl.ofInt64 s.n) s.sumXY) (Dbl.mul64 s.sumX s.sumY))
    (Dbl.sub64 (Dbl.mul64 (Dbl.ofInt64 s.n) s.sumX2) (Dbl.mul64 s.sumX s.sumX))

/-- The classification of the trend in `analyzeData`, in binary64: `0.01` is the
binary64 value of the literal. -/
def classify64 (avgChangePerHour : Dbl) : TrendText :=
  if Dbl.lt (Dbl.abs avgChangePerHour) (Dbl.round64 (1 / 100)) then TrendText.stabilne
  else if Dbl.ge avgChangePerHour (Dbl.round64 (1 / 100)) then
    TrendText.wzrost avgChangePerHour
  else TrendText.spadek avgChangePerHour

/-- The method `Measurement::analyzeData`, in binary64. -/
def analyzeData64 (m_data : List DataPoint) : AnalysisResult :=
  let r := m_data.foldl extremaStep64 Extrema.init
  let result : AnalysisResult :=
    if r.count > 0 then
      { minValue := r.minValue, maxValue := r.maxValue,
        avgValue := Dbl.div64 r.sum (Dbl.ofInt64 r.count),
        minTime := r.minTime, maxTime := r.maxTime,
        trend := TrendText.unset, trendValue := none }
    else
      { minValue := Dbl.nan, maxValue := Dbl.nan, avgValue := Dbl.nan,
        minTime := r.minTime, maxTime := r.maxTime,
        trend := TrendText.unset, trendValue := none }
  if r.count > 1 then
    let a := slope64 m_data
    { result with trend := classify64 a, trendValue := some a }
  else result

/-! ## MainWindow::analyzeFilteredData (src/ui/mainwindow.cpp) -/

/-- The body of the regression loop of `MainWindow::analyzeFilteredData`: it
tests `point.isValid && !std::isnan(point.value)`. -/
def sumsStepFiltered (s : Sums) (point : DataPoint) : Sums :=
  if point.isValid && !point.value.isnan then
    let x := Dbl.div (Dbl.ofInt point.timestamp.toSecsSinceEpoch) (Dbl.fin 3600)
    let y := point.value
    { sumX := Dbl.add s.sumX x, sumY := Dbl.add s.sumY y,
      sumXY := Dbl.add s.sumXY (Dbl.mul x y), sumX2 := Dbl.add s.sumX2 (Dbl.mul x x),
      n := s.n + 1 }
  else s

/-- The classification of the trend in `MainWindow::analyzeFilteredData`. -/
def classifyFiltered (a : Dbl) : TrendText :=
  if Dbl.lt (Dbl.abs a) (Dbl.fin (1 / 100)) then TrendText.stabilne
  else if Dbl.gt a (Dbl.fin 0) then TrendText.wzrost a
  else TrendText.spadek a

/-- The method `MainWindow::analyzeFilteredData`. Its first loop has the body of
the first loop of `analyzeData` (`extremaStep`); the result starts from the text
`Za mało danych` and the trend value `0`, and the slope is computed only when
the denominator is not zero. -/
def analyzeFilteredData (filteredData : List DataPoint) : AnalysisResult :=
  let result : AnalysisResult :=
    { minValue := dblMax, maxValue := dblLowest, avgValue := Dbl.fin 0,
      minTime := none, maxTime := none,
      trend := TrendText.zaMaloDanych, trendValue := some (Dbl.fin 0) }
  if filteredData.length < 2 then result
  else
    let r := filteredData.foldl extremaStep Extrema.init
    let result : AnalysisResult :=
      { result with
        minValue := r.minValue, minTime := r.minTime,
        maxValue := r.maxValue, maxTime := r.maxTime,
        avgValue := if r.count > 0 then Dbl.div r.sum (Dbl.ofInt r.count) else Dbl.nan }
    if r.count ≥ 2 then
      let s := filteredData.foldl sumsStepFiltered Sums.init
      if s.n > 1 then
        let denominator := Dbl.sub (Dbl.mul (Dbl.ofInt s.n) s.sumX2) (Dbl.mul s.sumX s.sumX)
        if Dbl.ne denominator (Dbl.fin 0) then
          let a := Dbl.div (Dbl.sub (Dbl.mul (Dbl.ofInt s.n) s.sumXY) (Dbl.mul s.sumX s.sumY))
            denominator
          { result with trendValue := some a, trend := classifyFiltered a }
        else result
      else result
    else result

/-! ## Auxiliary definitions of the proofs -/

/-- The test of one point in `filterByDateRange`: the value of `matches` at the
end of the loop body. -/
def inRange (lo hi : QDateTime) (point : DataPoint) : Bool :=
  !(lo.isValid && QDateTime.lt point.timestamp lo) &&
    !(hi.isValid && QDateTime.gt point.timestamp hi)

/-- The number of points the first loop of `analyzeData` counts: those with
`isValid` and a value that is not NaN. -/
def usableCount (m_data : List DataPoint) : Nat :=
  m_data.countP (fun p => p.isValid && !p.value.isnan)

/-- The hour and the value of a point, as rationals. -/
def xyOf (p : DataPoint) : ℚ × ℚ :=
  ((p.timestamp.toSecsSinceEpoch : ℚ) / 3600,
    match p.value with
    | Dbl.fin q => q
    | _ => 0)

/-- The numerator `n * sum(xy) - sum(x) * sum(y)` of the slope, for a list of
pairs `(x, y)`. -/
def covSum (l : List (ℚ × ℚ)) : ℚ :=
  (l.length : ℚ) * (l.map (fun p => p.1 * p.2)).sum -
    (l.map (fun p => p.1)).sum * (l.map (fun p => p.2)).sum

/-- The sum of the products `(x' - x) * (y' - y)` over the pairs `(x', y')` of a
list. -/
def crossSum (x y : ℚ) (l : List (ℚ × ℚ)) : ℚ :=
  (l.map (fun p => (p.1 - x) * (p.2 - y))).sum

/-- The part of the state of the first loop of `analyzeData` that the returned
values depend on: `(minValue, maxValue, sum, count)`. -/
def Extrema.core (r : Extrema) : Dbl × Dbl × Dbl × Int :=
  (r.minValue, r.maxValue, r.sum, r.count)

/-- The body of the first loop of `analyzeData`, on `(minValue, maxValue, sum, count)`. -/
def coreStep (c : Dbl × Dbl × Dbl × Int) (point : DataPoint) : Dbl × Dbl × Dbl × Int :=
  if point.isValid && !point.value.isnan then
    (if Dbl.lt point.value c.1 then point.value else c.1,
      if Dbl.gt point.value c.2.1 then point.value else c.2.1,
      Dbl.add c.2.2.1 point.value, c.2.2.2 + 1)
  else c

end Measurement

open Measurement

/-! ## JSON documents and the Qt library -/

/-- A `QJsonValue`. A number is a `double`; `undefined` is the value that
`operator[]` returns for a key that is absent. -/
inductive QJsonValue where
  | null : QJsonValue
  | bool (b : Bool) : QJsonValue
  | double (d : Dbl) : QJsonValue
  | string (s : String) : QJsonValue
  | array (a : List QJsonValue) : QJsonValue
  | object (o : List (String × QJsonValue)) : QJsonValue
  | undefined : QJsonValue

/-- A `QJsonArray`. -/
abbrev QJsonArray := List QJsonValue

/-- A `QJsonObject`: the keys with their values. -/
abbrev QJsonObject := List (String × QJsonValue)

namespace QJsonValue

/-- The method `QJsonValue::isNull`. -/
def isNull : QJsonValue → Bool
  | null => true
  | _ => false

/-- The method `QJsonValue::isDouble`. -/
def isDouble : QJsonValue → Bool
  | double _ => true
  | _ => false

/-- The method `QJsonValue::isString`. -/
def isString : QJsonValue → Bool
  | string _ => true
  | _ => false

/-- The method `QJsonValue::isArray`. -/
def isArray : QJsonValue → Bool
  | array _ => true
  | _ => false

/-- The method `QJsonValue::isObject`. -/
def isObject : QJsonValue → Bool
  | object _ => true
  | _ => false

/-- The method `QJsonValue::toString`: the empty string unless the value is a string. -/
def toString : QJsonValue → String
  | string s => s
  | _ => ""

/-- The method `QJsonValue::toObject`: the empty object unless the value is an object. -/
def toObject : QJsonValue → QJsonObject
  | object o => o
  | _ => []

/-- The method `QJsonValue::toArray`: the empty array unless the value is an array. -/
def toArray : QJsonValue → QJsonArray
  | array a => a
  | _ => []

/-- The method `QJsonValue::toInt`: `0` unless the value is a whole number in the
range of `int`. -/
def toInt : QJsonValue → Int
  | double (Dbl.fin q) =>
    if q.den = 1 ∧ -2147483648 ≤ q.num ∧ q.num ≤ 2147483647 then q.num else 0
  | _ => 0

end QJsonValue

namespace QJsonObject

/-- The read access `json[key]`: `undefined` when the key is absent. -/
def value (json : QJsonObject) (key : String) : QJsonValue :=
  (json.lookup key).getD QJsonValue.undefined

/-- The method `QJsonObject::contains`. -/
def contains (json : QJsonObject) (key : String) : Bool :=
  (json.lookup key).isSome

/-- The write access `json[key] = v`: the value of the key is replaced, or the
key is added. -/
def insert (json : QJsonObject) (key : String) (v : QJsonValue) : QJsonObject :=
  if json.contains key then json.map (fun kv => if kv.1 = key then (key, v) else kv)
  else json ++ [(key, v)]

end QJsonObject

/-- The functions of the Qt library whose results are taken as given. -/
structure QtLib where
  /-- The conversion `QString::toDouble`, `none` when it fails. -/
  toDouble : String → Option Dbl
  /-- The call `QDateTime::fromString(s, "yyyy-MM-dd HH:mm:ss")`. -/
  fromString : String → QDateTime
  /-- The call `QDateTime::fromString(s, Qt::ISODate)`. -/
  fromStringISO : String → QDateTime
  /-- The call `QString::number(d)`: format `g`, six significant digits. -/
  number : Dbl → String
  /-- The call `QString::number(d, 'f', 6)`: six decimals. -/
  numberF6 : Dbl → String

/-- The method `QString::toDouble()`: `0.0` when the conversion fails. -/
def QtLib.stringToDouble (qt : QtLib) (s : String) : Dbl :=
  (qt.toDouble s).getD (Dbl.fin 0)

/-- The call `value.toVariant().toDouble(&ok)`, as the pair of the result and
`ok`: a number converts to itself, a boolean to 1 or 0, a string as
`QString::toDouble` does; nothing else converts. -/
def QJsonValue.toVariantDouble (qt : QtLib) : QJsonValue → Dbl × Bool
  | QJsonValue.double d => (d, true)
  | QJsonValue.bool b => (if b then Dbl.fin 1 else Dbl.fin 0, true)
  | QJsonValue.string s =>
    match qt.toDouble s with
    | some d => (d, true)
    | none => (Dbl.fin 0, false)
  | _ => (Dbl.fin 0, false)

/-- The parts of a list of characters between the occurrences of `sep`, empty
parts included. -/
def splitChars (sep : Char) : List Char → List (List Char)
  | [] => [[]]
  | c :: cs =>
    if c = sep then [] :: splitChars sep cs
    else
      match splitChars sep cs with
      | [] => [[c]]
      | w :: ws => (c :: w) :: ws

/-- The method `QString::split(sep)` (empty parts kept). -/
def qStringSplit (s : String) (sep : Char) : List String :=
  (splitChars sep s.data).map String.mk

/-- A table of results of the Qt functions at the strings and numbers of the
examples below. -/
def QtLib.sample : QtLib where
  toDouble := fun s =>
    if s = "50.972167" then some (Dbl.fin (50972167 / 1000000))
    else if s = "50.9722" then some (Dbl.fin (509722 / 10000))
    else if s = "21" then some (Dbl.fin 21)
    else if s = "21.000000" then some (Dbl.fin 21)
    else none
  fromString := fun s => if s = "1970-01-01 01:00:00" then some 3600 else none
  fromStringISO := fun s => if s = "1970-01-01T01:00:00" then some 3600 else none
  number := fun d =>
    if d = Dbl.fin (50972167 / 1000000) then "50.9722"
    else if d = Dbl.fin 21 then "21"
    else "0"
  numberF6 := fun d =>
    if d = Dbl.fin (50972167 / 1000000) then "50.972167"
    else if d = Dbl.fin 21 then "21.000000"
    else "0.000000"

/-- A station document as the remote source delivers it, used in the examples
below: id 1, the given name, the coordinates as strings, the city Warszawa. -/
def sampleStationDoc (name : String) : QJsonObject :=
  [("id", QJsonValue.double (Dbl.fin 1)),
    ("stationName", QJsonValue.string name),
    ("gegrLat", QJsonValue.string "50.972167"),
    ("gegrLon", QJsonValue.string "21"),
    ("city", QJsonValue.object [("name", QJsonValue.string "Warszawa")])]

/-! ## The constructor Measurement::Measurement(const QJsonObject&) -/

namespace Measurement

/-- The members of a `Measurement`. -/
structure Fields where
  m_paramCode : String
  m_data : List DataPoint
  m_sensorId : Int

/-- The indeterminate contents of what the constructor does not initialise:
`m_sensorId`, and the `value` and `isValid` of the `DataPoint` created for the
element of index `i` of the array. -/
structure Uninit where
  sensorId : Int
  value : Nat → Dbl
  isValid : Nat → Bool

/-- The body of the loop of the constructor for one point object; `value0` and
`isValid0` are the contents of the new `DataPoint point;` which is created
without initialiser (its `timestamp` is the invalid `QDateTime`). -/
def parsePoint (qt : QtLib) (value0 : Dbl) (isValid0 : Bool) (pointObj : QJsonObject) :
    DataPoint :=
  let point : DataPoint := { timestamp := none, value := value0, isValid := isValid0 }
  let point :=
    if pointObj.contains "date"
    then { point with timestamp := qt.fromString (pointObj.value "date").toString }
    else point
  if pointObj.contains "value" then
    if (pointObj.value "value").isNull then
      { point with value := Dbl.nan, isValid := false }
    else
      let r := (pointObj.value "value").toVariantDouble qt
      { point with value := if r.2 then r.1 else Dbl.nan, isValid := r.2 }
  else point

/-- The loop of the constructor over `valuesArray`, from the element of index `i`
on: an element that is not an object is skipped. -/
def parseValues (qt : QtLib) (u : Uninit) :
    Nat → List QJsonValue → List DataPoint → List DataPoint
  | _, [], m_data => m_data
  | i, value :: rest, m_data =>
    if !value.isObject then parseValues qt u (i + 1) rest m_data
    else parseValues qt u (i + 1) rest
      (m_data ++ [parsePoint qt (u.value i) (u.isValid i) value.toObject])

/-- The constructor `Measurement::Measurement(const QJsonObject &json)`. -/
def fromJson (qt : QtLib) (u : Uninit) (json : QJsonObject) : Fields :=
  let m_sensorId := if json.contains "sensorId" then (json.value "sensorId").toInt else u.sensorId
  let m_paramCode :=
    if json.contains "paramCode" then (json.value "paramCode").toString
    else if json.contains "key" then
      let key := (json.value "key").toString
      (qStringSplit key '_').headD ""
    else "Nieznany"
  let m_data :=
    if json.contains "values" && (json.value "values").isArray
    then parseValues qt u 0 (json.value "values").toArray []
    else []
  { m_paramCode := m_paramCode, m_data := m_data, m_sensorId := m_sensorId }

/-- The point that the constructor makes of the element of index `i` of the
array, if it makes one. -/
def pointOfElement (qt : QtLib) (u : Uninit) (iv : Nat × QJsonValue) : Option DataPoint :=
  if iv.2.isObject then some (parsePoint qt (u.value iv.1) (u.isValid iv.1) iv.2.toObject)
  else none

end Measurement

/-! ## Station (src/core/Station.cpp) -/

/-- The struct `Station::Address`. -/
structure Station.Address where
  cityId : Int
  cityName : String
  communeName : String
  districtName : String
  provinceName : String
  streetName : String
  deriving DecidableEq

/-- The members of a `Station`. -/
structure Station where
  m_id : Int
  m_name : String
  m_latitude : Dbl
  m_longitude : Dbl
  m_address : Station.Address
  m_addressStreet : String
  m_cityName : String
  deriving DecidableEq

namespace Station

/-- The constructor `Station::Station(const QJsonObject &json)`. -/
def fromJson (qt : QtLib) (json : QJsonObject) : Station :=
  let city := (json.value "city").toObject
  let commune := (city.value "commune").toObject
  { m_id := (json.value "id").toInt
    m_name := (json.value "stationName").toString
    m_latitude := qt.stringToDouble (json.value "gegrLat").toString
    m_longitude := qt.stringToDouble (json.value "gegrLon").toString
    m_address :=
      { cityId := (city.value "id").toInt
        cityName := (city.value "name").toString
        communeName := (commune.value "communeName").toString
        districtName := (commune.value "districtName").toString
        provinceName := (commune.value "provinceName").toString
        streetName := (json.value "addressStreet").toString }
    m_addressStreet := ""
    m_cityName := "" }

/-- The default constructor `Station::Station() {}`: the strings are empty, the
numbers are not initialised; their indeterminate contents are the arguments. -/
def uninit (id0 cityId0 : Int) (lat0 lon0 : Dbl) : Station :=
  { m_id := id0, m_name := "", m_latitude := lat0, m_longitude := lon0
    m_address :=
      { cityId := cityId0, cityName := "", communeName := "", districtName := "",
        provinceName := "", streetName := "" }
    m_addressStreet := "", m_cityName := "" }

/-- The getter `id()`. -/
def id (s : Station) : Int := s.m_id

/-- The getter `name()`. -/
def name (s : Station) : String := s.m_name

/-- The getter `latitude()`. -/
def latitude (s : Station) : Dbl := s.m_latitude

/-- The getter `longitude()`. -/
def longitude (s : Station) : Dbl := s.m_longitude

/-- The getter `address()`. -/
def address (s : Station) : Station.Address := s.m_address

/-- The getter `cityName()`: it returns `m_address.cityName`. -/
def cityName (s : Station) : String := s.m_address.cityName

/-- The getter `addressStreet()`: it returns `m_addressStreet`. -/
def addressStreet (s : Station) : String := s.m_addressStreet

/-- The setter `setId`. -/
def setId (s : Station) (id : Int) : Station := { s with m_id := id }

/-- The setter `setName`. -/
def setName (s : Station) (name : String) : Station := { s with m_name := name }

/-- The setter `setLatitude`. -/
def setLatitude (s : Station) (lat : Dbl) : Station := { s with m_latitude := lat }

/-- The setter `setLongitude`. -/
def setLongitude (s : Station) (lon : Dbl) : Station := { s with m_longitude := lon }

/-- The setter `setAddressStreet`: it assigns `m_addressStreet`. -/
def setAddressStreet (s : Station) (street : String) : Station :=
  { s with m_addressStreet := street }

/-- The setter `setCityName`: it assigns `m_cityName`. -/
def setCityName (s : Station) (city : String) : Station := { s with m_cityName := city }

/-- The function `qDegreesToRadians(double)` of Qt, `degrees * (M_PI / 180)`,
over the real numbers. -/
noncomputable def qDegreesToRadians (degrees : ℝ) : ℝ := degrees * (Real.pi / 180)

/-- The function `qAtan2(y, x)` (`std::atan2`) over the real numbers: the angle
of the point `(x, y)`, in the interval from `-π` to `π`. -/
noncomputable def qAtan2 (y x : ℝ) : ℝ :=
  if 0 < x then Real.arctan (y / x)
  else if x < 0 then
    (if 0 ≤ y then Real.arctan (y / x) + Real.pi else Real.arctan (y / x) - Real.pi)
  else if 0 < y then Real.pi / 2
  else if y < 0 then -(Real.pi / 2)
  else 0

/-- The body of `Station::distanceTo(lat, lon)` over the real numbers, with
`qSin`, `qCos` and `qSqrt` the real sine, cosine and square root; `m_latitude`
and `m_longitude` are the coordinates of the station, in degrees. Over the real
numbers `a` lies between 0 and 1, so no square root of a negative number is
taken. -/
noncomputable def distanceToReal (m_latitude m_longitude lat lon : ℝ) : ℝ :=
  let R : ℝ := 6371
  let lat1 := qDegreesToRadians m_latitude
  let lon1 := qDegreesToRadians m_longitude
  let lat2 := qDegreesToRadians lat
  let lon2 := qDegreesToRadians lon
  let dlat := lat2 - lat1
  let dlon := lon2 - lon1
  let a := Real.sin (dlat / 2) * Real.sin (dlat / 2) +
    Real.cos lat1 * Real.cos lat2 * Real.sin (dlon / 2) * Real.sin (dlon / 2)
  let c := 2 * qAtan2 (Real.sqrt a) (Real.sqrt (1 - a))
  R * c

/-- The method `Station::distanceTo(lat, lon)`, in kilometres, computed over the
real numbers (the rounding of binary64 is set aside). `none` is NaN, the result
of the method as soon as one of the four coordinates is not finite: the sine or
the cosine of an infinity is NaN, and NaN goes through every later operation. -/
noncomputable def distanceTo (s : Station) (lat lon : Dbl) : Option ℝ :=
  match s.m_latitude, s.m_longitude, lat, lon with
  | Dbl.fin la1, Dbl.fin lo1, Dbl.fin la2, Dbl.fin lo2 =>
    some (distanceToReal (la1 : ℝ) (lo1 : ℝ) (la2 : ℝ) (lo2 : ℝ))
  | _, _, _, _ => none

end Station

/-! ## AirQualityIndex (src/core/AirQualityIndex.cpp) -/

/-- The struct `AirQualityIndex::IndexLevel`. -/
structure AirQualityIndex.IndexLevel where
  id : Int
  name : String
  deriving DecidableEq

/-- The struct `AirQualityIndex::StationData`. -/
structure AirQualityIndex.StationData where
  paramName : String
  level : AirQualityIndex.IndexLevel
  calcDate : QDateTime
  deriving DecidableEq

/-- The members of an `AirQualityIndex` that the JSON constructor assigns
(`m_index`, which it does not initialise and nothing reads, is left out). -/
structure AirQualityIndex where
  m_stationId : Int
  m_calcDate : QDateTime
  m_overallIndex : AirQualityIndex.IndexLevel
  m_sourceDataDate : QDateTime
  m_stationReadings : List AirQualityIndex.StationData
  deriving DecidableEq

namespace AirQualityIndex

/-- The body of the loop of the constructor over the array `stations`. -/
def parseStationData (qt : QtLib) (stationVal : QJsonValue) : StationData :=
  let stationObj := stationVal.toObject
  let levelObj := (stationObj.value "indexLevel").toObject
  { paramName := (stationObj.value "paramName").toString
    calcDate := qt.fromStringISO (stationObj.value "calcDate").toString
    level :=
      { id := (levelObj.value "id").toInt
        name := (levelObj.value "indexLevelName").toString } }

/-- The constructor `AirQualityIndex::AirQualityIndex(const QJsonObject &json)`. -/
def fromJson (qt : QtLib) (json : QJsonObject) : AirQualityIndex :=
  let indexObj := (json.value "stIndexLevel").toObject
  { m_stationId := (json.value "id").toInt
    m_calcDate := qt.fromStringISO (json.value "stCalcDate").toString
    m_sourceDataDate := qt.fromStringISO (json.value "stSourceDataDate").toString
    m_overallIndex :=
      { id := (indexObj.value "id").toInt
        name := (indexObj.value "indexLevelName").toString }
    m_stationReadings := (json.value "stations").toArray.map (parseStationData qt) }

/-- The method `AirQualityIndex::isValid`. -/
def isValid (a : AirQualityIndex) : Bool :=
  decide (a.m_stationId > 0) && a.m_calcDate.isValid

end AirQualityIndex

/-! ## DatabaseManager (src/data/DatabaseManager.cpp) -/

namespace DatabaseManager

/-- A row of the table `stations` of `createTables`; `id` is its primary key. -/
structure StationRow where
  id : Int
  name : String
  latitude : Dbl
  longitude : Dbl
  city_id : Int
  city_name : String
  commune_name : String
  district_name : String
  province_name : String
  street_name : String
  deriving DecidableEq

/-- The statement `INSERT OR REPLACE INTO stations VALUES (...)` on the table: the
row of the same primary key, if any, is deleted and the new row is stored. -/
def insertOrReplace (table : List StationRow) (row : StationRow) : List StationRow :=
  table.filter (fun r => decide (r.id ≠ row.id)) ++ [row]

/-- The values that `saveStation` binds, in the order of the columns. -/
def boundRow (station : Station) : StationRow :=
  { id := station.id
    name := station.name
    latitude := station.latitude
    longitude := station.longitude
    city_id := station.address.cityId
    city_name := station.address.cityName
    commune_name := station.address.communeName
    district_name := station.address.districtName
    province_name := station.address.provinceName
    street_name := station.address.streetName }

/-- The method `DatabaseManager::saveStation` on an open database: the prepared
statement is executed twice, by `query.exec();` and by `if (!query.exec())`. -/
def saveStation (table : List StationRow) (station : Station) : List StationRow :=
  insertOrReplace (insertOrReplace table (boundRow station)) (boundRow station)

/-- The JSON object that `loadStations` builds from a row. -/
def rowJson (qt : QtLib) (row : StationRow) : QJsonObject :=
  let json : QJsonObject := []
  let json := json.insert "id" (QJsonValue.double (Dbl.ofInt row.id))
  let json := json.insert "stationName" (QJsonValue.string row.name)
  let json := json.insert "gegrLat" (QJsonValue.string (qt.number row.latitude))
  let json := json.insert "gegrLon" (QJsonValue.string (qt.number row.longitude))
  let city : QJsonObject := []
  let city := city.insert "id" (QJsonValue.double (Dbl.ofInt row.city_id))
  let city := city.insert "name" (QJsonValue.string row.city_name)
  let city := city.insert "commune" (QJsonValue.object
    [("communeName", QJsonValue.string row.commune_name),
      ("districtName", QJsonValue.string row.district_name),
      ("provinceName", QJsonValue.string row.province_name)])
  let json := json.insert "city" (QJsonValue.object city)
  json.insert "addressStreet" (QJsonValue.string row.street_name)

/-- The method `DatabaseManager::loadStations`: one `Station(json)` per row of
`SELECT * FROM stations`. -/
def loadStations (qt : QtLib) (table : List StationRow) : List Station :=
  table.map (fun row => Station.fromJson qt (rowJson qt row))

end DatabaseManager

/-! ## JsonBaseManager (src/data/JsonbaseManager.cpp) -/

namespace JsonBaseManager

/-- The object `stationObj` that `saveStation` appends for a station. -/
def stationObj (qt : QtLib) (station : Station) : QJsonObject :=
  let obj : QJsonObject := []
  let obj := obj.insert "id" (QJsonValue.double (Dbl.ofInt station.id))
  let obj := obj.insert "stationName" (QJsonValue.string station.name)
  let obj := obj.insert "gegrLat" (QJsonValue.string (qt.numberF6 station.latitude))
  let obj := obj.insert "gegrLon" (QJsonValue.string (qt.numberF6 station.longitude))
  let obj := obj.insert "addressStreet" (QJsonValue.string station.addressStreet)
  let addressObj : QJsonObject := []
  let addressObj := addressObj.insert "city" (QJsonValue.string station.cityName)
  obj.insert "address" (QJsonValue.object addressObj)

/-- The method `JsonBaseManager::saveStation` on the root object of the file,
with a write that succeeds: the station is appended only when no entry of the
array `stations` has its id. -/
def saveStation (qt : QtLib) (root : QJsonObject) (station : Station) : QJsonObject :=
  let stationsArray := (root.value "stations").toArray
  let found := stationsArray.any (fun item => (item.toObject.value "id").toInt == station.id)
  if !found then
    root.insert "stations"
      (QJsonValue.array (stationsArray ++ [QJsonValue.object (stationObj qt station)]))
  else root

/-- The body of the loop of `loadStations`; `station0` is the `Station station;`
created by the default constructor. -/
def loadStation (qt : QtLib) (station0 : Station) (value : QJsonValue) : Station :=
  let obj := value.toObject
  let station := station0.setId (obj.value "id").toInt
  let station := station.setName (obj.value "stationName").toString
  let station := station.setLatitude (qt.stringToDouble (obj.value "gegrLat").toString)
  let station := station.setLongitude (qt.stringToDouble (obj.value "gegrLon").toString)
  let station := station.setAddressStreet (obj.value "addressStreet").toString
  if obj.contains "address" then
    let address := (obj.value "address").toObject
    station.setCityName (address.value "city").toString
  else station

/-- The method `JsonBaseManager::loadStations` on the root object of the file;
`id0`, `cityId0`, `lat0`, `lon0` are the indeterminate numbers of the
default-constructed `Station station;`. -/
def loadStations (qt : QtLib) (id0 cityId0 : Int) (lat0 lon0 : Dbl) (root : QJsonObject) :
    List Station :=
  (root.value "stations").toArray.map (loadStation qt (Station.uninit id0 cityId0 lat0 lon0))

/-- The root object that `initializeDataFile` writes: four empty arrays. -/
def initialRoot : QJsonObject :=
  let root : QJsonObject := []
  let root := root.insert "stations" (QJsonValue.array [])
  let root := root.insert "sensors" (QJsonValue.array [])
  let root := root.insert "measurements" (QJsonValue.array [])
  root.insert "airQualityIndices" (QJsonValue.array [])

end JsonBaseManager

/-! ## Sensor (src/core/Sensor.cpp) -/

/-- The struct `Sensor::Param`. -/
structure Sensor.Param where
  name : String
  formula : String
  code : String
  id : Int
  deriving DecidableEq

/-- The members of a `Sensor`. -/
structure Sensor where
  m_id : Int
  m_stationId : Int
  m_param : Sensor.Param
  m_paramName : String
  m_paramCode : String
  deriving DecidableEq

namespace Sensor

/-- The constructor `Sensor::Sensor(const QJsonObject &json)`: it assigns `m_id`,
`m_stationId` and `m_param`; the strings `m_paramName` and `m_paramCode` keep
the empty value of their default construction. -/
def fromJson (json : QJsonObject) : Sensor :=
  let param := (json.value "param").toObject
  { m_id := (json.value "id").toInt
    m_stationId := (json.value "stationId").toInt
    m_param :=
      { name := (param.value "paramName").toString
        formula := (param.value "paramFormula").toString
        code := (param.value "paramCode").toString
        id := (param.value "idParam").toInt }
    m_paramName := ""
    m_paramCode := "" }

/-- The getter `parameter()`. -/
def parameter (s : Sensor) : Sensor.Param := s.m_param

/-- The getter `paramName()`: it returns `m_paramName`. -/
def paramName (s : Sensor) : String := s.m_paramName

/-- The getter `paramCode()`: it returns `m_paramCode`. -/
def paramCode (s : Sensor) : String := s.m_paramCode

end Sensor

/-! ## DatabaseManager::saveMeasurement -/

namespace DatabaseManager

/-- A row of the table `measurements` of `createTables`. The table has no primary
key and no unique column. The timestamp, stored as its ISO text, is kept as the
`QDateTime`. -/
structure MeasurementRow where
  sensor_id : Int
  timestamp : QDateTime
  value : Dbl
  is_valid : Int
  deriving DecidableEq

/-- The values that `saveMeasurement` binds for one point. -/
def measurementRow (sensorId : Int) (point : DataPoint) : MeasurementRow :=
  { sensor_id := sensorId
    timestamp := point.timestamp
    value := point.value
    is_valid := if point.isValid then 1 else 0 }

/-- The statement `INSERT OR REPLACE INTO measurements VALUES (...)`: as no
constraint of the table can be violated, no stored row is replaced and the row
is added. -/
def insertMeasurement (rows : List MeasurementRow) (row : MeasurementRow) :
    List MeasurementRow :=
  rows ++ [row]

/-- The outcome of `saveMeasurement`: the rows stored when it ends, and whether
it ended by the exception that its handler throws again. -/
structure SaveResult where
  stored : List MeasurementRow
  threw : Bool
  deriving DecidableEq

/-- The loop of `saveMeasurement` from the point of index `i` on. `committed` are
the rows stored by the transactions committed so far, `pending` the rows written
in the open transaction, `batchSize` the counter of the loop, and `execOk i`
tells whether the write of the point of index `i` succeeds. A write that fails
throws: the handler rolls the open transaction back and throws again. After
the last point the open transaction is committed. -/
def saveLoop (execOk : Nat → Bool) (sensorId : Int) :
    Nat → List DataPoint → List MeasurementRow → List MeasurementRow → Nat → SaveResult
  | _, [], committed, pending, _ => { stored := committed ++ pending, threw := false }
  | i, point :: rest, committed, pending, batchSize =>
    if !execOk i then { stored := committed, threw := true }
    else
      let pending := insertMeasurement pending (measurementRow sensorId point)
      if batchSize + 1 ≥ 100 then
        saveLoop execOk sensorId (i + 1) rest (committed ++ pending) [] 0
      else saveLoop execOk sensorId (i + 1) rest committed pending (batchSize + 1)

/-- The method `DatabaseManager::saveMeasurement` on an open database whose
transactions begin and commit: the rows of the table before the call are
`stored`, the points are `dataPoints`. -/
def saveMeasurement (execOk : Nat → Bool) (stored : List MeasurementRow)
    (dataPoints : List DataPoint) (sensorId : Int) : SaveResult :=
  saveLoop execOk sensorId 0 dataPoints stored [] 0

end DatabaseManager

/-! ## ApiHandler (src/data/ApiHandler.cpp) -/

namespace ApiHandler

/-- A code of the enumeration `QNetworkReply::NetworkError`. -/
abbrev NetworkError := Nat

/-- The code `QNetworkReply::NoError`. -/
def NoError : NetworkError := 0

/-- The code `QNetworkReply::ConnectionRefusedError`. -/
def ConnectionRefusedError : NetworkError := 1

/-- The code `QNetworkReply::HostNotFoundError`. -/
def HostNotFoundError : NetworkError := 3

/-- The result of `QJsonDocument::fromJson(reply->readAll(), &parseError)`: a
parse error with its text, or the document, whose top level is an array or an
object. -/
inductive ParsedBody where
  | parseError (errorString : String) : ParsedBody
  | document (doc : QJsonValue) : ParsedBody

/-- A finished `QNetworkReply`: its error code, its error text and its body. -/
structure Reply where
  error : NetworkError
  errorString : String
  body : ParsedBody

/-- A signal that the handler emits. -/
inductive Signal where
  | stationsFetched (stations : List Station) : Signal
  | networkError (message : String) : Signal
  | apiError (errorCode : String) : Signal
  deriving DecidableEq

/-- The state of the handler for the stations resource. `scheduled` counts the
tasks that `fetchStations` has given to the thread pool and that have not run,
`remoteCalls` the calls of `m_manager.get`, `queued` holds the station lists of
the calls queued by `QMetaObject::invokeMethod(..., Qt::QueuedConnection)` that
have not run, `emitted` the signals emitted so far, `table` the table `stations`
of the database manager. -/
structure State where
  m_isBusy : Bool
  m_allStations : List Station
  scheduled : Nat
  remoteCalls : Nat
  queued : List (List Station)
  emitted : List Signal
  table : List DatabaseManager.StationRow
  deriving DecidableEq

/-- The state after the constructor: not busy, nothing stored or pending. -/
def State.init : State :=
  { m_isBusy := false, m_allStations := [], scheduled := 0, remoteCalls := 0,
    queued := [], emitted := [], table := [] }

/-- The method `ApiHandler::fetchStations`. -/
def fetchStations (s : State) : State :=
  if s.m_isBusy then s
  else { s with m_isBusy := true, scheduled := s.scheduled + 1 }

/-- The stations that the reply handlers make of the array of the document: one
of each element that is an object. -/
def parseStations (qt : QtLib) (array : QJsonArray) : List Station :=
  (array.filter (fun value => value.isObject)).map (fun value => Station.fromJson qt value.toObject)

/-- The method `ApiHandler::handleStationsReplyImpl`; the error code of the reply
is not read. -/
def handleStationsReplyImpl (qt : QtLib) (s : State) (reply : Reply) : State :=
  match reply.body with
  | ParsedBody.parseError _ =>
    { s with emitted := s.emitted ++ [Signal.apiError "Błąd danych"] }
  | ParsedBody.document doc =>
    if !doc.isArray then { s with emitted := s.emitted ++ [Signal.apiError "Błąd danych"] }
    else
      let stations := parseStations qt doc.toArray
      { s with m_allStations := stations, queued := s.queued ++ [stations] }

/-- The task that `fetchStations` gives to the thread pool, run to its end with
the reply that the request receives: one call of `m_manager.get`, then
`handleStationsReplyImpl`. Without a scheduled task nothing happens. -/
def runTask (qt : QtLib) (s : State) (reply : Reply) : State :=
  if s.scheduled = 0 then s
  else
    handleStationsReplyImpl qt
      { s with scheduled := s.scheduled - 1, remoteCalls := s.remoteCalls + 1 } reply

/-- The slot `ApiHandler::handleStationsReply`; `sender` is the reply that sent
the signal, if the sender is a `QNetworkReply`. -/
def handleStationsReply (qt : QtLib) (s : State) (sender : Option Reply) : State :=
  let s := { s with m_isBusy := false }
  match sender with
  | none =>
    { s with emitted := s.emitted ++ [Signal.networkError "Nieprawidłowy obiekt odpowiedzi"] }
  | some reply =>
    if reply.error ≠ NoError then
      { s with emitted := s.emitted ++ [Signal.networkError reply.errorString] }
    else
      match reply.body with
      | ParsedBody.parseError errorString =>
        { s with emitted := s.emitted ++ [Signal.apiError ("Błąd analizy JSON: " ++ errorString)] }
      | ParsedBody.document doc =>
        if !doc.isArray then
          { s with emitted := s.emitted ++
              [Signal.apiError "Nieprawidłowy format odpowiedzi: oczekiwana tablica JSON"] }
        else
          let stations := parseStations qt doc.toArray
          { s with m_allStations := stations,
                   table := stations.foldl DatabaseManager.saveStation s.table,
                   emitted := s.emitted ++ [Signal.stationsFetched stations] }

/-- The slot `ApiHandler::handleNetworkError`; `sender` is the reply that sent
the signal, if the sender is a `QNetworkReply`. -/
def handleNetworkError (s : State) (sender : Option Reply) (code : NetworkError) : State :=
  match sender with
  | none => s
  | some _ =>
    if code ≠ HostNotFoundError ∧ code ≠ ConnectionRefusedError then s
    else { s with emitted := s.emitted ++ [Signal.networkError "connection_error"],
                  m_isBusy := false }

end ApiHandler

namespace Measurement

/-! ## Completeness -/

/-- C1: `dataCompleteness()` is `0` on the empty sequence and
`100 * validCount() / length` otherwise, and `validCount()` is the number of
points whose `isValid` flag is true. -/
theorem dataCompleteness_spec (m_data : List DataPoint) :
    validCount m_data = ((m_data.filter (fun p => p.isValid)).length : Nat) ∧
    dataCompleteness m_data =
      if m_data.length = 0 then Dbl.fin 0
      else Dbl.fin (100 * (validCount m_data : ℚ) / (m_data.length : ℚ)) := by
  refine ⟨by simp [validCount, List.countP_eq_length_filter], ?_⟩
  cases m_data with
  | nil => simp [dataCompleteness]
  | cons p ps =>
    have hlen : ((ps.length : ℚ) + 1) ≠ 0 := by positivity
    simp [dataCompleteness, Dbl.ofInt, Dbl.mul, Dbl.div, hlen, mul_comm]

/-! ## Range filter -/

theorem filterStep_eq (lo hi : QDateTime) (result : List DataPoint) (point : DataPoint) :
    filterStep lo hi result point =
      if inRange lo hi point then result ++ [point] else result := by
  unfold filterStep inRange
  cases lo.isValid && QDateTime.lt point.timestamp lo <;>
    cases hi.isValid && QDateTime.gt point.timestamp hi <;> simp

theorem foldl_filterStep (lo hi : QDateTime) (m_data acc : List DataPoint) :
    m_data.foldl (filterStep lo hi) acc = acc ++ m_data.filter (inRange lo hi) := by
  induction m_data generalizing acc with
  | nil => simp
  | cons p ps ih =>
    rw [List.foldl_cons, ih, filterStep_eq]
    by_cases h : inRange lo hi p = true
    · simp [h, List.filter_cons]
    · simp [h, List.filter_cons]

/-- The loop of `filterByDateRange` is a filter of the stored sequence. -/
theorem filterByDateRange_eq_filter (m_data : List DataPoint) (lo hi : QDateTime) :
    filterByDateRange m_data lo hi = m_data.filter (inRange lo hi) := by
  simp [filterByDateRange, foldl_filterStep]

/-- The test of one point, in terms of the seconds of the bounds: a valid lower
bound asks for a valid timestamp not before it, a valid upper bound excludes the
valid timestamps after it. -/
theorem inRange_iff (lo hi : QDateTime) (point : DataPoint) :
    inRange lo hi point = true ↔
      (∀ f, lo = some f → ∃ t, point.timestamp = some t ∧ f ≤ t) ∧
      (∀ h t, hi = some h → point.timestamp = some t → t ≤ h) := by
  rcases point with ⟨ts, v, b⟩
  cases lo <;> cases hi <;> cases ts <;>
    simp [inRange, QDateTime.isValid, QDateTime.lt, QDateTime.gt]

/-- C2: `filterByDateRange(from, to)` returns a subsequence of the stored
sequence, in the same relative order, and every retained point satisfies
`from <= timestamp <= to`, an invalid bound being no bound. -/
theorem filterByDateRange_sublist_bounds (m_data : List DataPoint) (lo hi : QDateTime) :
    List.Sublist (filterByDateRange m_data lo hi) m_data ∧
    ∀ p ∈ filterByDateRange m_data lo hi,
      (∀ f, lo = some f → ∃ t, p.timestamp = some t ∧ f ≤ t) ∧
      (∀ h t, hi = some h → p.timestamp = some t → t ≤ h) := by
  rw [filterByDateRange_eq_filter]
  refine ⟨List.filter_sublist _, ?_⟩
  intro p hp
  exact (inRange_iff lo hi p).mp (List.mem_filter.mp hp).2

/-- C3: `filterByDateRange(from, to)` drops no point of the range: a stored
point with `from <= timestamp <= to` (bounds included, an invalid bound being no
bound) occurs in the result as often as in the stored sequence, and with both
bounds invalid the result is the stored sequence. -/
theorem filterByDateRange_complete (m_data : List DataPoint) (lo hi : QDateTime) :
    (∀ p, (∀ f, lo = some f → ∃ t, p.timestamp = some t ∧ f ≤ t) →
      (∀ h t, hi = some h → p.timestamp = some t → t ≤ h) →
      (filterByDateRange m_data lo hi).count p = m_data.count p) ∧
    filterByDateRange m_data none none = m_data := by
  constructor
  · intro p h1 h2
    rw [filterByDateRange_eq_filter]
    exact List.count_filter ((inRange_iff lo hi p).mpr ⟨h1, h2⟩)
  · rw [filterByDateRange_eq_filter]
    apply List.filter_eq_self.mpr
    intro p _
    simp [inRange, QDateTime.isValid]

/-! ## Trend -/

theorem foldl_extremaStep_count (m_data : List DataPoint) (r : Extrema) :
    (m_data.foldl extremaStep r).count = r.count + (usableCount m_data : Nat) := by
  induction m_data generalizing r with
  | nil => simp [usableCount]
  | cons p ps ih =>
    rw [List.foldl_cons, ih]
    by_cases h : (p.isValid && !p.value.isnan) = true
    · have hc : (extremaStep r p).count = r.count + 1 := by
        simp only [extremaStep, h, if_true]
        split_ifs <;> rfl
      have hu : usableCount (p :: ps) = usableCount ps + 1 := by
        simp only [usableCount, List.countP_cons, h, if_true]
      rw [hc, hu]; push_cast; ring
    · have hc : extremaStep r p = r := by
        simp only [extremaStep, h]; rfl
      have hu : usableCount (p :: ps) = usableCount ps := by
        simp [usableCount, List.countP_cons, h]
      rw [hc, hu]

theorem extrema_count (m_data : List DataPoint) :
    (m_data.foldl extremaStep Extrema.init).count = (usableCount m_data : Nat) := by
  rw [foldl_extremaStep_count]; simp [Extrema.init]

theorem Dbl.abs_lt_false_of_ge (a c : Dbl) (h : Dbl.ge a c = true) :
    Dbl.lt (Dbl.abs a) c = false := by
  cases a <;> cases c <;> simp_all [Dbl.ge, Dbl.lt, Dbl.abs]
  rename_i q r
  exact le_trans h (le_abs_self q)

/-- With at least two counted points `analyzeData` enters the regression branch:
it assigns the slope to `trendValue` and its classification to `trend`. -/
theorem analyzeData_trend_of_two (m_data : List DataPoint) (h : 2 ≤ usableCount m_data) :
    (analyzeData m_data).trendValue = some (slope m_data) ∧
    (analyzeData m_data).trend = classify (slope m_data) := by
  have hc : (m_data.foldl extremaStep Extrema.init).count > 1 := by
    rw [extrema_count]; exact_mod_cast h
  simp only [analyzeData, hc, if_true, and_self]

/-- With fewer than two counted points `analyzeData` skips the regression branch:
`trend` stays the empty text and `trendValue` is never assigned. -/
theorem analyzeData_trend_of_lt_two (m_data : List DataPoint) (h : usableCount m_data < 2) :
    (analyzeData m_data).trendValue = none ∧
    (analyzeData m_data).trend = TrendText.unset := by
  have hc : ¬ (m_data.foldl extremaStep Extrema.init).count > 1 := by
    rw [extrema_count]; omega
  simp only [analyzeData, hc, if_false]
  split_ifs <;> exact ⟨rfl, rfl⟩

/-- C4: when `analyzeData` computes the slope `a` (at least two valid points with
a value), `trendValue` is `a` and the trend text is the stable label when
`|a| < 0.01`, the increasing label when `a >= 0.01`, the decreasing label
otherwise. -/
theorem analyzeData_trend_classification (m_data : List DataPoint)
    (h : 2 ≤ usableCount m_data) :
    (analyzeData m_data).trendValue = some (slope m_data) ∧
    (Dbl.lt (Dbl.abs (slope m_data)) (Dbl.fin (1 / 100)) = true →
      (analyzeData m_data).trend = TrendText.stabilne) ∧
    (Dbl.ge (slope m_data) (Dbl.fin (1 / 100)) = true →
      (analyzeData m_data).trend = TrendText.wzrost (slope m_data)) ∧
    (Dbl.lt (Dbl.abs (slope m_data)) (Dbl.fin (1 / 100)) = false →
      Dbl.ge (slope m_data) (Dbl.fin (1 / 100)) = false →
      (analyzeData m_data).trend = TrendText.spadek (slope m_data)) := by
  have hr := analyzeData_trend_of_two m_data h
  refine ⟨hr.1, ?_, ?_, ?_⟩
  · intro h1; rw [hr.2, classify, if_pos h1]
  · intro h2
    have h1 := Dbl.abs_lt_false_of_ge _ _ h2
    rw [hr.2, classify, if_neg (by rw [h1]; exact Bool.false_ne_true), if_pos h2]
  · intro h1 h2
    rw [hr.2, classify, if_neg (by rw [h1]; exact Bool.false_ne_true),
      if_neg (by rw [h2]; exact Bool.false_ne_true)]

/-- A witness of C4: two valid points one hour apart, with values 1 and 2. -/
theorem analyzeData_trend_classification_witness :
    2 ≤ usableCount [⟨some 0, Dbl.fin 1, true⟩, ⟨some 3600, Dbl.fin 2, true⟩] ∧
    (analyzeData [⟨some 0, Dbl.fin 1, true⟩, ⟨some 3600, Dbl.fin 2, true⟩]).trendValue =
      some (slope [⟨some 0, Dbl.fin 1, true⟩, ⟨some 3600, Dbl.fin 2, true⟩]) :=
  ⟨by decide, (analyzeData_trend_classification _ (by decide)).1⟩

/-- The slope of two valid points with finite values whose timestamps are one
hour apart, the earlier one first. -/
theorem slope_pair (t : Int) (v1 v2 : ℚ) :
    slope [⟨some t, Dbl.fin v1, true⟩, ⟨some (t + 3600), Dbl.fin v2, true⟩] =
      Dbl.fin (v2 - v1) := by
  have hden : (2 : ℚ) * ((t : ℚ) / 3600 * ((t : ℚ) / 3600) +
      ((t : ℚ) + 3600) / 3600 * (((t : ℚ) + 3600) / 3600)) +
      -(((t : ℚ) / 3600 + ((t : ℚ) + 3600) / 3600) *
        ((t : ℚ) / 3600 + ((t : ℚ) + 3600) / 3600)) = 1 := by
    field_simp; ring
  simp only [slope, sumsStep, Sums.init, QDateTime.toSecsSinceEpoch, Dbl.ofInt, Dbl.add,
    Dbl.mul, Dbl.div, Dbl.sub, Dbl.neg, List.foldl_cons, List.foldl_nil, if_true]
  norm_num
  rw [hden]
  norm_num
  field_simp
  ring

/-- The slope of the same two points, the later one first. -/
theorem slope_pair_swap (t : Int) (v1 v2 : ℚ) :
    slope [⟨some (t + 3600), Dbl.fin v2, true⟩, ⟨some t, Dbl.fin v1, true⟩] =
      Dbl.fin (v2 - v1) := by
  have hden : (2 : ℚ) * (((t : ℚ) + 3600) / 3600 * (((t : ℚ) + 3600) / 3600) +
      (t : ℚ) / 3600 * ((t : ℚ) / 3600)) +
      -((((t : ℚ) + 3600) / 3600 + (t : ℚ) / 3600) *
        (((t : ℚ) + 3600) / 3600 + (t : ℚ) / 3600)) = 1 := by
    field_simp; ring
  simp only [slope, sumsStep, Sums.init, QDateTime.toSecsSinceEpoch, Dbl.ofInt, Dbl.add,
    Dbl.mul, Dbl.div, Dbl.sub, Dbl.neg, List.foldl_cons, List.foldl_nil, if_true]
  norm_num
  rw [hden]
  norm_num
  field_simp
  ring

/-- C5 (as amended): in exact arithmetic, for two valid points one hour apart with
the finite values `v1` at the earlier and `v2` at the later time, the slope of
`analyzeData` is `v2 - v1` per hour, in either order of the two points; the
trend is stable for 10.0 and 10.005, increasing for 10.0 and 10.02, decreasing
for 10.0 and 9.98. -/
theorem analyzeData_two_points_hour_apart (t : Int) (v1 v2 : ℚ) :
    (analyzeData [⟨some t, Dbl.fin v1, true⟩,
      ⟨some (t + 3600), Dbl.fin v2, true⟩]).trendValue = some (Dbl.fin (v2 - v1)) ∧
    (analyzeData [⟨some (t + 3600), Dbl.fin v2, true⟩,
      ⟨some t, Dbl.fin v1, true⟩]).trendValue = some (Dbl.fin (v2 - v1)) ∧
    (analyzeData [⟨some t, Dbl.fin 10, true⟩,
      ⟨some (t + 3600), Dbl.fin (10005 / 1000), true⟩]).trend = TrendText.stabilne ∧
    (analyzeData [⟨some t, Dbl.fin 10, true⟩,
      ⟨some (t + 3600), Dbl.fin (1002 / 100), true⟩]).trend =
        TrendText.wzrost (Dbl.fin (2 / 100)) ∧
    (analyzeData [⟨some t, Dbl.fin 10, true⟩,
      ⟨some (t + 3600), Dbl.fin (998 / 100), true⟩]).trend =
        TrendText.spadek (Dbl.fin (-2 / 100)) := by
  refine ⟨?_, ?_, ?_, ?_, ?_⟩
  · rw [(analyzeData_trend_of_two _ (by simp [usableCount, Dbl.isnan])).1, slope_pair]
  · rw [(analyzeData_trend_of_two _ (by simp [usableCount, Dbl.isnan])).1, slope_pair_swap]
  · rw [(analyzeData_trend_of_two _ (by simp [usableCount, Dbl.isnan])).2, slope_pair]
    simp only [classify, Dbl.lt, Dbl.abs]
    norm_num [abs_of_pos]
  · rw [(analyzeData_trend_of_two _ (by simp [usableCount, Dbl.isnan])).2, slope_pair]
    simp only [classify, Dbl.lt, Dbl.abs, Dbl.ge]
    norm_num [abs_of_pos]
  · rw [(analyzeData_trend_of_two _ (by simp [usableCount, Dbl.isnan])).2, slope_pair]
    simp only [classify, Dbl.lt, Dbl.abs, Dbl.ge]
    norm_num [abs_of_neg]

/-! ## binary64 -/

/-- The number of halvings, with enough fuel, is the binary logarithm. -/
theorem log2Fuel_spec (fuel n : Nat) (h1 : 0 < n) (h2 : n ≤ fuel) :
    2 ^ Dbl.log2Fuel fuel n ≤ n ∧ n < 2 ^ (Dbl.log2Fuel fuel n + 1) := by
  induction fuel generalizing n with
  | zero => omega
  | succ fuel ih =>
    unfold Dbl.log2Fuel
    by_cases h : n < 2
    · rw [if_pos h]
      have : n = 1 := by omega
      subst this
      simp
    · rw [if_neg h]
      obtain ⟨ha, hb⟩ := ih (n / 2) (by omega) (by omega)
      have e1 : 2 ^ (Dbl.log2Fuel fuel (n / 2) + 1) = 2 ^ Dbl.log2Fuel fuel (n / 2) * 2 := pow_succ _ _
      have e2 : 2 ^ (Dbl.log2Fuel fuel (n / 2) + 1 + 1) = 2 ^ Dbl.log2Fuel fuel (n / 2) * 2 * 2 := by
        rw [pow_succ, pow_succ]
      rw [e1] at hb
      rw [e1, e2]
      generalize 2 ^ Dbl.log2Fuel fuel (n / 2) = p at ha hb ⊢
      constructor <;> omega

/-- The binary logarithm: `2 ^ log2 n ≤ n < 2 ^ (log2 n + 1)`. -/
theorem log2_spec (n : Nat) (h : 0 < n) : 2 ^ Dbl.log2 n ≤ n ∧ n < 2 ^ (Dbl.log2 n + 1) :=
  log2Fuel_spec n n h (le_refl n)

/-- The result of `Dbl.roundHalfEven` is an integer nearest to `N / D`. -/
theorem roundHalfEven_spec (N D : Nat) (hD : 0 < D) :
    2 * (Dbl.roundHalfEven N D * D) ≤ 2 * N + D ∧ 2 * N ≤ 2 * (Dbl.roundHalfEven N D * D) + D := by
  have h1 := Nat.div_add_mod N D
  have h2 := Nat.mod_lt N hD
  unfold Dbl.roundHalfEven
  simp only []
  have hm : (N / D + 1) * D = D * (N / D) + D := by ring
  have hm0 : (N / D) * D = D * (N / D) := by ring
  split_ifs <;> (try rw [hm]) <;> (try rw [hm0]) <;> omega

/-- The Dbl.exponent of `n / d`: `2 ^ e ≤ n / d < 2 ^ (e + 1)`. -/
theorem exponent_spec (n d : Nat) (hn : 0 < n) (hd : 0 < d) :
    (2 : ℚ) ^ Dbl.exponent n d * d ≤ n ∧ (n : ℚ) < 2 ^ (Dbl.exponent n d + 1) * d := by
  obtain ⟨ha1, ha2⟩ := log2_spec n hn
  obtain ⟨hb1, hb2⟩ := log2_spec d hd
  have qa1 : (2 : ℚ) ^ (Dbl.log2 n : ℤ) ≤ n := by
    rw [zpow_natCast]; exact_mod_cast ha1
  have qa2 : (n : ℚ) < 2 ^ ((Dbl.log2 n : ℤ) + 1) := by
    have : (n : ℚ) < 2 ^ (Dbl.log2 n + 1) := by exact_mod_cast ha2
    rw [show ((Dbl.log2 n : ℤ) + 1) = ((Dbl.log2 n + 1 : ℕ) : ℤ) by push_cast; ring, zpow_natCast]
    exact this
  have qb1 : (2 : ℚ) ^ (Dbl.log2 d : ℤ) ≤ d := by
    rw [zpow_natCast]; exact_mod_cast hb1
  have qb2 : (d : ℚ) < 2 ^ ((Dbl.log2 d : ℤ) + 1) := by
    have : (d : ℚ) < 2 ^ (Dbl.log2 d + 1) := by exact_mod_cast hb2
    rw [show ((Dbl.log2 d : ℤ) + 1) = ((Dbl.log2 d + 1 : ℕ) : ℤ) by push_cast; ring, zpow_natCast]
    exact this
  have h2 : (2 : ℚ) ≠ 0 := by norm_num
  have hdq : (0 : ℚ) < d := by exact_mod_cast hd
  have hnq : (0 : ℚ) < n := by exact_mod_cast hn
  unfold Dbl.exponent
  simp only []
  generalize (Dbl.log2 n : ℤ) = a at qa1 qa2 ⊢
  generalize (Dbl.log2 d : ℤ) = b at qb1 qb2 ⊢
  -- the two candidate exponents
  have low : (2 : ℚ) ^ (a - b - 1) * d ≤ n := by
    have : (2 : ℚ) ^ (a - b - 1) * 2 ^ (b + 1) = 2 ^ a := by
      rw [← zpow_add₀ h2]; congr 1; ring
    have hp : (0 : ℚ) < 2 ^ (a - b - 1) := zpow_pos (by norm_num) _
    nlinarith
  have high : (n : ℚ) < 2 ^ (a - b + 1) * d := by
    have : (2 : ℚ) ^ (a - b + 1) * 2 ^ b = 2 ^ (a + 1) := by
      rw [← zpow_add₀ h2]; congr 1; ring
    have hp : (0 : ℚ) < 2 ^ (a - b + 1) := zpow_pos (by norm_num) _
    nlinarith
  by_cases h0 : 0 ≤ a - b
  · rw [if_pos h0]
    have hcast : ((2 ^ (a - b).toNat : ℕ) : ℚ) = 2 ^ (a - b) := by
      push_cast
      rw [← zpow_natCast, Int.toNat_of_nonneg h0]
    by_cases h1 : d * 2 ^ (a - b).toNat ≤ n
    · rw [if_pos h1]
      have h1q : ((d * 2 ^ (a - b).toNat : ℕ) : ℚ) ≤ n := by exact_mod_cast h1
      rw [Nat.cast_mul, hcast] at h1q
      exact ⟨by linarith, high⟩
    · rw [if_neg h1]
      have h1q : (n : ℚ) < ((d * 2 ^ (a - b).toNat : ℕ) : ℚ) := by
        exact_mod_cast not_le.mp h1
      rw [Nat.cast_mul, hcast] at h1q
      refine ⟨low, ?_⟩
      rw [sub_add_cancel]
      linarith
  · rw [if_neg h0]
    have h0' : 0 ≤ -(a - b) := by omega
    have hcast : ((2 ^ (-(a - b)).toNat : ℕ) : ℚ) = 2 ^ (-(a - b)) := by
      push_cast
      rw [← zpow_natCast, Int.toNat_of_nonneg h0']
    have hinv : (2 : ℚ) ^ (a - b) * 2 ^ (-(a - b)) = 1 := by
      rw [← zpow_add₀ h2]; simp
    have hp : (0 : ℚ) < 2 ^ (a - b) := zpow_pos (by norm_num) _
    have hp' : (0 : ℚ) < 2 ^ (-(a - b)) := zpow_pos (by norm_num) _
    by_cases h1 : d ≤ n * 2 ^ (-(a - b)).toNat
    · rw [if_pos h1]
      have h1q : (d : ℚ) ≤ ((n * 2 ^ (-(a - b)).toNat : ℕ) : ℚ) := by exact_mod_cast h1
      rw [Nat.cast_mul, hcast] at h1q
      refine ⟨?_, high⟩
      have := mul_le_mul_of_nonneg_left h1q (le_of_lt hp)
      calc (2 : ℚ) ^ (a - b) * d ≤ 2 ^ (a - b) * (n * 2 ^ (-(a - b))) := this
        _ = n * (2 ^ (a - b) * 2 ^ (-(a - b))) := by ring
        _ = n := by rw [hinv, mul_one]
    · rw [if_neg h1]
      have h1q : ((n * 2 ^ (-(a - b)).toNat : ℕ) : ℚ) < d := by
        exact_mod_cast not_le.mp h1
      rw [Nat.cast_mul, hcast] at h1q
      refine ⟨low, ?_⟩
      rw [sub_add_cancel]
      have := mul_lt_mul_of_pos_left h1q hp
      calc (n : ℚ) = n * (2 ^ (a - b) * 2 ^ (-(a - b))) := by rw [hinv, mul_one]
        _ = 2 ^ (a - b) * (n * 2 ^ (-(a - b))) := by ring
        _ < 2 ^ (a - b) * d := this

/-- The scaled integer of `Dbl.round64`: with `r = m * 2 ^ k` the value computed in
`Dbl.round64` from the integer `m` nearest to `(n / d) / 2 ^ k`, `r` is within half
of `2 ^ k` of `n / d`. -/
theorem scaled_spec (n d : Nat) (hd : 0 < d) (k : ℤ) :
    ∃ m : ℕ,
      (if 0 ≤ k then ((Dbl.roundHalfEven n (d * 2 ^ k.toNat) * 2 ^ k.toNat : Nat) : ℚ)
        else (Dbl.roundHalfEven (n * 2 ^ (-k).toNat) d : ℚ) / ((2 ^ (-k).toNat : Nat) : ℚ)) =
        m * 2 ^ k ∧
      |(m : ℚ) * 2 ^ k - n / d| ≤ 2 ^ k / 2 := by
  have h2 : (2 : ℚ) ≠ 0 := by norm_num
  have hdq : (0 : ℚ) < d := by exact_mod_cast hd
  have hp : (0 : ℚ) < 2 ^ k := zpow_pos (by norm_num) _
  by_cases h0 : 0 ≤ k
  · rw [if_pos h0]
    have hcast : ((2 ^ k.toNat : ℕ) : ℚ) = 2 ^ k := by
      push_cast
      rw [← zpow_natCast, Int.toNat_of_nonneg h0]
    have hD : 0 < d * 2 ^ k.toNat := Nat.mul_pos hd (pow_pos (by norm_num) _)
    obtain ⟨s1, s2⟩ := roundHalfEven_spec n (d * 2 ^ k.toNat) hD
    refine ⟨Dbl.roundHalfEven n (d * 2 ^ k.toNat), ?_, ?_⟩
    · rw [Nat.cast_mul, hcast]
    · have q1 : (2 : ℚ) * (Dbl.roundHalfEven n (d * 2 ^ k.toNat) * (d * 2 ^ k)) ≤
          2 * n + d * 2 ^ k := by
        have : ((2 * (Dbl.roundHalfEven n (d * 2 ^ k.toNat) * (d * 2 ^ k.toNat)) : ℕ) : ℚ) ≤
            ((2 * n + d * 2 ^ k.toNat : ℕ) : ℚ) := by exact_mod_cast s1
        simpa [Nat.cast_mul, Nat.cast_add, hcast, -Nat.cast_pow] using this
      have q2 : (2 : ℚ) * n ≤
          2 * (Dbl.roundHalfEven n (d * 2 ^ k.toNat) * (d * 2 ^ k)) + d * 2 ^ k := by
        have : ((2 * n : ℕ) : ℚ) ≤
            ((2 * (Dbl.roundHalfEven n (d * 2 ^ k.toNat) * (d * 2 ^ k.toNat)) +
              d * 2 ^ k.toNat : ℕ) : ℚ) := by exact_mod_cast s2
        simpa [Nat.cast_mul, Nat.cast_add, hcast, -Nat.cast_pow] using this
      generalize (Dbl.roundHalfEven n (d * 2 ^ k.toNat) : ℚ) = m at q1 q2 ⊢
      have hx : (n : ℚ) = (n : ℚ) / d * d := by field_simp
      generalize (n : ℚ) / d = x at hx ⊢
      rw [hx] at q1 q2
      generalize (2 : ℚ) ^ k = P at hp q1 q2 ⊢
      have r1 : 2 * (m * P) ≤ 2 * x + P :=
        (mul_le_mul_left hdq).mp (by linarith)
      have r2 : 2 * x ≤ 2 * (m * P) + P :=
        (mul_le_mul_left hdq).mp (by linarith)
      rw [abs_le]
      constructor <;> linarith
  · rw [if_neg h0]
    have h0' : 0 ≤ -k := by omega
    have hcast : ((2 ^ (-k).toNat : ℕ) : ℚ) = 2 ^ (-k) := by
      push_cast
      rw [← zpow_natCast, Int.toNat_of_nonneg h0']
    have hinv : (2 : ℚ) ^ k * 2 ^ (-k) = 1 := by
      rw [← zpow_add₀ h2]; simp
    have hp' : (0 : ℚ) < 2 ^ (-k) := zpow_pos (by norm_num) _
    obtain ⟨s1, s2⟩ := roundHalfEven_spec (n * 2 ^ (-k).toNat) d hd
    refine ⟨Dbl.roundHalfEven (n * 2 ^ (-k).toNat) d, ?_, ?_⟩
    · rw [hcast, zpow_neg, div_inv_eq_mul]
    · have q1 : (2 : ℚ) * (Dbl.roundHalfEven (n * 2 ^ (-k).toNat) d * d) ≤
          2 * (n * 2 ^ (-k)) + d := by
        have : ((2 * (Dbl.roundHalfEven (n * 2 ^ (-k).toNat) d * d) : ℕ) : ℚ) ≤
            ((2 * (n * 2 ^ (-k).toNat) + d : ℕ) : ℚ) := by exact_mod_cast s1
        simpa [Nat.cast_mul, Nat.cast_add, hcast, -Nat.cast_pow] using this
      have q2 : (2 : ℚ) * (n * 2 ^ (-k)) ≤
          2 * (Dbl.roundHalfEven (n * 2 ^ (-k).toNat) d * d) + d := by
        have : ((2 * (n * 2 ^ (-k).toNat) : ℕ) : ℚ) ≤
            ((2 * (Dbl.roundHalfEven (n * 2 ^ (-k).toNat) d * d) + d : ℕ) : ℚ) := by
          exact_mod_cast s2
        simpa [Nat.cast_mul, Nat.cast_add, hcast, -Nat.cast_pow] using this
      generalize (Dbl.roundHalfEven (n * 2 ^ (-k).toNat) d : ℚ) = m at q1 q2 ⊢
      have hk : (2 : ℚ) ^ (-k) = (2 ^ k)⁻¹ := zpow_neg _ _
      rw [hk] at q1 q2
      have hx : (n : ℚ) = (n : ℚ) / d * d := by field_simp
      generalize (n : ℚ) / d = x at hx ⊢
      rw [hx] at q1 q2
      generalize (2 : ℚ) ^ k = P at hp q1 q2 ⊢
      have hPne : P ≠ 0 := ne_of_gt hp
      have hPd : 0 < P * d := mul_pos hp hdq
      have e1 : P * d * (2 * (m * P)) = P * P * (2 * (m * d)) := by ring
      have e2 : P * d * (2 * x + P) = P * P * (2 * (x * d * P⁻¹) + d) := by
        field_simp; ring
      have r1 : 2 * (m * P) ≤ 2 * x + P := by
        apply (mul_le_mul_left hPd).mp
        rw [e1, e2]
        exact mul_le_mul_of_nonneg_left q1 (le_of_lt (mul_pos hp hp))
      have e3 : P * d * (2 * x) = P * P * (2 * (x * d * P⁻¹)) := by
        field_simp; ring
      have e4 : P * d * (2 * (m * P) + P) = P * P * (2 * (m * d) + d) := by ring
      have r2 : 2 * x ≤ 2 * (m * P) + P := by
        apply (mul_le_mul_left hPd).mp
        rw [e3, e4]
        exact mul_le_mul_of_nonneg_left q2 (le_of_lt (mul_pos hp hp))
      rw [abs_le]
      constructor <;> linarith

/-- The rounding `Dbl.round64` of a nonzero rational `q`: with `e` the binary Dbl.exponent
of `|q|` and `2 ^ k`, `k = max e (-1022) - 52`, the unit in the last place of the
binary64 values around `|q|`, the result is `m * 2 ^ k` with the sign of `q`, for
an integer `m ≤ 2 ^ 53` such that `m * 2 ^ k` is within half a unit of `|q|`;
it is the infinity of the sign of `q` when `m * 2 ^ k` reaches `2 ^ 1024`. -/
theorem round64_spec (q : ℚ) (hq : q ≠ 0) :
    ∃ (m : ℕ) (e : ℤ),
      (2 : ℚ) ^ e ≤ abs q ∧ abs q < 2 ^ (e + 1) ∧
      abs ((m : ℚ) * 2 ^ (max e (-1022) - 52) - abs q) ≤ 2 ^ (max e (-1022) - 52) / 2 ∧
      m ≤ 2 ^ 53 ∧
      Dbl.round64 q =
        if ((2 ^ 1024 : Nat) : ℚ) ≤ m * 2 ^ (max e (-1022) - 52) then
          (if 0 < q then Dbl.pinf else Dbl.ninf)
        else Dbl.fin (if 0 < q then m * 2 ^ (max e (-1022) - 52)
          else -(m * 2 ^ (max e (-1022) - 52))) := by
  have hd : 0 < q.den := q.den_pos
  have hn : 0 < q.num.natAbs := Int.natAbs_pos.mpr (Rat.num_ne_zero.mpr hq)
  have hdq : (0 : ℚ) < q.den := by exact_mod_cast hd
  have habs : (q.num.natAbs : ℚ) / q.den = |q| := by
    conv_rhs => rw [← Rat.num_div_den q]
    rw [abs_div, abs_of_pos hdq, Nat.cast_natAbs, Int.cast_abs]
  obtain ⟨e1, e2⟩ := exponent_spec q.num.natAbs q.den hn hd
  obtain ⟨m, hm1, hm2⟩ := scaled_spec q.num.natAbs q.den hd
    (max (Dbl.exponent q.num.natAbs q.den) (-1022) - 52)
  rw [habs] at hm2
  have hlo : (2 : ℚ) ^ Dbl.exponent q.num.natAbs q.den ≤ |q| := by
    rw [← habs, le_div_iff₀ hdq]; exact e1
  have hhi : |q| < 2 ^ (Dbl.exponent q.num.natAbs q.den + 1) := by
    rw [← habs, div_lt_iff₀ hdq]; exact e2
  refine ⟨m, Dbl.exponent q.num.natAbs q.den, hlo, hhi, hm2, ?_, ?_⟩
  · generalize Dbl.exponent q.num.natAbs q.den = e at hm2 hhi
    have h2 : (2 : ℚ) ≠ 0 := by norm_num
    have hp : (0 : ℚ) < 2 ^ (max e (-1022) - 52) := zpow_pos (by norm_num) _
    have hle : (2 : ℚ) ^ (e + 1) ≤ 2 ^ (max e (-1022) - 52) * 2 ^ (53 : ℕ) := by
      rw [← zpow_natCast, ← zpow_add₀ h2]
      apply zpow_le_zpow_right₀ (by norm_num)
      have := le_max_left e (-1022)
      push_cast
      omega
    have h3 := (abs_le.mp hm2).2
    generalize (2 : ℚ) ^ (max e (-1022) - 52) = P at hp hle h3
    have hlt : (m : ℚ) * P < (2 ^ 53 + 1) * P := by nlinarith
    have hm : (m : ℚ) < 2 ^ 53 + 1 := lt_of_mul_lt_mul_right hlt (le_of_lt hp)
    have : m < 2 ^ 53 + 1 := by exact_mod_cast hm
    omega
  · unfold Dbl.round64
    rw [if_neg hq]
    simp only []
    rw [hm1]

/-- A quotient half-way between two integers is rounded to the even one. -/
theorem roundHalfEven_tie (N D : Nat) (h : 2 * (N % D) = D) :
    Dbl.roundHalfEven N D % 2 = 0 := by
  unfold Dbl.roundHalfEven
  simp only []
  split_ifs <;> omega

/-- Values of the rounding to binary64: the doubles of the literals `0.1`, `0.01`
and `10.005`; a number half-way between two doubles goes to the one with the
even significand; `DBL_MAX` is kept, the half-way point between `DBL_MAX` and
`2 ^ 1024` overflows; the least subnormal is `2 ^ -1074`, and half of it rounds
to zero. -/
theorem round64_eval :
    Dbl.round64 (1 / 10) = Dbl.fin (3602879701896397 / 36028797018963968) ∧
    Dbl.round64 (1 / 100) = Dbl.fin (5764607523034235 / 576460752303423488) ∧
    Dbl.round64 (2001 / 200) = Dbl.fin (5632314283980227 / 562949953421312) ∧
    Dbl.round64 10 = Dbl.fin 10 ∧
    Dbl.round64 (-3600) = Dbl.fin (-3600) ∧
    Dbl.round64 (9007199254740993 : ℚ) = Dbl.fin 9007199254740992 ∧
    Dbl.round64 (9007199254740995 : ℚ) = Dbl.fin 9007199254740996 ∧
    Dbl.round64 (((2 ^ 1024 - 2 ^ 971 : Nat) : ℚ)) = Dbl.fin ((2 ^ 1024 - 2 ^ 971 : Nat) : ℚ) ∧
    Dbl.round64 (((2 ^ 1024 - 2 ^ 970 : Nat) : ℚ)) = Dbl.pinf ∧
    Dbl.round64 (-((2 ^ 1024 - 2 ^ 970 : Nat) : ℚ)) = Dbl.ninf ∧
    Dbl.round64 (1 / ((2 ^ 1074 : Nat) : ℚ)) = Dbl.fin (1 / ((2 ^ 1074 : Nat) : ℚ)) ∧
    Dbl.round64 (1 / ((2 ^ 1075 : Nat) : ℚ)) = Dbl.fin 0 ∧
    Dbl.round64 (3 / ((2 ^ 1075 : Nat) : ℚ)) = Dbl.fin (2 / ((2 ^ 1074 : Nat) : ℚ)) := by
  decide!

/-- C5 (the claim as stated fails): `analyzeData` in binary64, at two valid points
one hour apart with the values 10.0 and 10.005 (the double of the literal).
With the timestamps 0 s and 3600 s the slope is 0.004999999999999005, which is
not `v2 - v1` = 0.005000000000000782: the sum `10.0 + 10.005` is rounded. With
the timestamps 9999-01-01 00:00:00 and 01:00:00 UTC the denominator
`n * sumX2 - sumX * sumX` is rounded to 0: the slope is plus infinity and the
trend the increasing one, `Wzrost`, not the stable one. And with the values
minus infinity and 1, without any rounding, the slope is NaN, not
`v2 - v1` = plus infinity, and the trend is `Spadek`. -/
theorem analyzeData_two_points_counterexample :
    (analyzeData64 [⟨some 0, Dbl.fin 10, true⟩,
      ⟨some 3600, Dbl.round64 (2001 / 200), true⟩]).trendValue =
        some (Dbl.fin (1407374883553 / 281474976710656)) ∧
    Dbl.sub64 (Dbl.round64 (2001 / 200)) (Dbl.fin 10) =
      Dbl.fin (2814749767107 / 562949953421312) ∧
    (analyzeData64 [⟨some 0, Dbl.fin 10, true⟩,
      ⟨some 3600, Dbl.round64 (2001 / 200), true⟩]).trendValue ≠
        some (Dbl.sub64 (Dbl.round64 (2001 / 200)) (Dbl.fin 10)) ∧
    (analyzeData64 [⟨some 253370764800, Dbl.fin 10, true⟩,
      ⟨some (253370764800 + 3600), Dbl.round64 (2001 / 200), true⟩]).trendValue =
        some Dbl.pinf ∧
    (analyzeData64 [⟨some 253370764800, Dbl.fin 10, true⟩,
      ⟨some (253370764800 + 3600), Dbl.round64 (2001 / 200), true⟩]).trend =
        TrendText.wzrost Dbl.pinf ∧
    (analyzeData64 [⟨some 253370764800, Dbl.fin 10, true⟩,
      ⟨some (253370764800 + 3600), Dbl.round64 (2001 / 200), true⟩]).trend ≠
        TrendText.stabilne ∧
    (analyzeData64 [⟨some 0, Dbl.ninf, true⟩, ⟨some 3600, Dbl.fin 1, true⟩]).trendValue =
      some Dbl.nan ∧
    (analyzeData [⟨some 0, Dbl.ninf, true⟩, ⟨some 3600, Dbl.fin 1, true⟩]).trendValue =
      some Dbl.nan ∧
    Dbl.sub64 (Dbl.fin 1) Dbl.ninf = Dbl.pinf ∧
    (analyzeData64 [⟨some 0, Dbl.ninf, true⟩, ⟨some 3600, Dbl.fin 1, true⟩]).trend =
      TrendText.spadek Dbl.nan := by
  decide!

/-! ## Evaluations of `analyzeData` -/

theorem DBL_MAX_large : (1000 : ℚ) < DBL_MAX := by
  norm_num [DBL_MAX]

/-- C6: at two valid points sharing the timestamp 0 s, with values 1 and 2,
`analyzeData` returns the aggregates min 1, max 2 and mean 3/2, and it divides
`0` by `0`: `trendValue` is assigned NaN and the trend text is the decreasing
label. -/
theorem analyzeData_same_timestamp_eval :
    analyzeData [⟨some 0, Dbl.fin 1, true⟩, ⟨some 0, Dbl.fin 2, true⟩] =
      { minValue := Dbl.fin 1, maxValue := Dbl.fin 2, avgValue := Dbl.fin (3 / 2),
        minTime := some 0, maxTime := some 0,
        trend := TrendText.spadek Dbl.nan, trendValue := some Dbl.nan } := by
  have h1 : (1 : ℚ) < DBL_MAX := by linarith [DBL_MAX_large]
  have h2 : -DBL_MAX < (1 : ℚ) := by linarith [DBL_MAX_large]
  have h3 : -DBL_MAX < (2 : ℚ) := by linarith [DBL_MAX_large]
  simp [analyzeData, extremaStep, Extrema.init, slope, sumsStep, Sums.init, classify,
    QDateTime.toSecsSinceEpoch, Dbl.ofInt, Dbl.add, Dbl.mul, Dbl.div, Dbl.sub, Dbl.neg,
    Dbl.lt, Dbl.gt, Dbl.ge, Dbl.abs, Dbl.isnan, Dbl.signedInf, dblMax, dblLowest, h1, h2, h3]
  norm_num

theorem foldl_extremaStep_of_unusable (m_data : List DataPoint) (r : Extrema)
    (h : ∀ p ∈ m_data, (p.isValid && !p.value.isnan) = false) :
    m_data.foldl extremaStep r = r := by
  induction m_data generalizing r with
  | nil => rfl
  | cons p ps ih =>
    have hp : extremaStep r p = r := by
      simp only [extremaStep, h p (List.mem_cons_self _ _)]; rfl
    rw [List.foldl_cons, hp]
    exact ih r (fun q hq => h q (List.mem_cons_of_mem _ hq))

/-- C7: on a sequence with no point that is valid and not NaN, `analyzeData`
returns NaN for `minValue`, `maxValue` and `avgValue`; the trend text it returns
is the empty one, neither a stable nor an insufficient-data label, and
`trendValue` is not assigned. -/
theorem analyzeData_no_usable_point (m_data : List DataPoint)
    (h : ∀ p ∈ m_data, (p.isValid && !p.value.isnan) = false) :
    analyzeData m_data =
      { minValue := Dbl.nan, maxValue := Dbl.nan, avgValue := Dbl.nan,
        minTime := none, maxTime := none,
        trend := TrendText.unset, trendValue := none } := by
  simp [analyzeData, foldl_extremaStep_of_unusable m_data _ h, Extrema.init]

/-- A witness of C7: the empty sequence. -/
theorem analyzeData_no_usable_point_witness :
    analyzeData [] =
      { minValue := Dbl.nan, maxValue := Dbl.nan, avgValue := Dbl.nan,
        minTime := none, maxTime := none,
        trend := TrendText.unset, trendValue := none } :=
  analyzeData_no_usable_point [] (by simp)

/-- C8: at the single valid point of value `lowest()` and timestamp 3600 s,
`analyzeData` returns that value as minimum, maximum and mean and reports no
trend, `minTime` is the timestamp, but `maxTime` stays the invalid date-time:
the test `value > lowest()` of the sentinel fails. -/
theorem analyzeData_single_lowest_eval :
    analyzeData [⟨some 3600, dblLowest, true⟩] =
      { minValue := dblLowest, maxValue := dblLowest, avgValue := dblLowest,
        minTime := some 3600, maxTime := none,
        trend := TrendText.unset, trendValue := none } := by
  have h1 : -DBL_MAX < DBL_MAX := by linarith [DBL_MAX_large]
  simp [analyzeData, extremaStep, Extrema.init, Dbl.ofInt, Dbl.add, Dbl.div,
    Dbl.lt, Dbl.gt, Dbl.isnan, dblMax, dblLowest, h1]

/-- C10: at two valid points of value `max()`, with timestamps 0 s and 3600 s,
`analyzeData` returns `max()` as minimum and as maximum and the timestamp 0 s
as `maxTime`, but `minTime` stays the invalid date-time instead of 0 s: the test
`value < max()` of the sentinel fails at both points. -/
theorem analyzeData_all_max_eval :
    (analyzeData [⟨some 0, dblMax, true⟩, ⟨some 3600, dblMax, true⟩]).minValue = dblMax ∧
    (analyzeData [⟨some 0, dblMax, true⟩, ⟨some 3600, dblMax, true⟩]).maxValue = dblMax ∧
    (analyzeData [⟨some 0, dblMax, true⟩, ⟨some 3600, dblMax, true⟩]).maxTime = some 0 ∧
    (analyzeData [⟨some 0, dblMax, true⟩, ⟨some 3600, dblMax, true⟩]).minTime = none := by
  have h1 : -DBL_MAX < DBL_MAX := by linarith [DBL_MAX_large]
  simp [analyzeData, extremaStep, Extrema.init, Dbl.ofInt, Dbl.add, Dbl.div,
    Dbl.lt, Dbl.gt, Dbl.isnan, dblMax, dblLowest, h1]

/-! ## Maximum -/

theorem Dbl.isnan_eq_true_iff (a : Dbl) : a.isnan = true ↔ a = Dbl.nan := by
  cases a <;> simp [Dbl.isnan]

theorem Dbl.ge_self (a : Dbl) (h : a.isnan = false) : Dbl.ge a a = true := by
  cases a <;> simp_all [Dbl.ge, Dbl.lt, Dbl.isnan]

theorem Dbl.ge_of_lt_false (a b : Dbl) (ha : a.isnan = false) (hb : b.isnan = false)
    (h : Dbl.lt a b = false) : Dbl.ge a b = true := by
  cases a <;> cases b <;> simp_all [Dbl.ge, Dbl.lt, Dbl.isnan]

theorem Dbl.ge_of_lt_of_ge (a b c : Dbl) (h1 : Dbl.lt a b = true) (h2 : Dbl.ge a c = true) :
    Dbl.ge b c = true := by
  cases a <;> cases b <;> cases c <;> simp_all [Dbl.ge, Dbl.lt]
  rename_i x y z
  linarith

theorem maxValue_append (l : List DataPoint) (p : DataPoint) :
    maxValue (l ++ [p]) = maxStep (maxValue l) p := by
  simp [maxValue, List.foldl_append]

/-- The invariant of the loop of `maxValue`. -/
theorem maxValue_invariant (l : List DataPoint) :
    ((maxValue l).isnan = true ↔ ∀ q ∈ l, (q.isValid && !q.value.isnan) = false) ∧
    ((maxValue l).isnan = false →
      ∃ q ∈ l, (q.isValid && !q.value.isnan) = true ∧ q.value = maxValue l) ∧
    (∀ q ∈ l, (q.isValid && !q.value.isnan) = true → Dbl.ge (maxValue l) q.value = true) := by
  induction l using List.reverseRecOn with
  | nil => simp [maxValue, Dbl.isnan]
  | append_singleton l p ih =>
    obtain ⟨ihA, ihB, ihC⟩ := ih
    rw [maxValue_append]
    by_cases hg : (p.isValid && !p.value.isnan) = true
    · have hv : p.isValid = true := by
        cases hpv : p.isValid <;> simp_all
      have hn : p.value.isnan = false := by
        cases hpn : p.value.isnan <;> simp_all
      by_cases hm : (maxValue l).isnan = true
      · have hs : maxStep (maxValue l) p = p.value := by
          simp [maxStep, hv, hn, hm]
        rw [hs]
        refine ⟨?_, ?_, ?_⟩
        · constructor
          · intro h; rw [hn] at h; exact absurd h (by simp)
          · intro h; have := h p (by simp); rw [hg] at this; exact absurd this (by simp)
        · intro _; exact ⟨p, by simp, hg, rfl⟩
        · intro q hq hgq
          rcases List.mem_append.mp hq with hq | hq
          · have := (ihA.mp hm) q hq; rw [hgq] at this; exact absurd this (by simp)
          · have : q = p := by simpa using hq
            subst this; exact Dbl.ge_self _ hn
      · have hm' : (maxValue l).isnan = false := by
          cases h : (maxValue l).isnan <;> simp_all
        by_cases hlt : Dbl.lt (maxValue l) p.value = true
        · have hs : maxStep (maxValue l) p = p.value := by
            simp [maxStep, hv, hn, Dbl.gt, hlt]
          rw [hs]
          refine ⟨?_, ?_, ?_⟩
          · constructor
            · intro h; rw [hn] at h; exact absurd h (by simp)
            · intro h; have := h p (by simp); rw [hg] at this; exact absurd this (by simp)
          · intro _; exact ⟨p, by simp, hg, rfl⟩
          · intro q hq hgq
            rcases List.mem_append.mp hq with hq | hq
            · exact Dbl.ge_of_lt_of_ge _ _ _ hlt (ihC q hq hgq)
            · have : q = p := by simpa using hq
              subst this; exact Dbl.ge_self _ hn
        · have hlt' : Dbl.lt (maxValue l) p.value = false := by
            cases h : Dbl.lt (maxValue l) p.value <;> simp_all
          have hs : maxStep (maxValue l) p = maxValue l := by
            simp [maxStep, hv, hn, Dbl.gt, hlt', hm']
          rw [hs]
          refine ⟨?_, ?_, ?_⟩
          · constructor
            · intro h; rw [hm'] at h; exact absurd h (by simp)
            · intro h; have := h p (by simp); rw [hg] at this; exact absurd this (by simp)
          · intro h
            obtain ⟨q, hq, hgq, hqv⟩ := ihB h
            exact ⟨q, List.mem_append_left _ hq, hgq, hqv⟩
          · intro q hq hgq
            rcases List.mem_append.mp hq with hq | hq
            · exact ihC q hq hgq
            · have : q = p := by simpa using hq
              subst this; exact Dbl.ge_of_lt_false _ _ hm' hn hlt'
    · have hg' : (p.isValid && !p.value.isnan) = false := by
        cases h : (p.isValid && !p.value.isnan) <;> simp_all
      have hs : maxStep (maxValue l) p = maxValue l := by
        unfold maxStep
        rw [← Bool.and_assoc, hg']; simp
      rw [hs]
      refine ⟨?_, ?_, ?_⟩
      · constructor
        · intro h q hq
          rcases List.mem_append.mp hq with hq | hq
          · exact ihA.mp h q hq
          · have : q = p := by simpa using hq
            subst this; exact hg'
        · intro h; exact ihA.mpr (fun q hq => h q (List.mem_append_left _ hq))
      · intro h
        obtain ⟨q, hq, hgq, hqv⟩ := ihB h
        exact ⟨q, List.mem_append_left _ hq, hgq, hqv⟩
      · intro q hq hgq
        rcases List.mem_append.mp hq with hq | hq
        · exact ihC q hq hgq
        · have : q = p := by simpa using hq
          subst this; rw [hg'] at hgq; exact absurd hgq (by simp)

theorem foldl_maxStep_filter (l : List DataPoint) (acc : Dbl) :
    l.foldl maxStep acc = (l.filter (fun p => p.isValid)).foldl maxStep acc := by
  induction l generalizing acc with
  | nil => rfl
  | cons p ps ih =>
    by_cases hv : p.isValid = true
    · simp [List.filter_cons, hv, ih]
    · have hs : maxStep acc p = acc := by simp [maxStep, hv]
      simp [List.filter_cons, hv, hs, ih]

/-- C9: `maxValue()` is NaN exactly when no point is both valid and not NaN;
otherwise it is the value of such a point and no such point has a greater value;
the points with `isValid` false have no influence on the result. -/
theorem maxValue_spec (m_data : List DataPoint) :
    (maxValue m_data = Dbl.nan ↔
      ∀ p ∈ m_data, ¬ (p.isValid = true ∧ p.value.isnan = false)) ∧
    ((∃ p ∈ m_data, p.isValid = true ∧ p.value.isnan = false) →
      (∃ q ∈ m_data, q.isValid = true ∧ q.value.isnan = false ∧ maxValue m_data = q.value) ∧
      ∀ q ∈ m_data, q.isValid = true → q.value.isnan = false →
        Dbl.ge (maxValue m_data) q.value = true) ∧
    maxValue m_data = maxValue (m_data.filter (fun p => p.isValid)) := by
  obtain ⟨hA, hB, hC⟩ := maxValue_invariant m_data
  refine ⟨?_, ?_, ?_⟩
  · rw [← Dbl.isnan_eq_true_iff, hA]
    constructor
    · intro h p hp ⟨h1, h2⟩
      have := h p hp; simp [h1, h2] at this
    · intro h p hp
      have := h p hp
      cases h1 : p.isValid <;> cases h2 : p.value.isnan <;> simp_all
  · rintro ⟨p, hp, h1, h2⟩
    have hnn : (maxValue m_data).isnan = false := by
      cases h : (maxValue m_data).isnan
      · rfl
      · have := hA.mp h p hp; simp [h1, h2] at this
    constructor
    · obtain ⟨q, hq, hgq, hqv⟩ := hB hnn
      refine ⟨q, hq, ?_, ?_, hqv.symm⟩
      · cases h : q.isValid <;> simp_all
      · cases h : q.value.isnan <;> simp_all
    · intro q hq hq1 hq2
      exact hC q hq (by simp [hq1, hq2])
  · exact foldl_maxStep_filter m_data Dbl.nan

/-! ## The sibling `MainWindow::analyzeFilteredData` -/

/-- At the two valid points sharing the timestamp 0 s, `analyzeFilteredData`
finds the denominator zero and computes no slope: the aggregates are returned
with the text `Za mało danych` and the trend value `0`. -/
theorem analyzeFilteredData_same_timestamp_eval :
    analyzeFilteredData [⟨some 0, Dbl.fin 1, true⟩, ⟨some 0, Dbl.fin 2, true⟩] =
      { minValue := Dbl.fin 1, maxValue := Dbl.fin 2, avgValue := Dbl.fin (3 / 2),
        minTime := some 0, maxTime := some 0,
        trend := TrendText.zaMaloDanych, trendValue := some (Dbl.fin 0) } := by
  have h1 : (1 : ℚ) < DBL_MAX := by linarith [DBL_MAX_large]
  have h2 : -DBL_MAX < (1 : ℚ) := by linarith [DBL_MAX_large]
  have h3 : -DBL_MAX < (2 : ℚ) := by linarith [DBL_MAX_large]
  simp [analyzeFilteredData, extremaStep, Extrema.init, sumsStepFiltered, Sums.init,
    QDateTime.toSecsSinceEpoch, Dbl.ofInt, Dbl.add, Dbl.mul, Dbl.div, Dbl.sub, Dbl.neg,
    Dbl.lt, Dbl.gt, Dbl.ne, Dbl.isnan, dblMax, dblLowest, h1, h2, h3]
  norm_num

/-- On the empty sequence `analyzeFilteredData` returns the text `Za mało danych`
and the trend value `0`. -/
theorem analyzeFilteredData_nil_eval :
    (analyzeFilteredData []).trend = TrendText.zaMaloDanych ∧
    (analyzeFilteredData []).trendValue = some (Dbl.fin 0) := by
  simp [analyzeFilteredData]

/-! ## Order of the points -/

theorem Dbl.add_swap (s a b : Dbl) : Dbl.add (Dbl.add s a) b = Dbl.add (Dbl.add s b) a := by
  cases s <;> cases a <;> cases b <;> simp only [Dbl.add, Dbl.fin.injEq]
  linarith

theorem Dbl.min_swap (m a b : Dbl) :
    (if Dbl.lt b (if Dbl.lt a m then a else m) then b else (if Dbl.lt a m then a else m)) =
    (if Dbl.lt a (if Dbl.lt b m then b else m) then a else (if Dbl.lt b m then b else m)) := by
  cases m <;> cases a <;> cases b <;> simp only [Dbl.lt, decide_eq_true_eq] <;>
    (try split_ifs) <;> (try simp only [Dbl.lt, decide_eq_true_eq] at *) <;>
    (try simp_all) <;>
    first
      | done
      | rfl
      | (exfalso; linarith)
      | (apply le_antisymm <;> linarith)

theorem Dbl.max_swap (m a b : Dbl) :
    (if Dbl.gt b (if Dbl.gt a m then a else m) then b else (if Dbl.gt a m then a else m)) =
    (if Dbl.gt a (if Dbl.gt b m then b else m) then a else (if Dbl.gt b m then b else m)) := by
  cases m <;> cases a <;> cases b <;> simp only [Dbl.gt, Dbl.lt, decide_eq_true_eq] <;>
    (try split_ifs) <;> (try simp only [Dbl.lt, decide_eq_true_eq] at *) <;>
    (try simp_all) <;>
    first
      | done
      | rfl
      | (exfalso; linarith)
      | (apply le_antisymm <;> linarith)

theorem core_extremaStep (r : Extrema) (p : DataPoint) :
    (extremaStep r p).core = coreStep r.core p := by
  unfold extremaStep coreStep Extrema.core
  by_cases h : (p.isValid && !p.value.isnan) = true
  · simp only [h, if_true]
    split_ifs <;> rfl
  · simp only [h]; rfl

theorem core_foldl_extremaStep (l : List DataPoint) (r : Extrema) :
    (l.foldl extremaStep r).core = l.foldl coreStep r.core := by
  induction l generalizing r with
  | nil => rfl
  | cons p ps ih => rw [List.foldl_cons, List.foldl_cons, ih, core_extremaStep]

theorem coreStep_right_comm (c : Dbl × Dbl × Dbl × Int) (a b : DataPoint) :
    coreStep (coreStep c a) b = coreStep (coreStep c b) a := by
  unfold coreStep
  by_cases ha : (a.isValid && !a.value.isnan) = true <;>
    by_cases hb : (b.isValid && !b.value.isnan) = true <;>
    simp only [ha, hb, if_true, if_false]
  · refine Prod.ext (Dbl.min_swap _ _ _) (Prod.ext (Dbl.max_swap _ _ _)
      (Prod.ext (Dbl.add_swap _ _ _) ?_))
    rfl
  all_goals simp

theorem sumsStep_right_comm (s : Sums) (a b : DataPoint) :
    sumsStep (sumsStep s a) b = sumsStep (sumsStep s b) a := by
  unfold sumsStep
  by_cases ha : a.isValid = true <;> by_cases hb : b.isValid = true <;>
    simp only [ha, hb, if_true, if_false]
  · simp only [Sums.mk.injEq]
    refine ⟨Dbl.add_swap _ _ _, Dbl.add_swap _ _ _, Dbl.add_swap _ _ _,
      Dbl.add_swap _ _ _, trivial⟩
  all_goals simp

theorem extrema_core_perm (l₁ l₂ : List DataPoint) (h : l₁.Perm l₂) :
    (l₁.foldl extremaStep Extrema.init).core = (l₂.foldl extremaStep Extrema.init).core := by
  rw [core_foldl_extremaStep, core_foldl_extremaStep]
  exact h.foldl_eq' (fun x _ y _ z => coreStep_right_comm z x y) _

theorem slope_perm (l₁ l₂ : List DataPoint) (h : l₁.Perm l₂) : slope l₁ = slope l₂ := by
  have hs : l₁.foldl sumsStep Sums.init = l₂.foldl sumsStep Sums.init :=
    h.foldl_eq' (fun x _ y _ z => sumsStep_right_comm z x y) _
  simp only [slope, hs]

/-- C11: `analyzeData` does not depend on the order of the points: on a
permutation of the sequence it returns the same `minValue`, `maxValue`,
`avgValue`, trend slope and trend text. -/
theorem analyzeData_perm (l₁ l₂ : List DataPoint) (h : l₁.Perm l₂) :
    (analyzeData l₁).minValue = (analyzeData l₂).minValue ∧
    (analyzeData l₁).maxValue = (analyzeData l₂).maxValue ∧
    (analyzeData l₁).avgValue = (analyzeData l₂).avgValue ∧
    (analyzeData l₁).trendValue = (analyzeData l₂).trendValue ∧
    (analyzeData l₁).trend = (analyzeData l₂).trend := by
  have hc := extrema_core_perm l₁ l₂ h
  simp only [Extrema.core, Prod.mk.injEq] at hc
  obtain ⟨hmin, hmax, hsum, hcount⟩ := hc
  have hsl := slope_perm l₁ l₂ h
  simp only [analyzeData, hmin, hmax, hsum, hcount, hsl]
  split_ifs <;> simp

/-- A witness of C11: two valid points, in both orders. -/
theorem analyzeData_perm_witness :
    List.Perm [(⟨some 0, Dbl.fin 1, true⟩ : DataPoint), ⟨some 3600, Dbl.fin 2, true⟩]
      [⟨some 3600, Dbl.fin 2, true⟩, ⟨some 0, Dbl.fin 1, true⟩] ∧
    (analyzeData [⟨some 0, Dbl.fin 1, true⟩, ⟨some 3600, Dbl.fin 2, true⟩]).trendValue =
      (analyzeData [⟨some 3600, Dbl.fin 2, true⟩, ⟨some 0, Dbl.fin 1, true⟩]).trendValue :=
  ⟨List.Perm.swap _ _ _, (analyzeData_perm _ _ (List.Perm.swap _ _ _)).2.2.2.1⟩

/-! ## The constructor of Measurement -/

theorem contains_of_isArray (json : QJsonObject) (key : String)
    (h : (json.value key).isArray = true) : json.contains key = true := by
  unfold QJsonObject.value at h
  unfold QJsonObject.contains
  cases hl : json.lookup key with
  | none => rw [hl] at h; simp [QJsonValue.isArray] at h
  | some v => rfl

theorem toArray_of_not_isArray (v : QJsonValue) (h : v.isArray = false) : v.toArray = [] := by
  cases v <;> simp_all [QJsonValue.toArray, QJsonValue.isArray]

theorem parseValues_eq (qt : QtLib) (u : Uninit) (l : List QJsonValue) (i : Nat)
    (acc : List DataPoint) :
    parseValues qt u i l acc = acc ++ (l.enumFrom i).filterMap (pointOfElement qt u) := by
  induction l generalizing i acc with
  | nil => simp [parseValues]
  | cons v vs ih =>
    cases hv : v.isObject
    · simp [parseValues, hv, ih, List.enumFrom_cons, List.filterMap_cons, pointOfElement]
    · simp [parseValues, hv, ih, List.enumFrom_cons, List.filterMap_cons, pointOfElement]

theorem fromJson_m_data (qt : QtLib) (u : Uninit) (json : QJsonObject) :
    (fromJson qt u json).m_data =
      ((json.value "values").toArray.enum).filterMap (pointOfElement qt u) := by
  simp only [fromJson]
  split_ifs with h
  · simp [parseValues_eq, List.enum]
  · have ha : (json.value "values").isArray = false := by
      cases hv : (json.value "values").isArray
      · rfl
      · rw [contains_of_isArray json "values" hv, hv] at h; simp at h
    simp [toArray_of_not_isArray _ ha]

theorem filterMap_pointOfElement_length (qt : QtLib) (u : Uninit) (l : List QJsonValue)
    (i : Nat) :
    ((l.enumFrom i).filterMap (pointOfElement qt u)).length =
      l.countP (fun v => v.isObject) := by
  induction l generalizing i with
  | nil => simp
  | cons v vs ih =>
    cases hv : v.isObject <;>
      simp [List.enumFrom_cons, List.filterMap_cons, pointOfElement, hv, ih, List.countP_cons]

/-- C12 (as amended): the constructor makes one data point of each element of the
array `values` that is an object, in the order of the array, and skips the
elements that are not objects; an object whose `value` is null gives a point
with `isValid` false and the value NaN. -/
theorem fromJson_points (qt : QtLib) (u : Uninit) (json : QJsonObject) :
    (fromJson qt u json).m_data =
      ((json.value "values").toArray.enum).filterMap
        (fun iv => if iv.2.isObject
          then some (parsePoint qt (u.value iv.1) (u.isValid iv.1) iv.2.toObject) else none) ∧
    (fromJson qt u json).m_data.length =
      (json.value "values").toArray.countP (fun v => v.isObject) ∧
    ∀ (value0 : Dbl) (isValid0 : Bool) (pointObj : QJsonObject),
      pointObj.value "value" = QJsonValue.null →
      (parsePoint qt value0 isValid0 pointObj).isValid = false ∧
      (parsePoint qt value0 isValid0 pointObj).value = Dbl.nan := by
  refine ⟨fromJson_m_data qt u json, ?_, ?_⟩
  · rw [fromJson_m_data, List.enum, filterMap_pointOfElement_length]
  · intro value0 isValid0 pointObj hnull
    have hc : pointObj.contains "value" = true := by
      unfold QJsonObject.value at hnull
      unfold QJsonObject.contains
      cases hl : pointObj.lookup "value" with
      | none => rw [hl] at hnull; simp at hnull
      | some v => rfl
    simp [parsePoint, hc, hnull, QJsonValue.isNull]

/-- C12 (the claim as stated fails): of the two elements of the array
`[{"value": null}, 7]` the constructor makes one data point only. -/
theorem fromJson_element_count_counterexample :
    (fromJson QtLib.sample ⟨0, fun _ => Dbl.fin 0, fun _ => false⟩
      [("values", QJsonValue.array
        [QJsonValue.object [("value", QJsonValue.null)], QJsonValue.double (Dbl.fin 7)])]).m_data.length
      ≠ (QJsonValue.toArray (QJsonValue.array
        [QJsonValue.object [("value", QJsonValue.null)], QJsonValue.double (Dbl.fin 7)])).length := by
  rw [(fromJson_m_data _ _ _)]
  simp [QJsonObject.value, List.lookup, QJsonValue.toArray, List.enum, List.enumFrom,
    pointOfElement, QJsonValue.isObject]

/-- C13: for the document `{"values": [{"date": "1970-01-01 01:00:00"}]}`, whose
point has no `value` field, the constructor keeps the point and leaves its
`value` and `isValid` as they were in the uninitialised `DataPoint`: they are
not set to NaN and false. -/
theorem fromJson_absent_value_eval (qt : QtLib) (u : Uninit) :
    (fromJson qt u [("values", QJsonValue.array
      [QJsonValue.object [("date", QJsonValue.string "1970-01-01 01:00:00")]])]).m_data =
      [{ timestamp := qt.fromString "1970-01-01 01:00:00",
         value := u.value 0, isValid := u.isValid 0 }] := by
  rw [fromJson_m_data]
  simp [QJsonObject.value, List.lookup, QJsonValue.toArray, List.enum, List.enumFrom,
    pointOfElement, QJsonValue.isObject, QJsonValue.toObject, parsePoint,
    QJsonObject.contains, QJsonValue.toString]

/-- A point whose `value` does not convert to a number (a string that
`QString::toDouble` rejects, an array, an object) is kept with `isValid` false
and the value NaN, whatever its `date`. -/
theorem parsePoint_unparsable (qt : QtLib) (value0 : Dbl) (isValid0 : Bool)
    (pointObj : QJsonObject) (hc : pointObj.contains "value" = true)
    (hu : ((pointObj.value "value").toVariantDouble qt).2 = false) :
    (parsePoint qt value0 isValid0 pointObj).isValid = false ∧
    (parsePoint qt value0 isValid0 pointObj).value = Dbl.nan := by
  simp only [parsePoint, hc, if_true]
  split_ifs <;> simp_all

theorem splitChars_ne_nil (sep : Char) (cs : List Char) : splitChars sep cs ≠ [] := by
  cases cs with
  | nil => simp [splitChars]
  | cons c cs =>
    unfold splitChars
    split_ifs
    · simp
    · split <;> simp

theorem splitChars_head (sep : Char) (cs : List Char) :
    (splitChars sep cs).head? = some (cs.takeWhile (fun c => decide (c ≠ sep))) := by
  induction cs with
  | nil => simp [splitChars]
  | cons c cs ih =>
    unfold splitChars
    by_cases h : c = sep
    · simp [h]
    · simp only [h, if_false]
      cases hs : splitChars sep cs with
      | nil => exact absurd hs (splitChars_ne_nil sep cs)
      | cons w ws =>
        rw [hs] at ih
        simp at ih
        simp [List.takeWhile_cons, h, ih]

/-- C14: the constructor sets the parameter code to the string of the field
`paramCode` when the document has that field, whether or not it has a `key`;
otherwise to the part of `key` before its first `_`, which is the whole key when
it has no `_`; otherwise to `Nieznany`. -/
theorem fromJson_paramCode (qt : QtLib) (u : Uninit) (json : QJsonObject) :
    (fromJson qt u json).m_paramCode =
      (if json.contains "paramCode" then (json.value "paramCode").toString
      else if json.contains "key" then
        String.mk ((json.value "key").toString.data.takeWhile (fun c => decide (c ≠ '_')))
      else "Nieznany") ∧
    ∀ s : String, '_' ∉ s.data →
      String.mk (s.data.takeWhile (fun c => decide (c ≠ '_'))) = s := by
  constructor
  · simp only [fromJson]
    split_ifs with h1 h2
    · rfl
    · have := splitChars_head '_' (json.value "key").toString.data
      simp only [qStringSplit]
      cases hs : splitChars '_' (json.value "key").toString.data with
      | nil => exact absurd hs (splitChars_ne_nil _ _)
      | cons w ws =>
        rw [hs] at this
        simp at this
        simp [this]
    · rfl
  · intro s hs
    have : s.data.takeWhile (fun c => decide (c ≠ '_')) = s.data := by
      rw [List.takeWhile_eq_self_iff]
      intro c hc
      simp only [decide_eq_true_eq]
      intro h; rw [h] at hc; exact hs hc
    rw [this]

end Measurement

/-! ## JSON objects -/

theorem QJsonObject.value_of_not_contains (json : QJsonObject) (key : String)
    (h : json.contains key = false) : json.value key = QJsonValue.undefined := by
  unfold QJsonObject.contains at h
  unfold QJsonObject.value
  cases hl : json.lookup key with
  | none => rfl
  | some v => rw [hl] at h; simp at h

theorem QJsonValue.toInt_of_not_isDouble (v : QJsonValue) (h : v.isDouble = false) :
    v.toInt = 0 := by
  cases v <;> simp_all [QJsonValue.toInt, QJsonValue.isDouble]

theorem QJsonValue.toString_of_not_isString (v : QJsonValue) (h : v.isString = false) :
    v.toString = "" := by
  cases v <;> simp_all [QJsonValue.toString, QJsonValue.isString]

theorem QJsonValue.toObject_of_not_isObject (v : QJsonValue) (h : v.isObject = false) :
    v.toObject = [] := by
  cases v <;> simp_all [QJsonValue.toObject, QJsonValue.isObject]

theorem QJsonObject.value_nil (key : String) :
    QJsonObject.value [] key = QJsonValue.undefined := rfl

/-! ## The constructor of Station -/

namespace Station

/-- C15: constructing a `Station` of a JSON object always gives a station. A
field that is missing or of the wrong type gives 0 for `id`, `cityId`,
`latitude` and `longitude` and the empty string for the names and the street; a
`city` that is not an object leaves the five fields read from it zero or empty,
a `commune` that is not an object the three names read from it, and inside a
`commune` that is an object a missing or wrongly typed `communeName`,
`districtName` or `provinceName` gives the empty string; `Station({})` has id 0,
latitude 0, longitude 0 and an empty address. -/
theorem fromJson_defaults (qt : QtLib) (hempty : qt.toDouble "" = none) (json : QJsonObject) :
    (∀ key, json.contains key = false → json.value key = QJsonValue.undefined) ∧
    ((json.value "id").isDouble = false → (fromJson qt json).id = 0) ∧
    ((json.value "stationName").isString = false → (fromJson qt json).name = "") ∧
    ((json.value "gegrLat").isString = false → (fromJson qt json).latitude = Dbl.fin 0) ∧
    ((json.value "gegrLon").isString = false → (fromJson qt json).longitude = Dbl.fin 0) ∧
    ((json.value "addressStreet").isString = false →
      (fromJson qt json).address.streetName = "") ∧
    ((((json.value "city").toObject).value "id").isDouble = false →
      (fromJson qt json).address.cityId = 0) ∧
    ((((json.value "city").toObject).value "name").isString = false →
      (fromJson qt json).address.cityName = "") ∧
    ((json.value "city").isObject = false →
      (fromJson qt json).address.cityId = 0 ∧
      (fromJson qt json).address.cityName = "" ∧
      (fromJson qt json).address.communeName = "" ∧
      (fromJson qt json).address.districtName = "" ∧
      (fromJson qt json).address.provinceName = "") ∧
    ((((json.value "city").toObject).value "commune").isObject = false →
      (fromJson qt json).address.communeName = "" ∧
      (fromJson qt json).address.districtName = "" ∧
      (fromJson qt json).address.provinceName = "") ∧
    ((((((json.value "city").toObject).value "commune").toObject).value
        "communeName").isString = false →
      (fromJson qt json).address.communeName = "") ∧
    ((((((json.value "city").toObject).value "commune").toObject).value
        "districtName").isString = false →
      (fromJson qt json).address.districtName = "") ∧
    ((((((json.value "city").toObject).value "commune").toObject).value
        "provinceName").isString = false →
      (fromJson qt json).address.provinceName = "") ∧
    fromJson qt [] =
      { m_id := 0, m_name := "", m_latitude := Dbl.fin 0, m_longitude := Dbl.fin 0,
        m_address :=
          { cityId := 0, cityName := "", communeName := "", districtName := "",
            provinceName := "", streetName := "" },
        m_addressStreet := "", m_cityName := "" } := by
  have hz : qt.stringToDouble "" = Dbl.fin 0 := by simp [QtLib.stringToDouble, hempty]
  refine ⟨fun key h => QJsonObject.value_of_not_contains json key h, ?_, ?_, ?_, ?_, ?_, ?_, ?_,
    ?_, ?_, ?_, ?_, ?_, ?_⟩
  · intro h; simp [fromJson, id, QJsonValue.toInt_of_not_isDouble _ h]
  · intro h; simp [fromJson, name, QJsonValue.toString_of_not_isString _ h]
  · intro h; simp [fromJson, latitude, QJsonValue.toString_of_not_isString _ h, hz]
  · intro h; simp [fromJson, longitude, QJsonValue.toString_of_not_isString _ h, hz]
  · intro h; simp [fromJson, address, QJsonValue.toString_of_not_isString _ h]
  · intro h; simp [fromJson, address, QJsonValue.toInt_of_not_isDouble _ h]
  · intro h; simp [fromJson, address, QJsonValue.toString_of_not_isString _ h]
  · intro h
    have hc := QJsonValue.toObject_of_not_isObject _ h
    simp only [fromJson, address, hc, QJsonObject.value_nil]
    simp [QJsonValue.toInt, QJsonValue.toString, QJsonValue.toObject, QJsonObject.value_nil]
  · intro h
    have hc := QJsonValue.toObject_of_not_isObject _ h
    simp only [fromJson, address, hc, QJsonObject.value_nil]
    simp [QJsonValue.toString]
  · intro h; simp [fromJson, address, QJsonValue.toString_of_not_isString _ h]
  · intro h; simp [fromJson, address, QJsonValue.toString_of_not_isString _ h]
  · intro h; simp [fromJson, address, QJsonValue.toString_of_not_isString _ h]
  · simp [fromJson, QJsonObject.value_nil, QJsonValue.toInt, QJsonValue.toString,
      QJsonValue.toObject, hz]

/-- A witness of C15: the empty object, with the sample table of Qt results. -/
theorem fromJson_defaults_witness :
    QtLib.sample.toDouble "" = none ∧
    fromJson QtLib.sample [] =
      { m_id := 0, m_name := "", m_latitude := Dbl.fin 0, m_longitude := Dbl.fin 0,
        m_address :=
          { cityId := 0, cityName := "", communeName := "", districtName := "",
            provinceName := "", streetName := "" },
        m_addressStreet := "", m_cityName := "" } :=
  ⟨by simp [QtLib.sample], (fromJson_defaults QtLib.sample (by simp [QtLib.sample]) []).2.2.2.2.2.2.2.2.2.2.2.2.2⟩

theorem sample_id (qt : QtLib) (name : String) :
    (fromJson qt (sampleStationDoc name)).id = 1 := by
  simp [Station.fromJson, Station.id, sampleStationDoc, QJsonObject.value, List.lookup,
    QJsonValue.toInt]

theorem sample_name (qt : QtLib) (name : String) :
    (fromJson qt (sampleStationDoc name)).name = name := by
  simp [Station.fromJson, Station.name, sampleStationDoc, QJsonObject.value, List.lookup,
    QJsonValue.toString]

theorem sample_cityName (qt : QtLib) (name : String) :
    (fromJson qt (sampleStationDoc name)).cityName = "Warszawa" := by
  simp [Station.fromJson, Station.cityName, sampleStationDoc, QJsonObject.value, List.lookup,
    QJsonValue.toString, QJsonValue.toObject]

/-- Bounds of the square of the sine of a small negative angle `-x`, from
bounds `x0 ≤ x ≤ x1` of `x`. -/
theorem sin_sq_bounds (x x0 x1 lo : ℝ) (hlo : 0 ≤ lo) (h0 : 0 < x0) (hx0 : x0 ≤ x)
    (hx1 : x ≤ x1) (h1 : x1 ≤ 1) (hnum : lo ≤ x0 - x1 ^ 3 / 4) :
    lo ^ 2 ≤ Real.sin (-x) * Real.sin (-x) ∧ Real.sin (-x) * Real.sin (-x) ≤ x1 ^ 2 := by
  have hx : 0 < x := lt_of_lt_of_le h0 hx0
  have hs1 := Real.sin_gt_sub_cube hx (le_trans hx1 h1)
  have hs2 := Real.sin_lt hx
  have hcube : x ^ 3 ≤ x1 ^ 3 := pow_le_pow_left₀ (le_of_lt hx) hx1 3
  have hlo' : lo ≤ Real.sin x := by linarith
  have hhi' : Real.sin x ≤ x1 := by linarith
  have hpos : 0 ≤ Real.sin x := le_trans hlo hlo'
  rw [Real.sin_neg]
  constructor <;> nlinarith

/-- Bounds of the cosine of an angle of at most one radian, from bounds
`x0 ≤ x ≤ x1` of the angle. -/
theorem cos_bounds (x x0 x1 lo hi : ℝ) (h0 : 0 ≤ x0) (hx0 : x0 ≤ x) (hx1 : x ≤ x1)
    (h1 : x1 ≤ 1) (hlo : lo ≤ 1 - x1 ^ 2 / 2 - x1 ^ 4 * (5 / 96))
    (hhi : 1 - x0 ^ 2 / 2 + x1 ^ 4 * (5 / 96) ≤ hi) :
    lo ≤ Real.cos x ∧ Real.cos x ≤ hi := by
  have hx : 0 ≤ x := le_trans h0 hx0
  have h := Real.cos_bound (x := x) (by rw [abs_of_nonneg hx]; exact le_trans hx1 h1)
  rw [abs_of_nonneg hx] at h
  have hb := abs_le.mp h
  have h2 : x ^ 2 ≤ x1 ^ 2 := pow_le_pow_left₀ hx hx1 2
  have h2' : x0 ^ 2 ≤ x ^ 2 := pow_le_pow_left₀ h0 hx0 2
  have h4 : x ^ 4 ≤ x1 ^ 4 := pow_le_pow_left₀ hx hx1 4
  constructor <;> linarith [hb.1, hb.2]

/-- For a nonnegative argument the arc tangent is at most the argument. -/
theorem arctan_le_self_of_nonneg (x : ℝ) (hx : 0 ≤ x) : Real.arctan x ≤ x := by
  rcases eq_or_lt_of_le hx with h | h
  · rw [← h, Real.arctan_zero]
  · have hpos : 0 < Real.arctan x := by
      rw [← Real.arctan_zero]; exact Real.arctan_strictMono h
    have := Real.lt_tan hpos (Real.arctan_lt_pi_div_two x)
    rw [Real.tan_arctan] at this
    exact le_of_lt this

/-- A lower bound of the arc tangent of a nonnegative argument. -/
theorem le_arctan_of_nonneg (x : ℝ) (hx : 0 ≤ x) : x / (1 + x ^ 2 / 2) ≤ Real.arctan x := by
  have hnn : 0 ≤ Real.arctan x := by
    rw [← Real.arctan_zero]; exact Real.arctan_strictMono.monotone hx
  have h1 : Real.sin (Real.arctan x) ≤ Real.arctan x := Real.sin_le hnn
  rw [Real.sin_arctan] at h1
  have hsq : Real.sqrt (1 + x ^ 2) ≤ 1 + x ^ 2 / 2 := by
    rw [Real.sqrt_le_left (by positivity)]
    nlinarith [sq_nonneg (x ^ 2)]
  have hpos : 0 < Real.sqrt (1 + x ^ 2) := Real.sqrt_pos.mpr (by positivity)
  calc x / (1 + x ^ 2 / 2) ≤ x / Real.sqrt (1 + x ^ 2) :=
        div_le_div_of_nonneg_left hx hpos hsq
    _ ≤ Real.arctan x := h1


/-- Bounds of the quantity `a` of `distanceTo` at the two points. -/
theorem haversine_a_bounds :
    (386 / 1000000 : ℝ) ≤
      Real.sin ((qDegreesToRadians (500614 / 10000) - qDegreesToRadians (522297 / 10000)) / 2) *
        Real.sin ((qDegreesToRadians (500614 / 10000) - qDegreesToRadians (522297 / 10000)) / 2) +
      Real.cos (qDegreesToRadians (522297 / 10000)) *
        Real.cos (qDegreesToRadians (500614 / 10000)) *
        Real.sin ((qDegreesToRadians (199372 / 10000) - qDegreesToRadians (210122 / 10000)) / 2) *
        Real.sin ((qDegreesToRadians (199372 / 10000) - qDegreesToRadians (210122 / 10000)) / 2) ∧
    Real.sin ((qDegreesToRadians (500614 / 10000) - qDegreesToRadians (522297 / 10000)) / 2) *
        Real.sin ((qDegreesToRadians (500614 / 10000) - qDegreesToRadians (522297 / 10000)) / 2) +
      Real.cos (qDegreesToRadians (522297 / 10000)) *
        Real.cos (qDegreesToRadians (500614 / 10000)) *
        Real.sin ((qDegreesToRadians (199372 / 10000) - qDegreesToRadians (210122 / 10000)) / 2) *
        Real.sin ((qDegreesToRadians (199372 / 10000) - qDegreesToRadians (210122 / 10000)) / 2) ≤
      (394 / 1000000 : ℝ) := by
  have hpl := Real.pi_gt_d4
  have hph := Real.pi_lt_d4
  have hdlat : (qDegreesToRadians (500614 / 10000) - qDegreesToRadians (522297 / 10000)) / 2 =
      -(21683 / 20000 * (Real.pi / 180)) := by
    unfold qDegreesToRadians; ring
  have hdlon : (qDegreesToRadians (199372 / 10000) - qDegreesToRadians (210122 / 10000)) / 2 =
      -(10750 / 20000 * (Real.pi / 180)) := by
    unfold qDegreesToRadians; ring
  rw [hdlat, hdlon]
  have hu0 : (189214 / 10000000 : ℝ) ≤ 21683 / 20000 * (Real.pi / 180) := by
    norm_num at hpl ⊢; linarith
  have hu1 : 21683 / 20000 * (Real.pi / 180) ≤ (189221 / 10000000 : ℝ) := by
    norm_num at hph ⊢; linarith
  have hv0 : (93808 / 10000000 : ℝ) ≤ 10750 / 20000 * (Real.pi / 180) := by
    norm_num at hpl ⊢; linarith
  have hv1 : 10750 / 20000 * (Real.pi / 180) ≤ (93812 / 10000000 : ℝ) := by
    norm_num at hph ⊢; linarith
  have hp0 : (9115 / 10000 : ℝ) ≤ qDegreesToRadians (522297 / 10000) := by
    unfold qDegreesToRadians; norm_num at hpl ⊢; linarith
  have hp1 : qDegreesToRadians (522297 / 10000) ≤ (9116 / 10000 : ℝ) := by
    unfold qDegreesToRadians; norm_num at hph ⊢; linarith
  have hq0 : (8737 / 10000 : ℝ) ≤ qDegreesToRadians (500614 / 10000) := by
    unfold qDegreesToRadians; norm_num at hpl ⊢; linarith
  have hq1 : qDegreesToRadians (500614 / 10000) ≤ (8738 / 10000 : ℝ) := by
    unfold qDegreesToRadians; norm_num at hph ⊢; linarith
  obtain ⟨su0, su1⟩ := sin_sq_bounds (21683 / 20000 * (Real.pi / 180)) (189214 / 10000000)
    (189221 / 10000000) (18919 / 1000000) (by norm_num) (by norm_num) hu0 hu1 (by norm_num)
    (by norm_num)
  obtain ⟨sv0, sv1⟩ := sin_sq_bounds (10750 / 20000 * (Real.pi / 180)) (93808 / 10000000)
    (93812 / 10000000) (938 / 100000) (by norm_num) (by norm_num) hv0 hv1 (by norm_num)
    (by norm_num)
  obtain ⟨cp0, cp1⟩ := cos_bounds (qDegreesToRadians (522297 / 10000)) (9115 / 10000)
    (9116 / 10000) (548 / 1000) (621 / 1000) (by norm_num) hp0 hp1 (by norm_num)
    (by norm_num) (by norm_num)
  obtain ⟨cq0, cq1⟩ := cos_bounds (qDegreesToRadians (500614 / 10000)) (8737 / 10000)
    (8738 / 10000) (587 / 1000) (649 / 1000) (by norm_num) hq0 hq1 (by norm_num)
    (by norm_num) (by norm_num)
  generalize Real.sin (-(21683 / 20000 * (Real.pi / 180))) *
    Real.sin (-(21683 / 20000 * (Real.pi / 180))) = A at su0 su1 ⊢
  have hmul : Real.cos (qDegreesToRadians (522297 / 10000)) *
        Real.cos (qDegreesToRadians (500614 / 10000)) *
        Real.sin (-(10750 / 20000 * (Real.pi / 180))) *
        Real.sin (-(10750 / 20000 * (Real.pi / 180))) =
      (Real.cos (qDegreesToRadians (522297 / 10000)) *
        Real.cos (qDegreesToRadians (500614 / 10000))) *
      (Real.sin (-(10750 / 20000 * (Real.pi / 180))) *
        Real.sin (-(10750 / 20000 * (Real.pi / 180)))) := by ring
  rw [hmul]
  generalize Real.sin (-(10750 / 20000 * (Real.pi / 180))) *
    Real.sin (-(10750 / 20000 * (Real.pi / 180))) = B at sv0 sv1 ⊢
  generalize Real.cos (qDegreesToRadians (522297 / 10000)) = P at cp0 cp1 ⊢
  generalize Real.cos (qDegreesToRadians (500614 / 10000)) = Q at cq0 cq1 ⊢
  have hB0 : 0 ≤ B := le_trans (by norm_num) sv0
  have hPQ0 : (548 / 1000 : ℝ) * (587 / 1000) ≤ P * Q :=
    mul_le_mul cp0 cq0 (by norm_num) (le_trans (by norm_num) cp0)
  have hPQ1 : P * Q ≤ (621 / 1000 : ℝ) * (649 / 1000) :=
    mul_le_mul cp1 cq1 (le_trans (by norm_num) cq0) (by norm_num)
  have hlow : (548 / 1000 : ℝ) * (587 / 1000) * (938 / 100000) ^ 2 ≤ P * Q * B :=
    mul_le_mul hPQ0 sv0 (by norm_num) (le_trans (by norm_num) hPQ0)
  have hup : P * Q * B ≤ (621 / 1000 : ℝ) * (649 / 1000) * (93812 / 10000000) ^ 2 :=
    mul_le_mul hPQ1 sv1 hB0 (by norm_num)
  constructor
  · norm_num at su0 hlow ⊢; linarith
  · norm_num at su1 hup ⊢; linarith

/-- Bounds of `2 * qAtan2 (√a) (√(1 - a))` from bounds of `a`. -/
theorem central_angle_bounds (a : ℝ) (h0 : (386 / 1000000 : ℝ) ≤ a)
    (h1 : a ≤ (394 / 1000000 : ℝ)) :
    (250 / 6371 : ℝ) ≤ 2 * qAtan2 (Real.sqrt a) (Real.sqrt (1 - a)) ∧
      2 * qAtan2 (Real.sqrt a) (Real.sqrt (1 - a)) ≤ (254 / 6371 : ℝ) := by
  have hr0 : (9998 / 10000 : ℝ) ≤ Real.sqrt (1 - a) :=
    Real.le_sqrt_of_sq_le (by norm_num; linarith)
  have hr1 : Real.sqrt (1 - a) ≤ 1 := by
    rw [Real.sqrt_le_left (by norm_num)]
    norm_num; linarith
  have hrpos : 0 < Real.sqrt (1 - a) := lt_of_lt_of_le (by norm_num) hr0
  have hs0 : (19646 / 1000000 : ℝ) ≤ Real.sqrt a :=
    Real.le_sqrt_of_sq_le (by norm_num; linarith)
  have hs1 : Real.sqrt a ≤ (1985 / 100000 : ℝ) := by
    rw [Real.sqrt_le_left (by norm_num)]
    norm_num; linarith
  have hspos : 0 ≤ Real.sqrt a := Real.sqrt_nonneg a
  have hx0 : (19646 / 1000000 : ℝ) ≤ Real.sqrt a / Real.sqrt (1 - a) := by
    rw [le_div_iff₀ hrpos]
    calc (19646 / 1000000 : ℝ) * Real.sqrt (1 - a) ≤ (19646 / 1000000 : ℝ) * 1 :=
          mul_le_mul_of_nonneg_left hr1 (by norm_num)
      _ ≤ Real.sqrt a := by linarith
  have hx1 : Real.sqrt a / Real.sqrt (1 - a) ≤ (1985 / 100000 : ℝ) / (9998 / 10000) :=
    div_le_div₀ (by norm_num) hs1 (by norm_num) hr0
  have hxnn : 0 ≤ Real.sqrt a / Real.sqrt (1 - a) := le_trans (by norm_num) hx0
  have hup := arctan_le_self_of_nonneg _ hxnn
  have hlow := le_arctan_of_nonneg (19646 / 1000000 : ℝ) (by norm_num)
  have hmono : Real.arctan (19646 / 1000000 : ℝ) ≤
      Real.arctan (Real.sqrt a / Real.sqrt (1 - a)) :=
    Real.arctan_strictMono.monotone hx0
  rw [qAtan2, if_pos hrpos]
  constructor
  · norm_num at hlow ⊢; linarith
  · norm_num at hx1 ⊢; linarith

/-- The value of `distanceTo` between the two points lies between 250 and 254. -/
theorem distanceToReal_bounds :
    250 ≤ distanceToReal (522297 / 10000) (210122 / 10000) (500614 / 10000) (199372 / 10000) ∧
    distanceToReal (522297 / 10000) (210122 / 10000) (500614 / 10000) (199372 / 10000) ≤
      254 := by
  obtain ⟨h0, h1⟩ := haversine_a_bounds
  obtain ⟨c0, c1⟩ := central_angle_bounds _ h0 h1
  simp only [distanceToReal]
  constructor
  · linarith
  · linarith

/-- The quantity `a` of `distanceTo` lies between 0 and 1, for all angles. -/
theorem haversine_a_range (lat1 lat2 dlon : ℝ) :
    0 ≤ Real.sin ((lat2 - lat1) / 2) * Real.sin ((lat2 - lat1) / 2) +
        Real.cos lat1 * Real.cos lat2 * Real.sin (dlon / 2) * Real.sin (dlon / 2) ∧
      Real.sin ((lat2 - lat1) / 2) * Real.sin ((lat2 - lat1) / 2) +
        Real.cos lat1 * Real.cos lat2 * Real.sin (dlon / 2) * Real.sin (dlon / 2) ≤ 1 := by
  have e1 := Real.sin_sq_add_cos_sq (lat1 / 2)
  have e2 := Real.sin_sq_add_cos_sq (lat2 / 2)
  have hc1 : Real.cos lat1 = 2 * Real.cos (lat1 / 2) ^ 2 - 1 := by
    rw [← Real.cos_two_mul]; congr 1; ring
  have hc2 : Real.cos lat2 = 2 * Real.cos (lat2 / 2) ^ 2 - 1 := by
    rw [← Real.cos_two_mul]; congr 1; ring
  have hs : Real.sin ((lat2 - lat1) / 2) =
      Real.sin (lat2 / 2) * Real.cos (lat1 / 2) - Real.cos (lat2 / 2) * Real.sin (lat1 / 2) := by
    rw [← Real.sin_sub]; congr 1; ring
  have hsum : Real.cos ((lat1 + lat2) / 2) =
      Real.cos (lat1 / 2) * Real.cos (lat2 / 2) - Real.sin (lat1 / 2) * Real.sin (lat2 / 2) := by
    rw [← Real.cos_add]; congr 1; ring
  have key : Real.sin ((lat2 - lat1) / 2) * Real.sin ((lat2 - lat1) / 2) +
      Real.cos lat1 * Real.cos lat2 = Real.cos ((lat1 + lat2) / 2) ^ 2 := by
    rw [hs, hc1, hc2, hsum]
    linear_combination (Real.cos (lat2 / 2) ^ 2 - Real.sin (lat2 / 2) ^ 2) * e1 +
      (2 * Real.cos (lat1 / 2) ^ 2 - 1) * e2
  have hw0 : 0 ≤ Real.sin (dlon / 2) * Real.sin (dlon / 2) := mul_self_nonneg _
  have hw1 : Real.sin (dlon / 2) * Real.sin (dlon / 2) ≤ 1 := by
    have := Real.sin_sq_le_one (dlon / 2); nlinarith
  have hs0 : 0 ≤ Real.sin ((lat2 - lat1) / 2) * Real.sin ((lat2 - lat1) / 2) :=
    mul_self_nonneg _
  have hs1 : Real.sin ((lat2 - lat1) / 2) * Real.sin ((lat2 - lat1) / 2) ≤ 1 := by
    have := Real.sin_sq_le_one ((lat2 - lat1) / 2); nlinarith
  have hk0 : 0 ≤ Real.cos ((lat1 + lat2) / 2) ^ 2 := sq_nonneg _
  have hk1 := Real.cos_sq_le_one ((lat1 + lat2) / 2)
  generalize Real.sin ((lat2 - lat1) / 2) * Real.sin ((lat2 - lat1) / 2) = S at *
  have hmul : Real.cos lat1 * Real.cos lat2 * Real.sin (dlon / 2) * Real.sin (dlon / 2) =
      (Real.cos lat1 * Real.cos lat2) * (Real.sin (dlon / 2) * Real.sin (dlon / 2)) := by ring
  rw [hmul]
  generalize Real.sin (dlon / 2) * Real.sin (dlon / 2) = W at *
  generalize Real.cos lat1 * Real.cos lat2 = C at *
  generalize Real.cos ((lat1 + lat2) / 2) ^ 2 = K at *
  constructor
  · nlinarith [mul_nonneg hs0 (sub_nonneg.mpr hw1), mul_nonneg hk0 hw0]
  · nlinarith [mul_nonneg (sub_nonneg.mpr hs1) (sub_nonneg.mpr hw1),
      mul_nonneg (sub_nonneg.mpr hk1) hw0]

/-- For `a` between 0 and 1 the angle `qAtan2 (√a) (√(1 - a))` is the arc sine of
`√a`. -/
theorem qAtan2_sqrt (a : ℝ) (h0 : 0 ≤ a) (h1 : a ≤ 1) :
    qAtan2 (Real.sqrt a) (Real.sqrt (1 - a)) = Real.arcsin (Real.sqrt a) := by
  rcases eq_or_lt_of_le h1 with h | h
  · subst h
    simp [qAtan2, Real.arcsin_one]
  · have hpos : 0 < Real.sqrt (1 - a) := Real.sqrt_pos.mpr (by linarith)
    have hlt : Real.sqrt a < 1 := by
      rw [Real.sqrt_lt' (by norm_num)]; simpa using h
    have hmem : Real.sqrt a ∈ Set.Ioo (-(1 : ℝ)) 1 :=
      ⟨lt_of_lt_of_le (by norm_num) (Real.sqrt_nonneg a), hlt⟩
    rw [qAtan2, if_pos hpos, Real.arcsin_eq_arctan hmem, Real.sq_sqrt h0]

/-- The value of `distanceToReal` is the haversine distance on a sphere of radius
6371: twice the radius times the arc sine of the square root of
`hav (lat2 - lat1) + cos lat1 * cos lat2 * hav (lon2 - lon1)`, where
`hav x = sin (x / 2) ^ 2`. -/
theorem distanceToReal_eq (la1 lo1 la2 lo2 : ℝ) :
    distanceToReal la1 lo1 la2 lo2 =
      6371 * (2 * Real.arcsin (Real.sqrt
        (Real.sin ((la2 * (Real.pi / 180) - la1 * (Real.pi / 180)) / 2) ^ 2 +
          Real.cos (la1 * (Real.pi / 180)) * Real.cos (la2 * (Real.pi / 180)) *
            Real.sin ((lo2 * (Real.pi / 180) - lo1 * (Real.pi / 180)) / 2) ^ 2))) := by
  have hr := haversine_a_range (la1 * (Real.pi / 180)) (la2 * (Real.pi / 180))
    (lo2 * (Real.pi / 180) - lo1 * (Real.pi / 180))
  have hq := qAtan2_sqrt _ hr.1 hr.2
  have ha : Real.sin ((la2 * (Real.pi / 180) - la1 * (Real.pi / 180)) / 2) ^ 2 +
        Real.cos (la1 * (Real.pi / 180)) * Real.cos (la2 * (Real.pi / 180)) *
          Real.sin ((lo2 * (Real.pi / 180) - lo1 * (Real.pi / 180)) / 2) ^ 2 =
      Real.sin ((la2 * (Real.pi / 180) - la1 * (Real.pi / 180)) / 2) *
          Real.sin ((la2 * (Real.pi / 180) - la1 * (Real.pi / 180)) / 2) +
        Real.cos (la1 * (Real.pi / 180)) * Real.cos (la2 * (Real.pi / 180)) *
          Real.sin ((lo2 * (Real.pi / 180) - lo1 * (Real.pi / 180)) / 2) *
          Real.sin ((lo2 * (Real.pi / 180) - lo1 * (Real.pi / 180)) / 2) := by ring
  rw [ha, ← hq]
  simp only [distanceToReal, qDegreesToRadians]

/-- C27: `distanceTo` of a station with finite coordinates, to a point with finite
coordinates, is (over the real numbers) the haversine great-circle distance on a
sphere of radius 6371 km; for a station at (52.2297, 21.0122) the distance to
(50.0614, 19.9372) lies between 250 and 254 km. -/
theorem distanceTo_spec (s : Station) (la1 lo1 la2 lo2 : ℚ) :
    distanceTo ((s.setLatitude (Dbl.fin la1)).setLongitude (Dbl.fin lo1))
        (Dbl.fin la2) (Dbl.fin lo2) =
      some (6371 * (2 * Real.arcsin (Real.sqrt
        (Real.sin (((la2 : ℝ) * (Real.pi / 180) - (la1 : ℝ) * (Real.pi / 180)) / 2) ^ 2 +
          Real.cos ((la1 : ℝ) * (Real.pi / 180)) * Real.cos ((la2 : ℝ) * (Real.pi / 180)) *
            Real.sin (((lo2 : ℝ) * (Real.pi / 180) - (lo1 : ℝ) * (Real.pi / 180)) / 2) ^ 2)))) ∧
    ∃ d : ℝ,
      distanceTo
          ((s.setLatitude (Dbl.fin (522297 / 10000))).setLongitude (Dbl.fin (210122 / 10000)))
          (Dbl.fin (500614 / 10000)) (Dbl.fin (199372 / 10000)) = some d ∧
        250 ≤ d ∧ d ≤ 254 := by
  refine ⟨?_, distanceToReal (522297 / 10000) (210122 / 10000) (500614 / 10000)
    (199372 / 10000), ?_, distanceToReal_bounds.1, distanceToReal_bounds.2⟩
  · simp only [distanceTo, setLatitude, setLongitude]
    rw [distanceToReal_eq]
  · simp only [distanceTo, setLatitude, setLongitude]
    push_cast
    rfl

end Station

/-! ## AirQualityIndex -/

namespace AirQualityIndex

/-- C16: an `AirQualityIndex` is constructed of every JSON object; its station
id is the integer of the field `id`, its calculation date the date parsed from
the field `stCalcDate`, and `isValid()` is true exactly when that id is greater
than 0 and that date is valid. -/
theorem isValid_iff (qt : QtLib) (json : QJsonObject) :
    (fromJson qt json).m_stationId = (json.value "id").toInt ∧
    (fromJson qt json).m_calcDate = qt.fromStringISO (json.value "stCalcDate").toString ∧
    ((fromJson qt json).isValid = true ↔
      0 < (json.value "id").toInt ∧
      QDateTime.isValid (qt.fromStringISO (json.value "stCalcDate").toString) = true) := by
  refine ⟨rfl, rfl, ?_⟩
  simp [isValid, fromJson]

end AirQualityIndex

/-! ## DatabaseManager -/

namespace DatabaseManager

theorem insertOrReplace_filter_eq (table : List StationRow) (row : StationRow) :
    (insertOrReplace table row).filter (fun r => decide (r.id = row.id)) = [row] := by
  simp only [insertOrReplace, List.filter_append, List.filter_filter]
  have h : table.filter (fun r => decide (r.id = row.id) && decide (r.id ≠ row.id)) = [] := by
    apply List.filter_eq_nil_iff.mpr
    intro r _
    by_cases hr : r.id = row.id <;> simp [hr]
  simp [h]

theorem insertOrReplace_filter_ne (table : List StationRow) (row : StationRow) :
    (insertOrReplace table row).filter (fun r => decide (r.id ≠ row.id)) =
      table.filter (fun r => decide (r.id ≠ row.id)) := by
  simp [insertOrReplace, List.filter_append, List.filter_filter]

/-- C17: `saveStation(s1)` followed by `saveStation(s2)`, for two stations of the
same id, leaves exactly one row with that id, the row of the values of `s2`; the
rows with another id are the ones stored before, unchanged. -/
theorem saveStation_upsert (table : List StationRow) (s1 s2 : Station)
    (h : s1.id = s2.id) :
    (saveStation (saveStation table s1) s2).filter (fun r => decide (r.id = s2.id)) =
      [boundRow s2] ∧
    (saveStation (saveStation table s1) s2).filter (fun r => decide (r.id ≠ s2.id)) =
      table.filter (fun r => decide (r.id ≠ s2.id)) := by
  have hb1 : (boundRow s1).id = s2.id := h
  have hb2 : (boundRow s2).id = s2.id := rfl
  constructor
  · simp only [saveStation]
    have := insertOrReplace_filter_eq
      (insertOrReplace (insertOrReplace (insertOrReplace table (boundRow s1)) (boundRow s1))
        (boundRow s2)) (boundRow s2)
    rw [hb2] at this
    exact this
  · simp only [saveStation]
    have e2 := fun t => insertOrReplace_filter_ne t (boundRow s2)
    have e1 := fun t => insertOrReplace_filter_ne t (boundRow s1)
    rw [hb2] at e2
    rw [hb1] at e1
    rw [e2, e2, e1, e1]

/-- A witness of C17: the sample stations of the names A and B, both of id 1, on
the empty table. -/
theorem saveStation_upsert_witness :
    (Station.fromJson QtLib.sample (sampleStationDoc "A")).id =
      (Station.fromJson QtLib.sample (sampleStationDoc "B")).id ∧
    (saveStation (saveStation [] (Station.fromJson QtLib.sample (sampleStationDoc "A")))
      (Station.fromJson QtLib.sample (sampleStationDoc "B"))).filter
        (fun r => decide (r.id = (Station.fromJson QtLib.sample (sampleStationDoc "B")).id)) =
      [boundRow (Station.fromJson QtLib.sample (sampleStationDoc "B"))] :=
  ⟨by rw [Station.sample_id, Station.sample_id],
    (saveStation_upsert [] _ _ (by rw [Station.sample_id, Station.sample_id])).1⟩


theorem saveStation_nil (s : Station) : saveStation [] s = [boundRow s] := by
  simp [saveStation, insertOrReplace]

theorem rowJson_gegrLat (qt : QtLib) (row : StationRow) :
    (rowJson qt row).value "gegrLat" = QJsonValue.string (qt.number row.latitude) := by
  simp [rowJson, QJsonObject.insert, QJsonObject.contains, QJsonObject.value, List.lookup]

/-- The latitude that `loadStations` returns for a row is the number parsed from
the six significant digits of `QString::number`. -/
theorem loadStations_latitude (qt : QtLib) (table : List StationRow) :
    (loadStations qt table).map Station.latitude =
      table.map (fun row => qt.stringToDouble (qt.number row.latitude)) := by
  simp only [loadStations, List.map_map]
  apply List.map_congr_left
  intro row _
  simp only [Function.comp, Station.latitude, Station.fromJson, rowJson_gegrLat,
    QJsonValue.toString]

/-- What `loadStations` returns for a stored row: the texts and the integers of
the row (an id in the range of `int`), and the coordinates parsed from the six
significant digits of `QString::number`. -/
theorem fromJson_rowJson (qt : QtLib) (row : StationRow)
    (hid : -2147483648 ≤ row.id ∧ row.id ≤ 2147483647)
    (hcity : -2147483648 ≤ row.city_id ∧ row.city_id ≤ 2147483647) :
    Station.fromJson qt (rowJson qt row) =
      { m_id := row.id, m_name := row.name,
        m_latitude := qt.stringToDouble (qt.number row.latitude),
        m_longitude := qt.stringToDouble (qt.number row.longitude),
        m_address :=
          { cityId := row.city_id, cityName := row.city_name,
            communeName := row.commune_name, districtName := row.district_name,
            provinceName := row.province_name, streetName := row.street_name },
        m_addressStreet := "", m_cityName := "" } := by
  simp [Station.fromJson, rowJson, QJsonObject.insert, QJsonObject.contains,
    QJsonObject.value, List.lookup, QJsonValue.toString, QJsonValue.toObject,
    QJsonValue.toInt, Dbl.ofInt, hid.1, hid.2, hcity.1, hcity.2]

/-- C18: the station parsed from the sample document has the latitude
50.972167; `loadStations` after `saveStation` on the empty table rebuilds the
document with `QString::number(latitude)`, which keeps six significant digits,
and returns a station of latitude 50.9722. -/
theorem loadStations_latitude_eval (qt : QtLib)
    (h1 : qt.toDouble "50.972167" = some (Dbl.fin (50972167 / 1000000)))
    (h2 : qt.number (Dbl.fin (50972167 / 1000000)) = "50.9722")
    (h3 : qt.toDouble "50.9722" = some (Dbl.fin (509722 / 10000))) :
    (Station.fromJson qt (sampleStationDoc "A")).latitude = Dbl.fin (50972167 / 1000000) ∧
    (loadStations qt (saveStation [] (Station.fromJson qt (sampleStationDoc "A")))).map
      Station.latitude = [Dbl.fin (509722 / 10000)] := by
  have hlat : (Station.fromJson qt (sampleStationDoc "A")).latitude =
      Dbl.fin (50972167 / 1000000) := by
    simp [Station.fromJson, Station.latitude, sampleStationDoc, QJsonObject.value, List.lookup,
      QJsonValue.toString, QtLib.stringToDouble, h1]
  refine ⟨hlat, ?_⟩
  rw [saveStation_nil, loadStations_latitude]
  simp only [List.map_cons, List.map_nil, boundRow, hlat, h2, QtLib.stringToDouble, h3,
    Option.getD_some]

/-- A witness of C18: the sample table of Qt results. -/
theorem loadStations_latitude_eval_witness :
    QtLib.sample.toDouble "50.972167" = some (Dbl.fin (50972167 / 1000000)) ∧
    QtLib.sample.number (Dbl.fin (50972167 / 1000000)) = "50.9722" ∧
    QtLib.sample.toDouble "50.9722" = some (Dbl.fin (509722 / 10000)) ∧
    (loadStations QtLib.sample
      (saveStation [] (Station.fromJson QtLib.sample (sampleStationDoc "A")))).map
      Station.latitude = [Dbl.fin (509722 / 10000)] :=
  ⟨by simp [QtLib.sample], by simp [QtLib.sample], by simp [QtLib.sample],
    (loadStations_latitude_eval QtLib.sample (by simp [QtLib.sample]) (by simp [QtLib.sample])
      (by simp [QtLib.sample])).2⟩

end DatabaseManager

/-! ## JsonBaseManager -/

theorem QJsonObject.lookup_append_of_none (json l : QJsonObject) (key : String)
    (h : json.lookup key = none) : (json ++ l).lookup key = l.lookup key := by
  induction json with
  | nil => rfl
  | cons kv rest ih =>
    obtain ⟨k, w⟩ := kv
    simp only [List.lookup] at h
    simp only [List.cons_append, List.lookup]
    cases hk : key == k
    · rw [hk] at h; exact ih h
    · rw [hk] at h; simp at h

theorem QJsonObject.lookup_map_replace (json : QJsonObject) (key : String) (v : QJsonValue)
    (h : (json.lookup key).isSome = true) :
    (json.map (fun kv => if kv.1 = key then (key, v) else kv)).lookup key = some v := by
  induction json with
  | nil => simp at h
  | cons kv rest ih =>
    obtain ⟨k, w⟩ := kv
    simp only [List.lookup] at h
    by_cases hk : k = key
    · rw [List.map_cons, if_pos hk]
      simp only [List.lookup, beq_self_eq_true]
    · have hk2 : (key == k) = false := by simp [Ne.symm hk]
      rw [hk2] at h
      rw [List.map_cons, if_neg hk]
      simp only [List.lookup, hk2]
      exact ih h

theorem QJsonObject.value_insert_self (json : QJsonObject) (key : String) (v : QJsonValue) :
    (json.insert key v).value key = v := by
  unfold QJsonObject.insert QJsonObject.value
  by_cases hc : json.contains key = true
  · simp only [hc, if_true]
    rw [QJsonObject.lookup_map_replace json key v hc]; rfl
  · simp only [hc]
    have hn : json.lookup key = none := by
      unfold QJsonObject.contains at hc
      cases hl : json.lookup key with
      | none => rfl
      | some w => rw [hl] at hc; simp at hc
    rw [if_neg (by simp), QJsonObject.lookup_append_of_none json _ key hn]
    simp [List.lookup]

namespace JsonBaseManager

theorem stationObj_id (qt : QtLib) (station : Station)
    (hr : -2147483648 ≤ station.id ∧ station.id ≤ 2147483647) :
    ((stationObj qt station).value "id").toInt = station.id := by
  have hv : (stationObj qt station).value "id" = QJsonValue.double (Dbl.ofInt station.id) := by
    simp [stationObj, QJsonObject.insert, QJsonObject.contains, QJsonObject.value, List.lookup]
  rw [hv]
  simp [QJsonValue.toInt, Dbl.ofInt, hr.1, hr.2]

/-- The station that `loadStations` makes of an entry written by `saveStation`:
`setCityName` stores the city in `m_cityName`, and `m_address`, which
`cityName()` reads, stays as the default constructor left it. -/
theorem loadStation_stationObj (qt : QtLib) (station0 station : Station) :
    (loadStation qt station0 (QJsonValue.object (stationObj qt station))).name = station.name ∧
    (loadStation qt station0 (QJsonValue.object (stationObj qt station))).latitude =
      qt.stringToDouble (qt.numberF6 station.latitude) ∧
    (loadStation qt station0 (QJsonValue.object (stationObj qt station))).longitude =
      qt.stringToDouble (qt.numberF6 station.longitude) ∧
    (loadStation qt station0 (QJsonValue.object (stationObj qt station))).addressStreet =
      station.addressStreet ∧
    (loadStation qt station0 (QJsonValue.object (stationObj qt station))).m_cityName =
      station.cityName ∧
    (loadStation qt station0 (QJsonValue.object (stationObj qt station))).cityName =
      station0.cityName := by
  simp [loadStation, stationObj, QJsonObject.insert, QJsonObject.contains, QJsonObject.value,
    List.lookup, QJsonValue.toObject, QJsonValue.toString, Station.setId, Station.setName,
    Station.setLatitude, Station.setLongitude, Station.setAddressStreet, Station.setCityName,
    Station.name, Station.latitude, Station.longitude, Station.addressStreet, Station.cityName]

theorem loadStation_stationObj_id (qt : QtLib) (station0 station : Station)
    (hr : -2147483648 ≤ station.id ∧ station.id ≤ 2147483647) :
    (loadStation qt station0 (QJsonValue.object (stationObj qt station))).id = station.id := by
  have h := stationObj_id qt station hr
  simp only [loadStation, QJsonValue.toObject]
  split_ifs <;>
    simp [Station.setId, Station.setName, Station.setLatitude, Station.setLongitude,
      Station.setAddressStreet, Station.setCityName, Station.id, h]

theorem saveStation_of_found (qt : QtLib) (root : QJsonObject) (station : Station)
    (h : (root.value "stations").toArray.any
      (fun item => (item.toObject.value "id").toInt == station.id) = true) :
    saveStation qt root station = root := by
  simp only [saveStation, h]; rfl

theorem saveStation_of_not_found (qt : QtLib) (root : QJsonObject) (station : Station)
    (h : (root.value "stations").toArray.any
      (fun item => (item.toObject.value "id").toInt == station.id) = false) :
    saveStation qt root station =
      root.insert "stations" (QJsonValue.array
        ((root.value "stations").toArray ++ [QJsonValue.object (stationObj qt station)])) := by
  simp only [saveStation, h]; rfl

theorem saveStation_stations (qt : QtLib) (root : QJsonObject) (station : Station)
    (h : (root.value "stations").toArray.any
      (fun item => (item.toObject.value "id").toInt == station.id) = false) :
    ((saveStation qt root station).value "stations").toArray =
      (root.value "stations").toArray ++ [QJsonValue.object (stationObj qt station)] := by
  rw [saveStation_of_not_found qt root station h, QJsonObject.value_insert_self]
  rfl

theorem saveStation_found_after (qt : QtLib) (root : QJsonObject) (s1 s2 : Station)
    (hid : s1.id = s2.id) (hr : -2147483648 ≤ s1.id ∧ s1.id ≤ 2147483647) :
    ((saveStation qt root s1).value "stations").toArray.any
      (fun item => (item.toObject.value "id").toInt == s2.id) = true := by
  cases h : (root.value "stations").toArray.any
      (fun item => (item.toObject.value "id").toInt == s1.id)
  · rw [saveStation_stations qt root s1 h]
    simp [List.any_append, QJsonValue.toObject, stationObj_id qt s1 hr, hid]
  · rw [saveStation_of_found qt root s1 h, ← hid]; exact h

theorem saveStation_twice (qt : QtLib) (root : QJsonObject) (s1 s2 : Station)
    (hid : s1.id = s2.id) (hr : -2147483648 ≤ s1.id ∧ s1.id ≤ 2147483647) :
    saveStation qt (saveStation qt root s1) s2 = saveStation qt root s1 :=
  saveStation_of_found qt _ s2 (saveStation_found_after qt root s1 s2 hid hr)


theorem initialRoot_stations : (initialRoot.value "stations").toArray = [] := by
  simp [initialRoot, QJsonObject.insert, QJsonObject.contains, QJsonObject.value, List.lookup,
    QJsonValue.toArray]

/-- C19 (as amended): `saveStation` only inserts. A second `saveStation` with the
id of the first changes nothing; when an entry of the id is stored already the
first call changes nothing either, and otherwise it appends the entry of `s1`,
which is then the one entry of that id. The stored entry holds the values of the
first station saved, not of `s2`. -/
theorem saveStation_insert_once (qt : QtLib) (root : QJsonObject) (s1 s2 : Station)
    (hid : s1.id = s2.id) (hr : -2147483648 ≤ s1.id ∧ s1.id ≤ 2147483647) :
    saveStation qt (saveStation qt root s1) s2 = saveStation qt root s1 ∧
    ((root.value "stations").toArray.any
        (fun item => (item.toObject.value "id").toInt == s1.id) = true →
      saveStation qt root s1 = root) ∧
    ((root.value "stations").toArray.any
        (fun item => (item.toObject.value "id").toInt == s1.id) = false →
      ((saveStation qt root s1).value "stations").toArray =
        (root.value "stations").toArray ++ [QJsonValue.object (stationObj qt s1)] ∧
      ((saveStation qt root s1).value "stations").toArray.countP
        (fun item => (item.toObject.value "id").toInt == s1.id) = 1) := by
  refine ⟨saveStation_twice qt root s1 s2 hid hr, saveStation_of_found qt root s1, ?_⟩
  intro h
  refine ⟨saveStation_stations qt root s1 h, ?_⟩
  rw [saveStation_stations qt root s1 h, List.countP_append]
  have h0 : (root.value "stations").toArray.countP
      (fun item => (item.toObject.value "id").toInt == s1.id) = 0 := by
    rw [List.countP_eq_zero]
    intro item hitem hm
    have hany : (root.value "stations").toArray.any
        (fun item => (item.toObject.value "id").toInt == s1.id) = true :=
      List.any_eq_true.mpr ⟨item, hitem, hm⟩
    rw [h] at hany; exact absurd hany (by simp)
  rw [h0]
  simp [QJsonValue.toObject, stationObj_id qt s1 hr]

/-- A witness of C19 (as amended): the sample stations of the names A and B, both
of id 1, on the root object of a new file. -/
theorem saveStation_insert_once_witness :
    (Station.fromJson QtLib.sample (sampleStationDoc "A")).id =
      (Station.fromJson QtLib.sample (sampleStationDoc "B")).id ∧
    saveStation QtLib.sample
        (saveStation QtLib.sample initialRoot (Station.fromJson QtLib.sample (sampleStationDoc "A")))
        (Station.fromJson QtLib.sample (sampleStationDoc "B")) =
      saveStation QtLib.sample initialRoot (Station.fromJson QtLib.sample (sampleStationDoc "A")) :=
  ⟨by rw [Station.sample_id, Station.sample_id],
    (saveStation_insert_once QtLib.sample initialRoot _ _ (by rw [Station.sample_id, Station.sample_id])
      (by rw [Station.sample_id]; decide)).1⟩

/-- C19 (the claim as stated fails): after `saveStation` of the sample station
named A and then of the sample station named B, both of id 1, on the root object
of a new file, the station loaded has the name A, not the name B of the second. -/
theorem saveStation_upsert_counterexample :
    (loadStations QtLib.sample 0 0 (Dbl.fin 0) (Dbl.fin 0)
      (saveStation QtLib.sample
        (saveStation QtLib.sample initialRoot (Station.fromJson QtLib.sample (sampleStationDoc "A")))
        (Station.fromJson QtLib.sample (sampleStationDoc "B")))).map Station.name ≠
      [(Station.fromJson QtLib.sample (sampleStationDoc "B")).name] := by
  have hnf : (initialRoot.value "stations").toArray.any
      (fun item => (item.toObject.value "id").toInt ==
        (Station.fromJson QtLib.sample (sampleStationDoc "A")).id) = false := by
    rw [initialRoot_stations]; rfl
  rw [saveStation_twice QtLib.sample initialRoot _ _ (by rw [Station.sample_id, Station.sample_id])
    (by rw [Station.sample_id]; decide)]
  simp only [loadStations, saveStation_stations QtLib.sample initialRoot _ hnf,
    initialRoot_stations, List.nil_append, List.map_cons, List.map_nil,
    (loadStation_stationObj QtLib.sample _ _).1, Station.sample_name]
  decide

/-- C20: the sample station, parsed from a document with the city Warszawa, is
saved to the root object of a new file and loaded again: the city is read back
into `m_cityName`, but `cityName()` of the loaded station is the empty string of
the default-constructed `m_address`, not Warszawa. -/
theorem loadStations_cityName_eval (qt : QtLib) (id0 cityId0 : Int) (lat0 lon0 : Dbl) :
    (Station.fromJson qt (sampleStationDoc "A")).cityName = "Warszawa" ∧
    (loadStations qt id0 cityId0 lat0 lon0
      (saveStation qt initialRoot (Station.fromJson qt (sampleStationDoc "A")))).map
        Station.cityName = [""] ∧
    (loadStations qt id0 cityId0 lat0 lon0
      (saveStation qt initialRoot (Station.fromJson qt (sampleStationDoc "A")))).map
        (fun s => s.m_cityName) = ["Warszawa"] := by
  have hnf : (initialRoot.value "stations").toArray.any
      (fun item => (item.toObject.value "id").toInt ==
        (Station.fromJson qt (sampleStationDoc "A")).id) = false := by
    rw [initialRoot_stations]; rfl
  refine ⟨Station.sample_cityName qt "A", ?_, ?_⟩
  · simp only [loadStations, saveStation_stations qt initialRoot _ hnf,
      initialRoot_stations, List.nil_append, List.map_cons, List.map_nil,
      (loadStation_stationObj qt _ _).2.2.2.2.2]
    rfl
  · simp only [loadStations, saveStation_stations qt initialRoot _ hnf,
      initialRoot_stations, List.nil_append, List.map_cons, List.map_nil,
      (loadStation_stationObj qt _ _).2.2.2.2.1, Station.sample_cityName]

end JsonBaseManager

/-! ## Sensor -/

namespace Sensor

/-- C26: for the sensor parsed from
`{"id": 1, "param": {"paramName": "pył", "paramCode": "PM10"}}` the getters
`paramName()` and `paramCode()` return the empty string, while `parameter()`
holds the name and the code of the document. -/
theorem paramName_eval :
    (fromJson [("id", QJsonValue.double (Dbl.fin 1)),
      ("param", QJsonValue.object [("paramName", QJsonValue.string "pył"),
        ("paramCode", QJsonValue.string "PM10")])]).paramName = "" ∧
    (fromJson [("id", QJsonValue.double (Dbl.fin 1)),
      ("param", QJsonValue.object [("paramName", QJsonValue.string "pył"),
        ("paramCode", QJsonValue.string "PM10")])]).paramCode = "" ∧
    (fromJson [("id", QJsonValue.double (Dbl.fin 1)),
      ("param", QJsonValue.object [("paramName", QJsonValue.string "pył"),
        ("paramCode", QJsonValue.string "PM10")])]).parameter.name = "pył" ∧
    (fromJson [("id", QJsonValue.double (Dbl.fin 1)),
      ("param", QJsonValue.object [("paramName", QJsonValue.string "pył"),
        ("paramCode", QJsonValue.string "PM10")])]).parameter.code = "PM10" := by
  simp [fromJson, paramName, paramCode, parameter, QJsonObject.value, List.lookup,
    QJsonValue.toObject, QJsonValue.toString]

/-- The getters `paramName()` and `paramCode()` of a parsed sensor are empty for
every document. -/
theorem paramName_fromJson (json : QJsonObject) :
    (fromJson json).paramName = "" ∧ (fromJson json).paramCode = "" :=
  ⟨rfl, rfl⟩

end Sensor

/-! ## ApiHandler -/

namespace ApiHandler

/-- C25: called by a reply, as the slot is when the signal `errorOccurred` reaches
it, `handleNetworkError` emits `networkError` with the text `connection_error`,
and nothing else, when the code is host-not-found or connection-refused, and
emits nothing for every other code; without a reply as sender it emits nothing. -/
theorem handleNetworkError_emitted (s : State) (reply : Reply) (code : NetworkError) :
    (handleNetworkError s (some reply) code).emitted =
      (if code = HostNotFoundError ∨ code = ConnectionRefusedError
        then s.emitted ++ [Signal.networkError "connection_error"] else s.emitted) ∧
    ((handleNetworkError s (some reply) code).emitted =
        s.emitted ++ [Signal.networkError "connection_error"] ↔
      code = HostNotFoundError ∨ code = ConnectionRefusedError) ∧
    (handleNetworkError s none code).emitted = s.emitted := by
  have key : (handleNetworkError s (some reply) code).emitted =
      (if code = HostNotFoundError ∨ code = ConnectionRefusedError
        then s.emitted ++ [Signal.networkError "connection_error"] else s.emitted) := by
    by_cases h : code = HostNotFoundError ∨ code = ConnectionRefusedError
    · have h2 : ¬ (code ≠ HostNotFoundError ∧ code ≠ ConnectionRefusedError) := by
        rcases h with h | h <;> simp [h]
      simp [handleNetworkError, h, h2]
    · have h2 : code ≠ HostNotFoundError ∧ code ≠ ConnectionRefusedError := by
        push_neg at h; exact h
      simp [handleNetworkError, h, h2]
  refine ⟨key, ?_, rfl⟩
  rw [key]
  by_cases h : code = HostNotFoundError ∨ code = ConnectionRefusedError
  · simp [h]
  · simp [h]

/-- C24: `handleStationsReplyImpl` emits the same signal, `apiError("Błąd danych")`,
for a reply that failed in transport (code host-not-found, empty body that does
not parse), for a reply whose body is not well-formed JSON, and for a reply
whose body is a JSON object; none of the three emits `stationsFetched`. -/
theorem handleStationsReplyImpl_same_event (qt : QtLib) :
    (handleStationsReplyImpl qt State.init
      { error := HostNotFoundError, errorString := "Host not found",
        body := ParsedBody.parseError "illegal value" }).emitted =
      [Signal.apiError "Błąd danych"] ∧
    (handleStationsReplyImpl qt State.init
      { error := NoError, errorString := "",
        body := ParsedBody.parseError "unterminated array" }).emitted =
      [Signal.apiError "Błąd danych"] ∧
    (handleStationsReplyImpl qt State.init
      { error := NoError, errorString := "",
        body := ParsedBody.document (QJsonValue.object []) }).emitted =
      [Signal.apiError "Błąd danych"] := by
  simp [handleStationsReplyImpl, State.init, QJsonValue.isArray]

/-- The slot `handleStationsReply` reports the same three replies with three
different signals. -/
theorem handleStationsReply_distinct_events (qt : QtLib) :
    (handleStationsReply qt State.init (some
      { error := HostNotFoundError, errorString := "Host not found",
        body := ParsedBody.parseError "illegal value" })).emitted =
      [Signal.networkError "Host not found"] ∧
    (handleStationsReply qt State.init (some
      { error := NoError, errorString := "",
        body := ParsedBody.parseError "unterminated array" })).emitted =
      [Signal.apiError "Błąd analizy JSON: unterminated array"] ∧
    (handleStationsReply qt State.init (some
      { error := NoError, errorString := "",
        body := ParsedBody.document (QJsonValue.object []) })).emitted =
      [Signal.apiError "Nieprawidłowy format odpowiedzi: oczekiwana tablica JSON"] := by
  refine ⟨?_, ?_, ?_⟩
  · simp [handleStationsReply, State.init, HostNotFoundError, NoError]
  · simp [handleStationsReply, State.init, NoError]
  · simp [handleStationsReply, State.init, NoError, QJsonValue.isArray]

/-- C28: after `fetchStations` on the handler as constructed and the run of its
task with a reply whose body does not parse, `apiError` has been emitted,
`m_isBusy` is still set and no call that would clear it is queued; a later
`fetchStations` changes nothing, so it is dropped. -/
theorem busy_after_error_eval (qt : QtLib) :
    (runTask qt (fetchStations State.init)
      { error := NoError, errorString := "",
        body := ParsedBody.parseError "unterminated array" }).emitted =
      [Signal.apiError "Błąd danych"] ∧
    (runTask qt (fetchStations State.init)
      { error := NoError, errorString := "",
        body := ParsedBody.parseError "unterminated array" }).m_isBusy = true ∧
    (runTask qt (fetchStations State.init)
      { error := NoError, errorString := "",
        body := ParsedBody.parseError "unterminated array" }).queued = [] ∧
    (runTask qt (fetchStations State.init)
      { error := NoError, errorString := "",
        body := ParsedBody.parseError "unterminated array" }).scheduled = 0 ∧
    fetchStations (runTask qt (fetchStations State.init)
      { error := NoError, errorString := "",
        body := ParsedBody.parseError "unterminated array" }) =
      runTask qt (fetchStations State.init)
        { error := NoError, errorString := "",
          body := ParsedBody.parseError "unterminated array" } := by
  simp [runTask, fetchStations, State.init, handleStationsReplyImpl]

end ApiHandler

/-! ## DatabaseManager::saveMeasurement -/

namespace DatabaseManager

theorem saveLoop_ok (execOk : Nat → Bool) (hok : ∀ i, execOk i = true) (sensorId : Int)
    (l : List DataPoint) (i : Nat) (committed pending : List MeasurementRow) (batchSize : Nat) :
    saveLoop execOk sensorId i l committed pending batchSize =
      { stored := committed ++ pending ++ l.map (measurementRow sensorId), threw := false } := by
  induction l generalizing i committed pending batchSize with
  | nil => simp [saveLoop]
  | cons p ps ih =>
    simp only [saveLoop, insertMeasurement, hok, Bool.not_true, Bool.false_eq_true, if_false]
    split_ifs
    · rw [ih]; simp
    · rw [ih]; simp

/-- When every write succeeds `saveMeasurement` adds one row for each point to
the rows stored before, whatever they are. -/
theorem saveMeasurement_ok (execOk : Nat → Bool) (hok : ∀ i, execOk i = true)
    (stored : List MeasurementRow) (dataPoints : List DataPoint) (sensorId : Int) :
    saveMeasurement execOk stored dataPoints sensorId =
      { stored := stored ++ dataPoints.map (measurementRow sensorId), threw := false } := by
  simp [saveMeasurement, saveLoop_ok execOk hok]

/-- C22: `saveMeasurement` of one point for sensor 1 on the empty table, called
twice with both calls succeeding, leaves two rows of the same sensor id and
timestamp, where one call leaves one. -/
theorem saveMeasurement_twice_eval :
    (saveMeasurement (fun _ => true) [] [⟨some 3600, Dbl.fin 5, true⟩] 1).stored =
      [{ sensor_id := 1, timestamp := some 3600, value := Dbl.fin 5, is_valid := 1 }] ∧
    (saveMeasurement (fun _ => true)
      (saveMeasurement (fun _ => true) [] [⟨some 3600, Dbl.fin 5, true⟩] 1).stored
      [⟨some 3600, Dbl.fin 5, true⟩] 1).stored =
      [{ sensor_id := 1, timestamp := some 3600, value := Dbl.fin 5, is_valid := 1 },
        { sensor_id := 1, timestamp := some 3600, value := Dbl.fin 5, is_valid := 1 }] ∧
    (saveMeasurement (fun _ => true)
      (saveMeasurement (fun _ => true) [] [⟨some 3600, Dbl.fin 5, true⟩] 1).stored
      [⟨some 3600, Dbl.fin 5, true⟩] 1).threw = false := by
  simp [saveMeasurement_ok (fun _ => true) (fun _ => rfl), measurementRow]

/-- The loop of `saveMeasurement` when the first failing write is that of the
point of index `i + j`: the rows of the open transaction and of the `j` points
written since are stored up to the last full hundred, and the exception is
thrown. -/
theorem saveLoop_fail (execOk : Nat → Bool) (sensorId : Int) (l : List DataPoint)
    (i j : Nat) (committed pending : List MeasurementRow)
    (hp : pending.length < 100) (hj : j < l.length)
    (hok : ∀ m, m < j → execOk (i + m) = true) (hfail : execOk (i + j) = false) :
    saveLoop execOk sensorId i l committed pending pending.length =
      { stored := committed ++
          (pending ++ (l.take j).map (measurementRow sensorId)).take
            ((pending.length + j) / 100 * 100),
        threw := true } := by
  induction l generalizing i j committed pending with
  | nil => simp at hj
  | cons p ps ih =>
    cases j with
    | zero =>
      have h0 : pending.length / 100 = 0 := Nat.div_eq_of_lt hp
      have hf : execOk i = false := by simpa using hfail
      simp [saveLoop, hf, h0]
    | succ j =>
      have hi : execOk i = true := by simpa using hok 0 (Nat.succ_pos j)
      have hj' : j < ps.length := by simpa using hj
      have hok' : ∀ m, m < j → execOk (i + 1 + m) = true := by
        intro m hm
        have := hok (m + 1) (by omega)
        rw [show i + 1 + m = i + (m + 1) by omega]; exact this
      have hfail' : execOk (i + 1 + j) = false := by
        rw [show i + 1 + j = i + (j + 1) by omega]; exact hfail
      simp only [saveLoop, insertMeasurement, hi, Bool.not_true, Bool.false_eq_true, if_false]
      by_cases hb : pending.length + 1 ≥ 100
      · have hlen : pending.length = 99 := by omega
        simp only [hb, if_true]
        have := ih (i + 1) j (committed ++ (pending ++ [measurementRow sensorId p])) []
          (by simp) hj' hok' hfail'
        simp only [List.length_nil, List.nil_append, Nat.zero_add] at this
        rw [this]
        have hq : (pending.length + (j + 1)) / 100 * 100 = 100 + j / 100 * 100 := by
          rw [hlen]
          have : (99 + (j + 1)) / 100 = 1 + j / 100 := by omega
          rw [this]; ring
        rw [hq]
        have hl : (pending ++ [measurementRow sensorId p]).length = 100 := by simp [hlen]
        simp only [List.take_succ_cons, List.map_cons, SaveResult.mk.injEq, and_true]
        rw [show pending ++ measurementRow sensorId p :: List.map (measurementRow sensorId)
            (List.take j ps) = (pending ++ [measurementRow sensorId p]) ++
              List.map (measurementRow sensorId) (List.take j ps) by simp]
        rw [List.take_append_eq_append_take, hl]
        simp [List.take_of_length_le, hl]
      · simp only [hb, if_false]
        have := ih (i + 1) j committed (pending ++ [measurementRow sensorId p])
          (by simp; omega) hj' hok' hfail'
        simp only [List.length_append, List.length_singleton] at this
        rw [this]
        simp only [List.take_succ_cons, List.map_cons, SaveResult.mk.injEq, and_true]
        rw [show pending.length + 1 + j = pending.length + (j + 1) by omega]
        simp

/-- C21: when the write of the point of index `k` is the first that fails,
`saveMeasurement` ends by the exception thrown again to its caller, and the
table holds the rows stored before the call followed by the rows of the first
`k / 100 * 100` points: the chunks committed earlier stay, the rows of the
current chunk are rolled back. -/
theorem saveMeasurement_fail (execOk : Nat → Bool) (stored : List MeasurementRow)
    (dataPoints : List DataPoint) (sensorId : Int) (k : Nat) (hk : k < dataPoints.length)
    (hok : ∀ m, m < k → execOk m = true) (hfail : execOk k = false) :
    (saveMeasurement execOk stored dataPoints sensorId).threw = true ∧
    (saveMeasurement execOk stored dataPoints sensorId).stored =
      stored ++ (dataPoints.take (k / 100 * 100)).map (measurementRow sensorId) := by
  have h := saveLoop_fail execOk sensorId dataPoints 0 k stored [] (by simp) hk
    (by simpa using hok) (by simpa using hfail)
  simp only [List.length_nil, List.nil_append, Nat.zero_add] at h
  simp only [saveMeasurement, h, true_and]
  congr 1
  rw [← List.map_take, List.take_take]
  congr 2
  have : k / 100 * 100 ≤ k := Nat.div_mul_le_self k 100
  omega

/-- A witness of C21: two points, the write of the second fails. -/
theorem saveMeasurement_fail_witness :
    (saveMeasurement (fun i => decide (i < 1)) []
      [⟨some 0, Dbl.fin 1, true⟩, ⟨some 3600, Dbl.fin 2, true⟩] 1).threw = true ∧
    (saveMeasurement (fun i => decide (i < 1)) []
      [⟨some 0, Dbl.fin 1, true⟩, ⟨some 3600, Dbl.fin 2, true⟩] 1).stored =
      [] ++ (List.take (1 / 100 * 100)
        [(⟨some 0, Dbl.fin 1, true⟩ : DataPoint), ⟨some 3600, Dbl.fin 2, true⟩]).map
          (measurementRow 1) :=
  saveMeasurement_fail (fun i => decide (i < 1)) [] _ 1 1 (by decide)
    (by intro m hm; simpa using hm) (by decide)

end DatabaseManager

/-! ## The two implementations of the aggregates -/

namespace Measurement

theorem foldl_avg_eq (l : List DataPoint) (r : Extrema) :
    l.foldl (fun (acc : Dbl × Int) point =>
        if point.isValid && !point.value.isnan then (Dbl.add acc.1 point.value, acc.2 + 1)
        else acc) (r.sum, r.count) =
      ((l.foldl extremaStep r).sum, (l.foldl extremaStep r).count) := by
  induction l generalizing r with
  | nil => rfl
  | cons p ps ih =>
    simp only [List.foldl_cons]
    by_cases h : (p.isValid && !p.value.isnan) = true
    · have hs : (extremaStep r p).sum = Dbl.add r.sum p.value ∧
          (extremaStep r p).count = r.count + 1 := by
        simp only [extremaStep, h, if_true]
        split_ifs <;> exact ⟨rfl, rfl⟩
      rw [← ih (extremaStep r p), hs.1, hs.2]
      simp only [h, if_true]
    · have hs : extremaStep r p = r := by
        simp only [extremaStep, h]; rfl
      rw [hs, ← ih r]
      simp only [h]; rfl

/-- The mean of `analyzeData` is the mean of `avgValue()`, for every sequence. -/
theorem analyzeData_avgValue (m_data : List DataPoint) :
    (analyzeData m_data).avgValue = avgValue m_data := by
  have h := foldl_avg_eq m_data Extrema.init
  have h0 : (Extrema.init.sum, Extrema.init.count) = (Dbl.fin 0, (0 : Int)) := rfl
  rw [h0] at h
  simp only [avgValue, h, analyzeData]
  split_ifs <;> rfl

/-- C30: for the single valid point of value minus infinity `maxValue()` returns
minus infinity, while `analyzeData().maxValue` stays the sentinel `lowest()`,
which no comparison `value > lowest()` replaced; the two means agree. -/
theorem analyzeData_maxValue_ninf_eval :
    maxValue [⟨some 0, Dbl.ninf, true⟩] = Dbl.ninf ∧
    (analyzeData [⟨some 0, Dbl.ninf, true⟩]).maxValue = dblLowest ∧
    (analyzeData [⟨some 0, Dbl.ninf, true⟩]).maxValue ≠ maxValue [⟨some 0, Dbl.ninf, true⟩] ∧
    (analyzeData [⟨some 0, Dbl.ninf, true⟩]).avgValue = avgValue [⟨some 0, Dbl.ninf, true⟩] := by
  have h1 : maxValue [⟨some 0, Dbl.ninf, true⟩] = Dbl.ninf := by
    simp [maxValue, maxStep, Dbl.isnan]
  have h2 : (analyzeData [⟨some 0, Dbl.ninf, true⟩]).maxValue = dblLowest := by
    simp [analyzeData, extremaStep, Extrema.init, Dbl.isnan, Dbl.lt, Dbl.gt, dblMax, dblLowest]
  refine ⟨h1, h2, ?_, analyzeData_avgValue _⟩
  rw [h1, h2]
  simp [dblLowest]

theorem covSum_cons (p : ℚ × ℚ) (l : List (ℚ × ℚ)) :
    covSum (p :: l) = covSum l + crossSum p.1 p.2 l := by
  have hc : crossSum p.1 p.2 l = (l.map (fun q => q.1 * q.2)).sum -
      p.1 * (l.map (fun q => q.2)).sum - p.2 * (l.map (fun q => q.1)).sum +
      (l.length : ℚ) * (p.1 * p.2) := by
    induction l with
    | nil => simp [crossSum]
    | cons q qs ih =>
      simp only [crossSum, List.map_cons, List.sum_cons, List.length_cons] at ih ⊢
      rw [ih]; push_cast; ring
  rw [hc]
  simp only [covSum, List.map_cons, List.sum_cons, List.length_cons]
  push_cast; ring

theorem crossSum_nonneg (x y : ℚ) (l : List (ℚ × ℚ))
    (h : ∀ q ∈ l, x < q.1 ∧ y < q.2) : 0 ≤ crossSum x y l := by
  induction l with
  | nil => simp [crossSum]
  | cons q qs ih =>
    have hq := h q (List.mem_cons_self _ _)
    have := ih (fun r hr => h r (List.mem_cons_of_mem _ hr))
    simp only [crossSum, List.map_cons, List.sum_cons] at this ⊢
    have hpos : 0 < (q.1 - x) * (q.2 - y) := mul_pos (by linarith) (by linarith)
    linarith

theorem crossSum_pos (x y : ℚ) (l : List (ℚ × ℚ)) (hne : l ≠ [])
    (h : ∀ q ∈ l, x < q.1 ∧ y < q.2) : 0 < crossSum x y l := by
  cases l with
  | nil => exact absurd rfl hne
  | cons q qs =>
    have hq := h q (List.mem_cons_self _ _)
    have := crossSum_nonneg x y qs (fun r hr => h r (List.mem_cons_of_mem _ hr))
    simp only [crossSum, List.map_cons, List.sum_cons] at this ⊢
    have hpos : 0 < (q.1 - x) * (q.2 - y) := mul_pos (by linarith) (by linarith)
    linarith

theorem covSum_nonneg (l : List (ℚ × ℚ))
    (h : l.Pairwise (fun p q => p.1 < q.1 ∧ p.2 < q.2)) : 0 ≤ covSum l := by
  induction l with
  | nil => simp [covSum]
  | cons p ps ih =>
    rw [List.pairwise_cons] at h
    rw [covSum_cons]
    have := ih h.2
    have := crossSum_nonneg p.1 p.2 ps h.1
    linarith

theorem covSum_pos (l : List (ℚ × ℚ)) (hlen : 2 ≤ l.length)
    (h : l.Pairwise (fun p q => p.1 < q.1 ∧ p.2 < q.2)) : 0 < covSum l := by
  cases l with
  | nil => simp at hlen
  | cons p ps =>
    rw [List.pairwise_cons] at h
    rw [covSum_cons]
    have := covSum_nonneg ps h.2
    have hne : ps ≠ [] := by
      intro h0; rw [h0] at hlen; simp at hlen
    have := crossSum_pos p.1 p.2 ps hne h.1
    linarith

theorem foldl_sumsStep_fin (l : List DataPoint)
    (hvalid : ∀ p ∈ l, p.isValid = true ∧ ∃ q, p.value = Dbl.fin q)
    (a b c d : ℚ) (n : Int) :
    l.foldl sumsStep
        { sumX := Dbl.fin a, sumY := Dbl.fin b, sumXY := Dbl.fin c, sumX2 := Dbl.fin d, n := n } =
      { sumX := Dbl.fin (a + ((l.map xyOf).map (fun p => p.1)).sum),
        sumY := Dbl.fin (b + ((l.map xyOf).map (fun p => p.2)).sum),
        sumXY := Dbl.fin (c + ((l.map xyOf).map (fun p => p.1 * p.2)).sum),
        sumX2 := Dbl.fin (d + ((l.map xyOf).map (fun p => p.1 * p.1)).sum),
        n := n + (l.length : Nat) } := by
  induction l generalizing a b c d n with
  | nil => simp
  | cons p ps ih =>
    obtain ⟨hv, q, hq⟩ := hvalid p (List.mem_cons_self _ _)
    have hstep : sumsStep
        { sumX := Dbl.fin a, sumY := Dbl.fin b, sumXY := Dbl.fin c, sumX2 := Dbl.fin d, n := n } p =
        { sumX := Dbl.fin (a + (xyOf p).1), sumY := Dbl.fin (b + (xyOf p).2),
          sumXY := Dbl.fin (c + (xyOf p).1 * (xyOf p).2),
          sumX2 := Dbl.fin (d + (xyOf p).1 * (xyOf p).1), n := n + 1 } := by
      simp [sumsStep, hv, hq, xyOf, Dbl.ofInt, Dbl.div, Dbl.add, Dbl.mul]
    rw [List.foldl_cons, hstep, ih (fun r hr => hvalid r (List.mem_cons_of_mem _ hr))]
    simp only [List.map_cons, List.sum_cons, List.length_cons, Sums.mk.injEq, Dbl.fin.injEq]
    refine ⟨by ring, by ring, by ring, by ring, ?_⟩
    push_cast; ring

theorem slope_of_fin (l : List DataPoint)
    (hvalid : ∀ p ∈ l, p.isValid = true ∧ ∃ q, p.value = Dbl.fin q)
    (hD : covSum ((l.map xyOf).map (fun p => (p.1, p.1))) ≠ 0) :
    slope l = Dbl.fin (covSum (l.map xyOf) / covSum ((l.map xyOf).map (fun p => (p.1, p.1)))) := by
  have h := foldl_sumsStep_fin l hvalid 0 0 0 0 0
  have hD2 : ((l.length : ℚ) * ((l.map xyOf).map (fun p => p.1 * p.1)).sum +
      -(((l.map xyOf).map (fun p => p.1)).sum * ((l.map xyOf).map (fun p => p.1)).sum)) =
      covSum ((l.map xyOf).map (fun p => (p.1, p.1))) := by
    simp only [covSum, List.map_map, List.length_map, Function.comp_def]
    ring
  have hN2 : ((l.length : ℚ) * ((l.map xyOf).map (fun p => p.1 * p.2)).sum +
      -(((l.map xyOf).map (fun p => p.1)).sum * ((l.map xyOf).map (fun p => p.2)).sum)) =
      covSum (l.map xyOf) := by
    simp only [covSum, List.length_map]
    ring
  simp only [slope, Sums.init, h, zero_add, Dbl.ofInt, Dbl.mul, Dbl.sub, Dbl.neg, Dbl.add,
    Dbl.div]
  push_cast
  rw [hD2, hN2, if_neg hD]

theorem usableCount_of_fin (l : List DataPoint)
    (hvalid : ∀ p ∈ l, p.isValid = true ∧ ∃ q, p.value = Dbl.fin q) :
    usableCount l = l.length := by
  unfold usableCount
  rw [List.countP_eq_length]
  intro p hp
  obtain ⟨hv, q, hq⟩ := hvalid p hp
  simp [hv, hq, Dbl.isnan]

theorem classify_of_pos (a : ℚ) (ha : 0 < a) :
    classify (Dbl.fin a) = TrendText.stabilne ∨
      classify (Dbl.fin a) = TrendText.wzrost (Dbl.fin a) := by
  unfold classify
  by_cases h : Dbl.lt (Dbl.abs (Dbl.fin a)) (Dbl.fin (1 / 100)) = true
  · left; rw [if_pos h]
  · right
    rw [if_neg h]
    have hge : Dbl.ge (Dbl.fin a) (Dbl.fin (1 / 100)) = true := by
      simp only [Dbl.lt, Dbl.abs, abs_of_pos ha, decide_eq_true_eq, not_lt] at h
      simp only [Dbl.ge, Dbl.lt, Bool.not_eq_true', decide_eq_false_iff_not, not_lt]
      exact h
    rw [if_pos hge]

/-- C29 (the claim as stated fails): the point of value minus infinity followed,
one hour later, by a point of value 1 satisfies the stated conditions: both
points are valid and not NaN, the timestamps and the values increase strictly.
The slope of `analyzeData` is NaN there (`sumY` is minus infinity, and the
numerator is the difference of two infinities of the same sign), not a positive
number, and the trend is the decreasing one, `Spadek`; no rounding is involved.
Moreover the trend of the method in binary64 can be `Spadek` at finite values:
for the values 10 and 20 at 2024-01-15 01:00:00 and 01:00:01 UTC the slope is
36000 in exact arithmetic and -22.75555419921875 in binary64, where the
denominator `n * sumX2 - sumX * sumX` is rounded to a negative number. -/
theorem slope_pos_counterexample :
    2 ≤ [(⟨some 0, Dbl.ninf, true⟩ : DataPoint), ⟨some 3600, Dbl.fin 1, true⟩].length ∧
    (∀ p ∈ [(⟨some 0, Dbl.ninf, true⟩ : DataPoint), ⟨some 3600, Dbl.fin 1, true⟩],
      p.isValid = true ∧ p.timestamp.isValid = true ∧ p.value.isnan = false) ∧
    [(⟨some 0, Dbl.ninf, true⟩ : DataPoint), ⟨some 3600, Dbl.fin 1, true⟩].Pairwise
      (fun a b => QDateTime.lt a.timestamp b.timestamp = true ∧
        a.timestamp.toSecsSinceEpoch < b.timestamp.toSecsSinceEpoch ∧
        Dbl.lt a.value b.value = true) ∧
    slope [⟨some 0, Dbl.ninf, true⟩, ⟨some 3600, Dbl.fin 1, true⟩] = Dbl.nan ∧
    (¬ ∃ a : ℚ, 0 < a ∧
      slope [⟨some 0, Dbl.ninf, true⟩, ⟨some 3600, Dbl.fin 1, true⟩] = Dbl.fin a) ∧
    (analyzeData [⟨some 0, Dbl.ninf, true⟩, ⟨some 3600, Dbl.fin 1, true⟩]).trendValue =
      some Dbl.nan ∧
    (analyzeData [⟨some 0, Dbl.ninf, true⟩, ⟨some 3600, Dbl.fin 1, true⟩]).trend =
      TrendText.spadek Dbl.nan ∧
    (analyzeData64 [⟨some 0, Dbl.ninf, true⟩, ⟨some 3600, Dbl.fin 1, true⟩]).trend =
      TrendText.spadek Dbl.nan ∧
    (analyzeData [⟨some 1705280400, Dbl.fin 10, true⟩,
      ⟨some 1705280401, Dbl.fin 20, true⟩]).trendValue = some (Dbl.fin 36000) ∧
    (analyzeData64 [⟨some 1705280400, Dbl.fin 10, true⟩,
      ⟨some 1705280401, Dbl.fin 20, true⟩]).trendValue = some (Dbl.fin (-372827 / 16384)) ∧
    (analyzeData64 [⟨some 1705280400, Dbl.fin 10, true⟩,
      ⟨some 1705280401, Dbl.fin 20, true⟩]).trend =
        TrendText.spadek (Dbl.fin (-372827 / 16384)) := by
  have h64 : (analyzeData64 [⟨some 0, Dbl.ninf, true⟩, ⟨some 3600, Dbl.fin 1, true⟩]).trend =
        TrendText.spadek Dbl.nan ∧
      (analyzeData [⟨some 1705280400, Dbl.fin 10, true⟩,
        ⟨some 1705280401, Dbl.fin 20, true⟩]).trendValue = some (Dbl.fin 36000) ∧
      (analyzeData64 [⟨some 1705280400, Dbl.fin 10, true⟩,
        ⟨some 1705280401, Dbl.fin 20, true⟩]).trendValue =
          some (Dbl.fin (-372827 / 16384)) ∧
      (analyzeData64 [⟨some 1705280400, Dbl.fin 10, true⟩,
        ⟨some 1705280401, Dbl.fin 20, true⟩]).trend =
          TrendText.spadek (Dbl.fin (-372827 / 16384)) := by
    decide!
  have hs : slope [⟨some 0, Dbl.ninf, true⟩, ⟨some 3600, Dbl.fin 1, true⟩] = Dbl.nan := by
    simp [slope, sumsStep, Sums.init, QDateTime.toSecsSinceEpoch, Dbl.ofInt, Dbl.div, Dbl.add,
      Dbl.mul, Dbl.sub, Dbl.neg, Dbl.signedInf]
  have hu : 2 ≤ usableCount [⟨some 0, Dbl.ninf, true⟩, ⟨some 3600, Dbl.fin 1, true⟩] := by
    simp [usableCount, Dbl.isnan]
  have ht := analyzeData_trend_of_two _ hu
  refine ⟨by simp, ?_, ?_, hs, ?_, ?_, ?_, h64⟩
  · intro p hp
    simp only [List.mem_cons, List.mem_singleton, List.not_mem_nil, or_false] at hp
    rcases hp with rfl | rfl <;> exact ⟨rfl, rfl, rfl⟩
  · simp [QDateTime.lt, QDateTime.toSecsSinceEpoch, Dbl.lt]
  · rw [hs]
    rintro ⟨a, _, ha⟩
    exact Dbl.noConfusion ha
  · rw [ht.1, hs]
  · rw [ht.2, hs]
    simp [classify, Dbl.abs, Dbl.lt, Dbl.ge]

/-- Valid timestamps that increase in the order of `QDateTime` have increasing
seconds since the epoch. -/
theorem toSecsSinceEpoch_lt_of_lt (a b : QDateTime) (ha : a.isValid = true)
    (h : QDateTime.lt a b = true) : a.toSecsSinceEpoch < b.toSecsSinceEpoch := by
  cases a with
  | none => simp [QDateTime.isValid] at ha
  | some sa =>
    cases b with
    | none => simp [QDateTime.lt] at h
    | some sb => simpa [QDateTime.lt, QDateTime.toSecsSinceEpoch] using h

/-- C29 (as amended): for a sequence of at least two valid points with finite values,
whose timestamps (their seconds since the epoch, of which `analyzeData` makes
the hours `x`) and whose values both increase strictly in iteration order, the
slope that `analyzeData` computes is, in exact arithmetic, a positive number,
and the trend text is the stable or the increasing one, never the decreasing
one. -/
theorem slope_pos_of_increasing (m_data : List DataPoint) (hlen : 2 ≤ m_data.length)
    (hvalid : ∀ p ∈ m_data, p.isValid = true ∧ ∃ q, p.value = Dbl.fin q)
    (hinc : m_data.Pairwise (fun a b =>
      a.timestamp.toSecsSinceEpoch < b.timestamp.toSecsSinceEpoch ∧
        Dbl.lt a.value b.value = true)) :
    ∃ a : ℚ, 0 < a ∧ slope m_data = Dbl.fin a ∧
      (analyzeData m_data).trendValue = some (Dbl.fin a) ∧
      ((analyzeData m_data).trend = TrendText.stabilne ∨
        (analyzeData m_data).trend = TrendText.wzrost (Dbl.fin a)) := by
  have hxy : (m_data.map xyOf).Pairwise (fun p q => p.1 < q.1 ∧ p.2 < q.2) := by
    rw [List.pairwise_map]
    refine List.Pairwise.imp_of_mem ?_ hinc
    intro a b ha hb hab
    obtain ⟨_, qa, hqa⟩ := hvalid a ha
    obtain ⟨_, qb, hqb⟩ := hvalid b hb
    obtain ⟨h1, h2⟩ := hab
    rw [hqa, hqb] at h2
    simp only [Dbl.lt, decide_eq_true_eq] at h2
    simp only [xyOf, hqa, hqb]
    refine ⟨?_, h2⟩
    have : (a.timestamp.toSecsSinceEpoch : ℚ) < (b.timestamp.toSecsSinceEpoch : ℚ) := by
      exact_mod_cast h1
    linarith
  have hxx : ((m_data.map xyOf).map (fun p => (p.1, p.1))).Pairwise
      (fun p q => p.1 < q.1 ∧ p.2 < q.2) := by
    rw [List.pairwise_map]
    exact hxy.imp (fun h => ⟨h.1, h.1⟩)
  have hN := covSum_pos (m_data.map xyOf) (by simpa using hlen) hxy
  have hD := covSum_pos ((m_data.map xyOf).map (fun p => (p.1, p.1)))
    (by simpa using hlen) hxx
  have hs := slope_of_fin m_data hvalid (ne_of_gt hD)
  have hu : 2 ≤ usableCount m_data := by rw [usableCount_of_fin m_data hvalid]; exact hlen
  have ht := analyzeData_trend_of_two m_data hu
  refine ⟨_, div_pos hN hD, hs, ?_, ?_⟩
  · rw [ht.1, hs]
  · rw [ht.2, hs]
    exact classify_of_pos _ (div_pos hN hD)

/-- A witness of C29: two valid points one hour apart, with the values 1 and 2. -/
theorem slope_pos_of_increasing_witness :
    ∃ a : ℚ, 0 < a ∧
      slope [⟨some 0, Dbl.fin 1, true⟩, ⟨some 3600, Dbl.fin 2, true⟩] = Dbl.fin a ∧
      (analyzeData [⟨some 0, Dbl.fin 1, true⟩, ⟨some 3600, Dbl.fin 2, true⟩]).trendValue =
        some (Dbl.fin a) ∧
      ((analyzeData [⟨some 0, Dbl.fin 1, true⟩, ⟨some 3600, Dbl.fin 2, true⟩]).trend =
          TrendText.stabilne ∨
        (analyzeData [⟨some 0, Dbl.fin 1, true⟩, ⟨some 3600, Dbl.fin 2, true⟩]).trend =
          TrendText.wzrost (Dbl.fin a)) :=
  slope_pos_of_increasing _ (by simp)
    (by
      intro p hp
      simp only [List.mem_cons, List.mem_singleton, List.not_mem_nil, or_false] at hp
      rcases hp with rfl | rfl
      · exact ⟨rfl, 1, rfl⟩
      · exact ⟨rfl, 2, rfl⟩)
    (by simp [QDateTime.toSecsSinceEpoch, Dbl.lt])

end Measurement
